import Mathlib

/-!
# GraphicsEngine (QZRayTracer): geometry layer, the YZ rectangle and the scene builders

A shallow embedding of

* `QZRayTracer/src/core/geometry.h` (vectors, points, normals, rays),
* `QZRayTracer-GPU/src/shape/yz_rect.h` (the axis-aligned rectangle in the YZ plane), and
* `QZRayTracer-GPU/src/scene/example.h` (the kernels that build and free a scene).

## The scalar models

The template classes `Vector3<T>`, `Point3<T>`, ... are embedded as structures over an
arbitrary scalar type `T`, exactly as they are templates in the source.  The scalar `Float`
of the source is a typedef; its literals (`0.001f`) are those of `float`.  Three scalar
types are used:

* `raytracer.Float` is exact arithmetic with the special values of IEEE-754: a finite
  value is an exact rational (no rounding, no overflow), and `+∞`, `-∞` and `NaN` are
  kept, because the source divides by quantities that can be zero and then compares the
  result.  The sign of a zero is not modelled: a zero is read as `+0`.
* `raytracer.FP binary32` is the binary32 format of IEEE-754: every operation is rounded
  once, to nearest, ties to even, a result too large becomes an infinity and a result too
  small a subnormal number or zero.  Again a zero is read as `+0`.  It serves to run the
  code on concrete inputs on which rounding shows.
* an arbitrary linearly ordered field `K` stands for exact arithmetic in the purely
  algebraic functions (`Normalize`, `CoordinateSystem`, ...).  `std::sqrt` is taken as a
  parameter of those functions.

The rectangle is embedded over `Float` (`YZRect.Hit`) and once more over an arbitrary
scalar (`Generic.YZRect.Hit`); the former is the latter read at `Float`
(`YZRect.Hit_toGeneric`).  A statement proved over an arbitrary scalar holds of whatever
the arithmetic computes, rounded or not.  A statement over `Float` or over a field `K`
is a statement about exact arithmetic, unless it only concerns the tests the code makes
on the values it has computed.

`DCHECK(...)` is the debug-only assertion of the source and is compiled out under `NDEBUG`;
the definitions below embed that build, except those whose name ends in `Dbg` and the
`index` functions, which embed the debug build and return `none` when a `DCHECK` trips.
`CHECK_NE(f, 0)` is an unconditional check: a function that executes it returns `Option`,
with `none` for the trap.

## The device model

Device memory is an append-only heap of objects, an address being the position of the
allocation; `delete` is recorded in a log of freed addresses.  A kernel is a function of
the identity of the thread that runs it and of the device state.  The stream of
`curand_uniform` is a function of the number of draws made so far.
-/

namespace raytracer

/-! ## The scalar `Float` -/

/-- The scalar type `Float` of the source: exact rationals together with the IEEE-754
special values. -/
inductive Float where
  | fin (q : ℚ)
  | pinf
  | ninf
  | nan
  deriving DecidableEq

namespace Float

/-- IEEE-754 addition (exact on finite values). -/
def add : Float → Float → Float
  | nan, _ => nan
  | _, nan => nan
  | fin a, fin b => fin (a + b)
  | pinf, ninf => nan
  | ninf, pinf => nan
  | pinf, _ => pinf
  | _, pinf => pinf
  | ninf, _ => ninf
  | _, ninf => ninf

/-- IEEE-754 negation. -/
def neg : Float → Float
  | fin a => fin (-a)
  | pinf => ninf
  | ninf => pinf
  | nan => nan

/-- IEEE-754 subtraction: `a - b` is `a + (-b)`. -/
def sub (a b : Float) : Float := add a (neg b)

/-- IEEE-754 multiplication (exact on finite values); `0 * ∞` is `NaN`. -/
def mul : Float → Float → Float
  | nan, _ => nan
  | _, nan => nan
  | fin a, fin b => fin (a * b)
  | fin a, pinf => if a = 0 then nan else if 0 < a then pinf else ninf
  | fin a, ninf => if a = 0 then nan else if 0 < a then ninf else pinf
  | pinf, fin b => if b = 0 then nan else if 0 < b then pinf else ninf
  | ninf, fin b => if b = 0 then nan else if 0 < b then ninf else pinf
  | pinf, pinf => pinf
  | ninf, ninf => pinf
  | pinf, ninf => ninf
  | ninf, pinf => ninf

/-- IEEE-754 division (exact on finite values): `0 / 0` and `∞ / ∞` are `NaN`, a non-zero
value divided by zero is an infinity, a finite value divided by an infinity is zero. -/
def div : Float → Float → Float
  | nan, _ => nan
  | _, nan => nan
  | fin a, fin b =>
      if b = 0 then (if a = 0 then nan else if 0 < a then pinf else ninf) else fin (a / b)
  | fin _, pinf => fin 0
  | fin _, ninf => fin 0
  | pinf, fin b => if 0 ≤ b then pinf else ninf
  | ninf, fin b => if 0 ≤ b then ninf else pinf
  | pinf, pinf => nan
  | pinf, ninf => nan
  | ninf, pinf => nan
  | ninf, ninf => nan

/-- IEEE-754 `<`: false as soon as one side is `NaN`. -/
def blt : Float → Float → Bool
  | fin a, fin b => decide (a < b)
  | ninf, fin _ => true
  | ninf, pinf => true
  | fin _, pinf => true
  | _, _ => false

/-- IEEE-754 `<=`: false as soon as one side is `NaN`. -/
def ble : Float → Float → Bool
  | fin a, fin b => decide (a ≤ b)
  | ninf, fin _ => true
  | ninf, pinf => true
  | ninf, ninf => true
  | fin _, pinf => true
  | pinf, pinf => true
  | _, _ => false

/-- The C library `isnan`. -/
def isNaN : Float → Bool
  | nan => true
  | _ => false

instance : Add Float := ⟨add⟩
instance : Neg Float := ⟨neg⟩
instance : Sub Float := ⟨sub⟩
instance : Mul Float := ⟨mul⟩
instance : Div Float := ⟨div⟩
instance : LT Float := ⟨fun a b => blt a b = true⟩
instance : LE Float := ⟨fun a b => ble a b = true⟩
instance (a b : Float) : Decidable (a < b) := inferInstanceAs (Decidable (blt a b = true))
instance (a b : Float) : Decidable (a ≤ b) := inferInstanceAs (Decidable (ble a b = true))
instance : Zero Float := ⟨fin 0⟩
instance : One Float := ⟨fin 1⟩
instance : OfScientific Float := ⟨fun m s e => fin (OfScientific.ofScientific m s e)⟩
instance : Inhabited Float := ⟨fin 0⟩

end Float

/-! ## Binary floating-point scalars

The IEEE-754 binary formats, with every operation rounded once, to nearest, ties to even;
results too large become an infinity and results too small become subnormal or zero.  As
in `Float` above, the sign of a zero is not modelled: a zero is read as `+0`. -/

/-- A binary floating-point format of IEEE-754: the precision `prec` (number of significand
bits, the hidden bit included) and the exponent `emin` of the smallest normal number; the
largest exponent is `1 - emin`. -/
structure Format where
  prec : ℕ
  emin : ℤ
  deriving DecidableEq

/-- The largest exponent of a format. -/
def Format.emax (f : Format) : ℤ := 1 - f.emin

/-- The format of `float`: 24 significand bits, exponents from -126 to 127. -/
def binary32 : Format := ⟨24, -126⟩

/-- The values of a binary floating-point format: a finite value `m * 2 ^ e`, kept in lowest
terms (`m` odd, or `m = 0` and `e = 0`), the two infinities and NaN. -/
inductive FP (f : Format) where
  | fin (m : ℤ) (e : ℤ)
  | pinf
  | ninf
  | nan
  deriving DecidableEq

namespace FP
variable {f : Format}

/-- The exact value of a finite floating-point number (and 0 for the special values). -/
def toRat : FP f → ℚ
  | fin m e => m * 2 ^ e
  | _ => 0

/-- Strip (at most `fuel`) trailing zero bits of `n`, raising the exponent. -/
def strip : ℕ → ℕ → ℤ → ℕ × ℤ
  | 0, n, e => (n, e)
  | fuel + 1, n, e => if n % 2 = 0 ∧ n ≠ 0 then strip fuel (n / 2) (e + 1) else (n, e)

/-- The finite value `± n * 2 ^ e` in lowest terms. -/
def canon (neg : Bool) (n : ℕ) (e : ℤ) : FP f :=
  if n = 0 then fin 0 0
  else
    let r := strip n n e
    fin (if neg then -(r.1 : ℤ) else (r.1 : ℤ)) r.2

/-- The position of the leading bit of `n`, found with at most `fuel` halvings. -/
def log2Fuel : ℕ → ℕ → ℕ
  | 0, _ => 0
  | fuel + 1, n => if n ≤ 1 then 0 else log2Fuel fuel (n / 2) + 1

/-- The integer `floor (log2 n)` for positive `n`. -/
def log2 (n : ℕ) : ℕ := log2Fuel n n

/-- The integer `floor (log2 (N / D))` for positive `N` and `D`. -/
def floorLog2 (N D : ℕ) : ℤ :=
  let l : ℤ := (log2 N : ℤ) - (log2 D : ℤ)
  -- `2 ^ l ≤ N / D` is `D * 2 ^ l ≤ N`
  if l ≥ 0 then (if D * 2 ^ l.toNat ≤ N then l else l - 1)
  else (if D ≤ N * 2 ^ (-l).toNat then l else l - 1)

/-- Round the non-negative rational `N / D` (with `D ≠ 0`) to the nearest value of the
format, ties to even, and give it the sign `neg`: the rounding of every correctly rounded
operation.  The result is a multiple of `2 ^ q`, where `q` is the exponent of the last
significand bit at the magnitude of `N / D` (fixed at `emin - prec + 1` in the subnormal
range). -/
def round (f : Format) (neg : Bool) (N D : ℕ) : FP f :=
  if N = 0 then fin 0 0
  else
    let l := floorLog2 N D
    let q : ℤ := max l f.emin - ((f.prec : ℤ) - 1)
    let num : ℕ := if q ≥ 0 then N else N * 2 ^ (-q).toNat
    let den : ℕ := if q ≥ 0 then D * 2 ^ q.toNat else D
    let n0 := num / den
    let r := num % den
    let n := if 2 * r > den then n0 + 1
      else if 2 * r = den then (if n0 % 2 = 0 then n0 else n0 + 1)
      else n0
    -- overflow: `n * 2 ^ q ≥ 2 ^ (emax + 1)`
    if q + (f.prec : ℤ) - 1 > f.emax ∨ (q + (f.prec : ℤ) - 1 = f.emax ∧ n = 2 ^ f.prec) then
      (if neg then ninf else pinf)
    else canon neg n q

/-- Round the dyadic number `M * 2 ^ E`. -/
def roundDyadic (f : Format) (M : ℤ) (E : ℤ) : FP f :=
  if E ≥ 0 then round f (decide (M < 0)) (M.natAbs * 2 ^ E.toNat) 1
  else round f (decide (M < 0)) M.natAbs (2 ^ (-E).toNat)

/-- Addition: the rounded sum; `∞ + (-∞)` is NaN. -/
def add : FP f → FP f → FP f
  | nan, _ => nan
  | _, nan => nan
  | fin m1 e1, fin m2 e2 =>
    let e := min e1 e2
    roundDyadic f (m1 * ((2 ^ (e1 - e).toNat : ℕ) : ℤ) + m2 * ((2 ^ (e2 - e).toNat : ℕ) : ℤ)) e
  | pinf, ninf => nan
  | ninf, pinf => nan
  | pinf, _ => pinf
  | _, pinf => pinf
  | ninf, _ => ninf
  | _, ninf => ninf

/-- Negation. -/
def neg : FP f → FP f
  | fin m e => fin (-m) e
  | pinf => ninf
  | ninf => pinf
  | nan => nan

/-- Subtraction. -/
def sub (a b : FP f) : FP f := add a (neg b)

/-- Multiplication: the rounded product; `0 * ∞` is NaN. -/
def mul : FP f → FP f → FP f
  | nan, _ => nan
  | _, nan => nan
  | fin m1 e1, fin m2 e2 => roundDyadic f (m1 * m2) (e1 + e2)
  | fin a _, pinf => if a = 0 then nan else if 0 < a then pinf else ninf
  | fin a _, ninf => if a = 0 then nan else if 0 < a then ninf else pinf
  | pinf, fin b _ => if b = 0 then nan else if 0 < b then pinf else ninf
  | ninf, fin b _ => if b = 0 then nan else if 0 < b then ninf else pinf
  | pinf, pinf => pinf
  | ninf, ninf => pinf
  | pinf, ninf => ninf
  | ninf, pinf => ninf

/-- Division: the rounded quotient; `x / 0` is an infinity of the sign of `x` for `x ≠ 0`,
`0 / 0` and `∞ / ∞` are NaN. -/
def div : FP f → FP f → FP f
  | nan, _ => nan
  | _, nan => nan
  | fin m1 e1, fin m2 e2 =>
    if m2 = 0 then (if m1 = 0 then nan else if 0 < m1 then pinf else ninf)
    else
      let neg := decide ((m1 < 0) ≠ (m2 < 0))
      if e1 ≥ e2 then round f neg (m1.natAbs * 2 ^ (e1 - e2).toNat) m2.natAbs
      else round f neg m1.natAbs (m2.natAbs * 2 ^ (e2 - e1).toNat)
  | fin _ _, pinf => fin 0 0
  | fin _ _, ninf => fin 0 0
  | pinf, fin b _ => if 0 ≤ b then pinf else ninf
  | ninf, fin b _ => if 0 ≤ b then ninf else pinf
  | pinf, pinf => nan
  | pinf, ninf => nan
  | ninf, pinf => nan
  | ninf, ninf => nan

/-- The integer square root `floor (sqrt W)`, found bit by bit from bit `i` down. -/
def isqrtBits (W : ℕ) : ℕ → ℕ → ℕ
  | 0, s => if (s + 1) * (s + 1) ≤ W then s + 1 else s
  | i + 1, s =>
    if (s + 2 ^ (i + 1)) * (s + 2 ^ (i + 1)) ≤ W then isqrtBits W i (s + 2 ^ (i + 1))
    else isqrtBits W i s

/-- The function `std::sqrt`: the correctly rounded square root. -/
def sqrt : FP f → FP f
  | nan => nan
  | ninf => nan
  | pinf => pinf
  | fin m e =>
    if m < 0 then nan
    else if m = 0 then fin 0 0
    else
      -- the value is `m * 2 ^ e`; the result has exponent `l`, its last bit the weight `2 ^ q`
      let lv : ℤ := (log2 m.natAbs : ℤ) + e
      let l : ℤ := lv / 2
      let q : ℤ := l - ((f.prec : ℤ) - 1)
      -- `W = m * 2 ^ (e - 2 q)` is an integer of about `2 * prec` bits
      let W : ℕ := m.natAbs * 2 ^ (e - 2 * q).toNat
      let s := isqrtBits W f.prec 0
      let n := if W > s * s + s then s + 1 else s
      canon false n q

/-- The function `std::abs`. -/
def abs : FP f → FP f
  | fin m e => fin (if m < 0 then -m else m) e
  | pinf => pinf
  | ninf => pinf
  | nan => nan

/-- The comparison `a < b`: false when either side is NaN. -/
def blt : FP f → FP f → Bool
  | fin m1 e1, fin m2 e2 =>
    let e := min e1 e2
    decide (m1 * ((2 ^ (e1 - e).toNat : ℕ) : ℤ) < m2 * ((2 ^ (e2 - e).toNat : ℕ) : ℤ))
  | ninf, fin _ _ => true
  | ninf, pinf => true
  | fin _ _, pinf => true
  | _, _ => false

/-- The comparison `a <= b`: false when either side is NaN. -/
def ble : FP f → FP f → Bool
  | fin m1 e1, fin m2 e2 =>
    let e := min e1 e2
    decide (m1 * ((2 ^ (e1 - e).toNat : ℕ) : ℤ) ≤ m2 * ((2 ^ (e2 - e).toNat : ℕ) : ℤ))
  | ninf, fin _ _ => true
  | ninf, pinf => true
  | ninf, ninf => true
  | fin _ _, pinf => true
  | pinf, pinf => true
  | _, _ => false

instance : Add (FP f) := ⟨add⟩
instance : Neg (FP f) := ⟨neg⟩
instance : Sub (FP f) := ⟨sub⟩
instance : Mul (FP f) := ⟨mul⟩
instance : Div (FP f) := ⟨div⟩
instance : Zero (FP f) := ⟨fin 0 0⟩
instance : One (FP f) := ⟨fin 1 0⟩
instance : LT (FP f) := ⟨fun a b => blt a b = true⟩
instance : LE (FP f) := ⟨fun a b => ble a b = true⟩
instance (a b : FP f) : Decidable (a < b) := inferInstanceAs (Decidable (blt a b = true))
instance (a b : FP f) : Decidable (a ≤ b) := inferInstanceAs (Decidable (ble a b = true))
/-- A decimal literal `m * 10 ^ (-e)` or `m * 10 ^ e`: the value of the format nearest to
it. -/
instance : OfScientific (FP f) :=
  ⟨fun m s e => if s then round f false m (10 ^ e) else round f false (m * 10 ^ e) 1⟩
/-- An integer literal: the value of the format nearest to it. -/
instance (n : ℕ) [n.AtLeastTwo] : OfNat (FP f) n := ⟨round f false n 1⟩
instance : Inhabited (FP f) := ⟨fin 0 0⟩

end FP

/-! ## Vectors, points and normals (`geometry.h`) -/

/-- The class template `Vector2<T>`. -/
structure Vector2 (T : Type) where
  x : T
  y : T
  deriving DecidableEq

/-- The class template `Vector3<T>`. -/
structure Vector3 (T : Type) where
  x : T
  y : T
  z : T
  deriving DecidableEq

/-- The class template `Point2<T>`. -/
structure Point2 (T : Type) where
  x : T
  y : T
  deriving DecidableEq

/-- The class template `Point3<T>`. -/
structure Point3 (T : Type) where
  x : T
  y : T
  z : T
  deriving DecidableEq

/-- The class template `Normal3<T>`. -/
structure Normal3 (T : Type) where
  x : T
  y : T
  z : T
  deriving DecidableEq

abbrev Vector3f := Vector3 Float
abbrev Point3f := Point3 Float
abbrev Normal3f := Normal3 Float

namespace Vector2
variable {T : Type}

/-- `Vector2<T>::operator/(U f)`: `CHECK_NE(f, 0)`, then the components times
`inv = (Float)1 / f`. -/
def div [Zero T] [One T] [Mul T] [Div T] [DecidableEq T] (v : Vector2 T) (f : T) :
    Option (Vector2 T) :=
  if f = 0 then none
  else
    let inv : T := 1 / f
    some ⟨v.x * inv, v.y * inv⟩

/-- `Vector2<T>::operator/=(U f)`: `CHECK_NE(f, 0)`, then `x *= inv; y *= inv`. -/
def divAssign [Zero T] [One T] [Mul T] [Div T] [DecidableEq T] (v : Vector2 T) (f : T) :
    Option (Vector2 T) :=
  if f = 0 then none
  else
    let inv : T := 1 / f
    let v := { v with x := v.x * inv }
    let v := { v with y := v.y * inv }
    some v

/-- `Vector2<T>::LengthSquared()`. -/
def LengthSquared [Add T] [Mul T] (v : Vector2 T) : T := v.x * v.x + v.y * v.y

/-- `Vector2<T>::Length()`: `std::sqrt(LengthSquared())`. -/
def Length [Add T] [Mul T] (sqrt : T → T) (v : Vector2 T) : T := sqrt v.LengthSquared

/-- `Normalize(const Vector2<T>& v)`: `v / v.Length()`. -/
def Normalize [Zero T] [One T] [Add T] [Mul T] [Div T] [DecidableEq T] (sqrt : T → T)
    (v : Vector2 T) : Option (Vector2 T) :=
  v.div (v.Length sqrt)

end Vector2

namespace Vector3
variable {T : Type}

/-- `Vector3<T>::operator*(U s)`: `Vector3<T>(s * x, s * y, s * z)`. -/
def mulScalar [Mul T] (v : Vector3 T) (s : T) : Vector3 T := ⟨s * v.x, s * v.y, s * v.z⟩

instance [Mul T] : HMul (Vector3 T) T (Vector3 T) := ⟨mulScalar⟩

/-- `Vector3<T>::operator/(U f)`: `CHECK_NE(f, 0)`, then the components times
`inv = (Float)1 / f`. -/
def div [Zero T] [One T] [Mul T] [Div T] [DecidableEq T] (v : Vector3 T) (f : T) :
    Option (Vector3 T) :=
  if f = 0 then none
  else
    let inv : T := 1 / f
    some ⟨v.x * inv, v.y * inv, v.z * inv⟩

/-- `Vector3<T>::operator/=(U f)`: `CHECK_NE(f, 0)`, then `x *= inv; y *= inv; z *= inv`. -/
def divAssign [Zero T] [One T] [Mul T] [Div T] [DecidableEq T] (v : Vector3 T) (f : T) :
    Option (Vector3 T) :=
  if f = 0 then none
  else
    let inv : T := 1 / f
    let v := { v with x := v.x * inv }
    let v := { v with y := v.y * inv }
    let v := { v with z := v.z * inv }
    some v

/-- `Vector3<T>::LengthSquared()`. -/
def LengthSquared [Add T] [Mul T] (v : Vector3 T) : T := v.x * v.x + v.y * v.y + v.z * v.z

/-- `Vector3<T>::Length()`: `std::sqrt(LengthSquared())`. -/
def Length [Add T] [Mul T] (sqrt : T → T) (v : Vector3 T) : T := sqrt v.LengthSquared

/-- `Dot(const Vector3<T>& v1, const Vector3<T>& v2)`. -/
def Dot [Add T] [Mul T] (v1 v2 : Vector3 T) : T := v1.x * v2.x + v1.y * v2.y + v1.z * v2.z

/-- `Cross(const Vector3<T>& v1, const Vector3<T>& v2)`.  The source copies the six
components into `double` locals first; without rounding that copy is the identity. -/
def Cross [Sub T] [Mul T] (v1 v2 : Vector3 T) : Vector3 T :=
  let v1x := v1.x
  let v1y := v1.y
  let v1z := v1.z
  let v2x := v2.x
  let v2y := v2.y
  let v2z := v2.z
  ⟨(v1y * v2z) - (v1z * v2y), (v1z * v2x) - (v1x * v2z), (v1x * v2y) - (v1y * v2x)⟩

/-- `Normalize(const Vector3<T>& v)`: `v / v.Length()`. -/
def Normalize [Zero T] [One T] [Add T] [Mul T] [Div T] [DecidableEq T] (sqrt : T → T)
    (v : Vector3 T) : Option (Vector3 T) :=
  v.div (v.Length sqrt)

end Vector3

namespace Point2
variable {T : Type}

/-- `Point2<T>::operator/(U f)`: `CHECK_NE(f, 0)`, then `Point2<T>(inv * x, inv * y)`. -/
def div [Zero T] [One T] [Mul T] [Div T] [DecidableEq T] (p : Point2 T) (f : T) :
    Option (Point2 T) :=
  if f = 0 then none
  else
    let inv : T := 1 / f
    some ⟨inv * p.x, inv * p.y⟩

/-- `Point2<T>::operator/=(U f)`: `CHECK_NE(f, 0)`, then `x *= inv; y *= inv`. -/
def divAssign [Zero T] [One T] [Mul T] [Div T] [DecidableEq T] (p : Point2 T) (f : T) :
    Option (Point2 T) :=
  if f = 0 then none
  else
    let inv : T := 1 / f
    let p := { p with x := p.x * inv }
    let p := { p with y := p.y * inv }
    some p

end Point2

namespace Point3
variable {T : Type}

/-- `Point3<T>::operator+(const Vector3<T>&)`. -/
def addVector [Add T] (p : Point3 T) (v : Vector3 T) : Point3 T :=
  ⟨p.x + v.x, p.y + v.y, p.z + v.z⟩

instance [Add T] : HAdd (Point3 T) (Vector3 T) (Point3 T) := ⟨addVector⟩

/-- `Point3<T>::operator/(U f)`: `CHECK_NE(f, 0)`, then
`Point3<T>(inv * x, inv * y, inv * z)`. -/
def div [Zero T] [One T] [Mul T] [Div T] [DecidableEq T] (p : Point3 T) (f : T) :
    Option (Point3 T) :=
  if f = 0 then none
  else
    let inv : T := 1 / f
    some ⟨inv * p.x, inv * p.y, inv * p.z⟩

/-- `Point3<T>::operator/=(U f)`: `CHECK_NE(f, 0)`, then `x *= inv; y *= inv; z *= inv`. -/
def divAssign [Zero T] [One T] [Mul T] [Div T] [DecidableEq T] (p : Point3 T) (f : T) :
    Option (Point3 T) :=
  if f = 0 then none
  else
    let inv : T := 1 / f
    let p := { p with x := p.x * inv }
    let p := { p with y := p.y * inv }
    let p := { p with z := p.z * inv }
    some p

end Point3

namespace Normal3
variable {T : Type}

/-- `Normal3<T>::operator-()`: `Normal3(-x, -y, -z)`. -/
def neg [Neg T] (n : Normal3 T) : Normal3 T := ⟨-n.x, -n.y, -n.z⟩

instance [Neg T] : Neg (Normal3 T) := ⟨neg⟩

/-- `Normal3<T>::operator/(U f)`: `CHECK_NE(f, 0)`, then the components times
`inv = (Float)1 / f`. -/
def div [Zero T] [One T] [Mul T] [Div T] [DecidableEq T] (n : Normal3 T) (f : T) :
    Option (Normal3 T) :=
  if f = 0 then none
  else
    let inv : T := 1 / f
    some ⟨n.x * inv, n.y * inv, n.z * inv⟩

/-- `Normal3<T>::operator/=(U f)`: `CHECK_NE(f, 0)`, then `x *= inv; y *= inv; z *= inv`. -/
def divAssign [Zero T] [One T] [Mul T] [Div T] [DecidableEq T] (n : Normal3 T) (f : T) :
    Option (Normal3 T) :=
  if f = 0 then none
  else
    let inv : T := 1 / f
    let n := { n with x := n.x * inv }
    let n := { n with y := n.y * inv }
    let n := { n with z := n.z * inv }
    some n

/-- `Normal3<T>::LengthSquared()`. -/
def LengthSquared [Add T] [Mul T] (n : Normal3 T) : T := n.x * n.x + n.y * n.y + n.z * n.z

/-- `Normal3<T>::Length()`: `std::sqrt(LengthSquared())`. -/
def Length [Add T] [Mul T] (sqrt : T → T) (n : Normal3 T) : T := sqrt n.LengthSquared

/-- `Dot(const Normal3<T>& n1, const Vector3<T>& v2)`. -/
def Dot [Add T] [Mul T] (n1 : Normal3 T) (v2 : Vector3 T) : T :=
  n1.x * v2.x + n1.y * v2.y + n1.z * v2.z

/-- `Normalize(const Normal3<T>& n)`: `n / n.Length()`. -/
def Normalize [Zero T] [One T] [Add T] [Mul T] [Div T] [DecidableEq T] (sqrt : T → T)
    (n : Normal3 T) : Option (Normal3 T) :=
  n.div (n.Length sqrt)

end Normal3

/-- The first statement of `CoordinateSystem(v1, &v2, &v3)` over an arbitrary scalar `T`:
the vector it writes to `*v2`, or `none` when the `CHECK_NE` of the vector division traps.
`std::abs` and `std::sqrt` are parameters.  (The second statement, `*v3 = Cross(v1, *v2)`,
computes in `double` whatever `T` is.) -/
def CoordinateSystem.first {T : Type} [Zero T] [One T] [Add T] [Mul T] [Div T] [Neg T]
    [LT T] [∀ a b : T, Decidable (a < b)] [DecidableEq T] (abs sqrt : T → T)
    (v1 : Vector3 T) : Option (Vector3 T) :=
  if abs v1.x > abs v1.y then
    (Vector3.mk (-v1.z) 0 v1.x).div (sqrt (v1.x * v1.x + v1.z * v1.z))
  else
    (Vector3.mk 0 v1.z (-v1.y)).div (sqrt (v1.y * v1.y + v1.z * v1.z))

/-- `CoordinateSystem(v1, &v2, &v3)`: the pair `(*v2, *v3)` it writes, or `none` when the
`CHECK_NE` of the vector division traps. -/
def CoordinateSystem {K : Type} [LinearOrderedField K] (sqrt : K → K) (v1 : Vector3 K) :
    Option (Vector3 K × Vector3 K) :=
  let v2 : Option (Vector3 K) :=
    if |v1.x| > |v1.y| then
      (Vector3.mk (-v1.z) 0 v1.x).div (sqrt (v1.x * v1.x + v1.z * v1.z))
    else
      (Vector3.mk 0 v1.z (-v1.y)).div (sqrt (v1.y * v1.y + v1.z * v1.z))
  match v2 with
  | none => none
  | some v2 => some (v2, Vector3.Cross v1 v2)

/-- The class `Ray`: origin, direction, the mutable `tMax`, and `time`. -/
structure Ray where
  o : Point3f
  d : Vector3f
  tMax : Float
  time : Float
  deriving DecidableEq

/-- `Ray::operator()(Float t)`: `o + d * t`. -/
def Ray.at (r : Ray) (t : Float) : Point3f := r.o + r.d * t

/-! ## The hit record and the YZ rectangle (`yz_rect.h`) -/

/-- A `Material*`: the address of a material object. -/
abbrev MaterialPtr := ℕ

/-- Modelled from the spec: the struct `HitRecord` (declared in `core/shape.h`, which is not
part of the sources at hand): parametric distance `t`, world-space point `p`, surface
normal, surface parametrization `(u, v)` and a non-owning reference to the material.  These
are also exactly the fields `YZRect::Hit` assigns. -/
structure HitRecord where
  t : Float
  p : Point3f
  normal : Normal3f
  u : Float
  v : Float
  mat : MaterialPtr
  deriving DecidableEq

/-- The class `YZRect`: its five `Float` members and the `material` member inherited from
`Shape`. -/
structure YZRect where
  y0 : Float
  y1 : Float
  z0 : Float
  z1 : Float
  k : Float
  material : MaterialPtr
  deriving DecidableEq

/-- The constructor `YZRect::YZRect(_y0, _y1, _z0, _z1, _k, mat)`. -/
def YZRect.new (_y0 _y1 _z0 _z1 _k : Float) (mat : MaterialPtr) : YZRect :=
  { k := _k
    y0 := if _y0 < _y1 then _y0 else _y1
    y1 := if _y0 < _y1 then _y1 else _y0
    z0 := if _z0 < _z1 then _z0 else _z1
    z1 := if _z0 < _z1 then _z1 else _z0
    material := mat }

/-- What a call of `Hit(const Ray& ray, HitRecord& rec)` leaves behind: the returned `bool`,
the ray (whose `tMax` is `mutable`, so a `const Ray&` does not protect it) and the record. -/
structure HitOut where
  ret : Bool
  ray : Ray
  record : HitRecord
  deriving DecidableEq

/-- The method `YZRect::Hit`.  `ShadowEpsilon` is a global constant declared outside the
sources at hand and is taken as a parameter. -/
def YZRect.Hit (self : YZRect) (ShadowEpsilon : Float) (ray : Ray) (record : HitRecord) :
    HitOut :=
  let t : Float := (self.k - ray.o.x) / ray.d.x
  if t > ray.tMax ∨ t ≤ ShadowEpsilon then
    ⟨false, ray, record⟩
  else
    let hitP : Point3f := ray.at t
    if hitP.y < self.y0 ∨ hitP.y > self.y1 ∨ hitP.z < self.z0 ∨ hitP.z > self.z1 then
      ⟨false, ray, record⟩
    else
      let record := { record with u := (hitP.y - self.y0) / (self.y1 - self.y0) }
      let record := { record with v := (hitP.z - self.z0) / (self.z1 - self.z0) }
      let record := { record with t := t }
      let record := { record with p := hitP }
      let normal : Normal3f := ⟨1, 0, 0⟩
      let normal : Normal3f := if ray.o.x < self.k then -normal else normal
      let record := { record with normal := normal }
      let record := { record with mat := self.material }
      ⟨true, ray, record⟩

/-- Modelled from the spec: the class `Bounds3f` (declared outside the sources at hand): a
pair of corner points (min, max), built from its two corners in that order. -/
structure Bounds3f where
  pMin : Point3f
  pMax : Point3f
  deriving DecidableEq

/-- The method `YZRect::BoundingBox(Bounds3f& box)`: the returned `bool` and the box. -/
def YZRect.BoundingBox (self : YZRect) (_box : Bounds3f) : Bool × Bounds3f :=
  let box : Bounds3f :=
    ⟨⟨self.k - 0.001, self.y0, self.z0⟩, ⟨self.k + 0.001, self.y1, self.z1⟩⟩
  (true, box)

/-! ## The rectangle over an arbitrary scalar

`Float` is a typedef of the source.  The definitions of this section are the classes `Ray`,
`HitRecord`, `YZRect` and `Bounds3f` and the methods of `YZRect` once more, with the scalar
`T` that the typedef stands for left open, so that they can be run on `FP binary32` as well
as on the exact scalar `Float` above. -/

namespace Generic

/-- The class `Ray` over the scalar `T`. -/
structure Ray (T : Type) where
  o : Point3 T
  d : Vector3 T
  tMax : T
  time : T
  deriving DecidableEq

/-- `Ray::operator()(Float t)`: `o + d * t`. -/
def Ray.at {T : Type} [Add T] [Mul T] (r : Ray T) (t : T) : Point3 T := r.o + r.d * t

/-- Modelled from the spec: the struct `HitRecord` over the scalar `T` (see `HitRecord`
above). -/
structure HitRecord (T : Type) where
  t : T
  p : Point3 T
  normal : Normal3 T
  u : T
  v : T
  mat : MaterialPtr
  deriving DecidableEq

/-- The class `YZRect` over the scalar `T`. -/
structure YZRect (T : Type) where
  y0 : T
  y1 : T
  z0 : T
  z1 : T
  k : T
  material : MaterialPtr
  deriving DecidableEq

/-- The constructor `YZRect::YZRect(_y0, _y1, _z0, _z1, _k, mat)`. -/
def YZRect.new {T : Type} [LT T] [∀ a b : T, Decidable (a < b)] (_y0 _y1 _z0 _z1 _k : T)
    (mat : MaterialPtr) : YZRect T :=
  { k := _k
    y0 := if _y0 < _y1 then _y0 else _y1
    y1 := if _y0 < _y1 then _y1 else _y0
    z0 := if _z0 < _z1 then _z0 else _z1
    z1 := if _z0 < _z1 then _z1 else _z0
    material := mat }

/-- What a call of `Hit(const Ray& ray, HitRecord& rec)` leaves behind. -/
structure HitOut (T : Type) where
  ret : Bool
  ray : Ray T
  record : HitRecord T
  deriving DecidableEq

/-- The method `YZRect::Hit` over the scalar `T`. -/
def YZRect.Hit {T : Type} [Zero T] [One T] [Add T] [Sub T] [Mul T] [Div T] [Neg T] [LT T]
    [LE T] [∀ a b : T, Decidable (a < b)] [∀ a b : T, Decidable (a ≤ b)] (self : YZRect T)
    (ShadowEpsilon : T) (ray : Ray T) (record : HitRecord T) : HitOut T :=
  let t : T := (self.k - ray.o.x) / ray.d.x
  if t > ray.tMax ∨ t ≤ ShadowEpsilon then
    ⟨false, ray, record⟩
  else
    let hitP : Point3 T := ray.at t
    if hitP.y < self.y0 ∨ hitP.y > self.y1 ∨ hitP.z < self.z0 ∨ hitP.z > self.z1 then
      ⟨false, ray, record⟩
    else
      let record := { record with u := (hitP.y - self.y0) / (self.y1 - self.y0) }
      let record := { record with v := (hitP.z - self.z0) / (self.z1 - self.z0) }
      let record := { record with t := t }
      let record := { record with p := hitP }
      let normal : Normal3 T := ⟨1, 0, 0⟩
      let normal : Normal3 T := if ray.o.x < self.k then -normal else normal
      let record := { record with normal := normal }
      let record := { record with mat := self.material }
      ⟨true, ray, record⟩

/-- Modelled from the spec: the class `Bounds3f` over the scalar `T` (see `Bounds3f`
above). -/
structure Bounds3 (T : Type) where
  pMin : Point3 T
  pMax : Point3 T
  deriving DecidableEq

/-- The method `YZRect::BoundingBox(Bounds3f& box)`; the literal `0.001f` is the value of
the format nearest to 1/1000. -/
def YZRect.BoundingBox {T : Type} [Add T] [Sub T] [OfScientific T] (self : YZRect T)
    (_box : Bounds3 T) : Bool × Bounds3 T :=
  let box : Bounds3 T :=
    ⟨⟨self.k - 0.001, self.y0, self.z0⟩, ⟨self.k + 0.001, self.y1, self.z1⟩⟩
  (true, box)

end Generic

/-- The rectangle, read over the scalar `Float`. -/
def YZRect.toGeneric (s : YZRect) : Generic.YZRect Float :=
  ⟨s.y0, s.y1, s.z0, s.z1, s.k, s.material⟩

/-- The ray, read over the scalar `Float`. -/
def Ray.toGeneric (r : Ray) : Generic.Ray Float := ⟨r.o, r.d, r.tMax, r.time⟩

/-- The hit record, read over the scalar `Float`. -/
def HitRecord.toGeneric (r : HitRecord) : Generic.HitRecord Float :=
  ⟨r.t, r.p, r.normal, r.u, r.v, r.mat⟩

/-- The outcome of a call of `Hit`, read over the scalar `Float`. -/
def HitOut.toGeneric (h : HitOut) : Generic.HitOut Float :=
  ⟨h.ret, h.ray.toGeneric, h.record.toGeneric⟩

/-- The box, read over the scalar `Float`. -/
def Bounds3f.toGeneric (b : Bounds3f) : Generic.Bounds3 Float := ⟨b.pMin, b.pMax⟩

/-! ## Vocabulary of the statements -/

/-- The ray with origin `(ox, oy, oz)` and direction `(dx, dy, dz)` meets the rectangle
`x = k`, `y0 ≤ y ≤ y1`, `z0 ≤ z ≤ z1` at a parameter `t` with `eps < t ≤ tMax`. -/
def Intersects (y0 y1 z0 z1 k eps ox oy oz dx dy dz : ℚ) (tMax : Float) : Prop :=
  ∃ t : ℚ, Float.fin eps < Float.fin t ∧ Float.fin t ≤ tMax ∧ ox + t * dx = k ∧
    y0 ≤ oy + t * dy ∧ oy + t * dy ≤ y1 ∧ z0 ≤ oz + t * dz ∧ oz + t * dz ≤ z1

/-- The specification of `std::sqrt` on the scalar field `K`: on a non-negative argument it
returns the non-negative square root. -/
def IsSqrt {K : Type} [LinearOrderedField K] (sqrt : K → K) : Prop :=
  ∀ x : K, 0 ≤ x → 0 ≤ sqrt x ∧ sqrt x * sqrt x = x

/-! ## Point and vector arithmetic (`geometry.h`) -/

/-- `Point3<T>::operator-(const Point3<T>&)`: the vector from `q` to `p`. -/
def Point3.sub {T : Type} [Sub T] (p q : Point3 T) : Vector3 T :=
  ⟨p.x - q.x, p.y - q.y, p.z - q.z⟩

instance {T : Type} [Sub T] : HSub (Point3 T) (Point3 T) (Vector3 T) := ⟨Point3.sub⟩

/-- `Point3<T>::operator-(const Vector3<T>&)`. -/
def Point3.subVector {T : Type} [Sub T] (p : Point3 T) (v : Vector3 T) : Point3 T :=
  ⟨p.x - v.x, p.y - v.y, p.z - v.z⟩

instance {T : Type} [Sub T] : HSub (Point3 T) (Vector3 T) (Point3 T) := ⟨Point3.subVector⟩

/-- `Point2<T>::operator+(const Vector2<T>&)`. -/
def Point2.addVector {T : Type} [Add T] (p : Point2 T) (v : Vector2 T) : Point2 T :=
  ⟨p.x + v.x, p.y + v.y⟩

instance {T : Type} [Add T] : HAdd (Point2 T) (Vector2 T) (Point2 T) := ⟨Point2.addVector⟩

/-- `Point2<T>::operator-(const Point2<T>&)`: the vector from `q` to `p`. -/
def Point2.sub {T : Type} [Sub T] (p q : Point2 T) : Vector2 T := ⟨p.x - q.x, p.y - q.y⟩

instance {T : Type} [Sub T] : HSub (Point2 T) (Point2 T) (Vector2 T) := ⟨Point2.sub⟩

/-- `Point2<T>::operator-(const Vector2<T>&)`. -/
def Point2.subVector {T : Type} [Sub T] (p : Point2 T) (v : Vector2 T) : Point2 T :=
  ⟨p.x - v.x, p.y - v.y⟩

instance {T : Type} [Sub T] : HSub (Point2 T) (Vector2 T) (Point2 T) := ⟨Point2.subVector⟩

/-! ## Debug-build members (`geometry.h` without `NDEBUG`)

In a debug build `DCHECK(c)` traps when `c` is false.  The members below are the debug-build
readings of the source, with `none` for a tripped assertion. -/

/-- The function template `isNaN<T>`: `std::isnan` on a floating-point scalar, and the
specialization for `int` that returns `false`. -/
class IsNaN (T : Type) where
  isNaN : T → Bool

instance : IsNaN Float := ⟨Float.isNaN⟩

instance : IsNaN ℤ := ⟨fun _ => false⟩

/-- `Vector2<T>::operator[](int i)` in a debug build. -/
def Vector2.index {T : Type} (v : Vector2 T) (i : ℤ) : Option T :=
  if ¬ (i ≥ 0 ∧ i ≤ 1) then none
  else if i = 0 then some v.x
  else some v.y

/-- `Vector3<T>::operator[](int i)` in a debug build. -/
def Vector3.index {T : Type} (v : Vector3 T) (i : ℤ) : Option T :=
  if ¬ (i ≥ 0 ∧ i ≤ 2) then none
  else if i = 0 then some v.x
  else if i = 1 then some v.y
  else some v.z

/-- `Point2<T>::operator[](int i)` in a debug build. -/
def Point2.index {T : Type} (p : Point2 T) (i : ℤ) : Option T :=
  if ¬ (i ≥ 0 ∧ i ≤ 1) then none
  else if i = 0 then some p.x
  else some p.y

/-- `Point3<T>::operator[](int i)` in a debug build. -/
def Point3.index {T : Type} (p : Point3 T) (i : ℤ) : Option T :=
  if ¬ (i ≥ 0 ∧ i ≤ 2) then none
  else if i = 0 then some p.x
  else if i = 1 then some p.y
  else some p.z

/-- `Normal3<T>::operator[](int i)` in a debug build. -/
def Normal3.index {T : Type} (n : Normal3 T) (i : ℤ) : Option T :=
  if ¬ (i ≥ 0 ∧ i ≤ 2) then none
  else if i = 0 then some n.x
  else if i = 1 then some n.y
  else some n.z

/-! ### Constructors and mutators in a debug build -/

/-- `Vector2<T>::HasNaNs()`. -/
def Vector2.HasNaNs {T : Type} [IsNaN T] (v : Vector2 T) : Bool :=
  IsNaN.isNaN v.x || IsNaN.isNaN v.y

/-- `Vector3<T>::HasNaNs()`. -/
def Vector3.HasNaNs {T : Type} [IsNaN T] (v : Vector3 T) : Bool :=
  IsNaN.isNaN v.x || IsNaN.isNaN v.y || IsNaN.isNaN v.z

/-- `Point2<T>::HasNaNs()`. -/
def Point2.HasNaNs {T : Type} [IsNaN T] (p : Point2 T) : Bool :=
  IsNaN.isNaN p.x || IsNaN.isNaN p.y

/-- `Point3<T>::HasNaNs()`. -/
def Point3.HasNaNs {T : Type} [IsNaN T] (p : Point3 T) : Bool :=
  IsNaN.isNaN p.x || IsNaN.isNaN p.y || IsNaN.isNaN p.z

/-- `Normal3<T>::HasNaNs()`. -/
def Normal3.HasNaNs {T : Type} [IsNaN T] (n : Normal3 T) : Bool :=
  IsNaN.isNaN n.x || IsNaN.isNaN n.y || IsNaN.isNaN n.z

/-- The constructor `Vector2(T xx, T yy)` in a debug build: the members are set, then
`DCHECK(!HasNaNs())`. -/
def Vector2.newDbg {T : Type} [IsNaN T] (xx yy : T) : Option (Vector2 T) :=
  let self : Vector2 T := ⟨xx, yy⟩
  if self.HasNaNs then none else some self

/-- `Vector2<T>::operator=(const Vector2<T>& v)` in a debug build: `DCHECK(!v.HasNaNs())`,
then the members are copied. -/
def Vector2.assignDbg {T : Type} [IsNaN T] (_self v : Vector2 T) : Option (Vector2 T) :=
  if v.HasNaNs then none else some ⟨v.x, v.y⟩

/-- `Vector2<T>::operator+=(const Vector2<T>& v)` in a debug build:
`DCHECK(!v.HasNaNs())`, then the members are updated. -/
def Vector2.addAssignDbg {T : Type} [IsNaN T] [Add T] (self : Vector2 T) (v : Vector2 T) :
    Option (Vector2 T) :=
  if v.HasNaNs then none else some ⟨self.x + v.x, self.y + v.y⟩

/-- `Vector2<T>::operator-=(const Vector2<T>& v)` in a debug build:
`DCHECK(!v.HasNaNs())`, then the members are updated. -/
def Vector2.subAssignDbg {T : Type} [IsNaN T] [Sub T] (self : Vector2 T) (v : Vector2 T) :
    Option (Vector2 T) :=
  if v.HasNaNs then none else some ⟨self.x - v.x, self.y - v.y⟩

/-- `Vector2<T>::operator*=(U f)` in a debug build: `DCHECK(!isNaN(f))`, then the members
are scaled. -/
def Vector2.mulAssignDbg {T : Type} [IsNaN T] [Mul T] (self : Vector2 T) (f : T) : Option (Vector2 T) :=
  if IsNaN.isNaN f then none else some ⟨self.x * f, self.y * f⟩

/-- The constructor `Vector3(T x, T y, T z)` in a debug build: the members are set, then
`DCHECK(!HasNaNs())`. -/
def Vector3.newDbg {T : Type} [IsNaN T] (x y z : T) : Option (Vector3 T) :=
  let self : Vector3 T := ⟨x, y, z⟩
  if self.HasNaNs then none else some self

/-- `Vector3<T>::operator=(const Vector3<T>& v)` in a debug build: `DCHECK(!v.HasNaNs())`,
then the members are copied. -/
def Vector3.assignDbg {T : Type} [IsNaN T] (_self v : Vector3 T) : Option (Vector3 T) :=
  if v.HasNaNs then none else some ⟨v.x, v.y, v.z⟩

/-- `Vector3<T>::operator+=(const Vector3<T>& v)` in a debug build:
`DCHECK(!v.HasNaNs())`, then the members are updated. -/
def Vector3.addAssignDbg {T : Type} [IsNaN T] [Add T] (self : Vector3 T) (v : Vector3 T) :
    Option (Vector3 T) :=
  if v.HasNaNs then none else some ⟨self.x + v.x, self.y + v.y, self.z + v.z⟩

/-- `Vector3<T>::operator-=(const Vector3<T>& v)` in a debug build:
`DCHECK(!v.HasNaNs())`, then the members are updated. -/
def Vector3.subAssignDbg {T : Type} [IsNaN T] [Sub T] (self : Vector3 T) (v : Vector3 T) :
    Option (Vector3 T) :=
  if v.HasNaNs then none else some ⟨self.x - v.x, self.y - v.y, self.z - v.z⟩

/-- `Vector3<T>::operator*=(U s)` in a debug build: `DCHECK(!isNaN(s))`, then the members
are scaled. -/
def Vector3.mulAssignDbg {T : Type} [IsNaN T] [Mul T] (self : Vector3 T) (s : T) : Option (Vector3 T) :=
  if IsNaN.isNaN s then none else some ⟨self.x * s, self.y * s, self.z * s⟩

/-- The constructor `Point2(T xx, T yy)` in a debug build: the members are set, then
`DCHECK(!HasNaNs())`. -/
def Point2.newDbg {T : Type} [IsNaN T] (xx yy : T) : Option (Point2 T) :=
  let self : Point2 T := ⟨xx, yy⟩
  if self.HasNaNs then none else some self

/-- `Point2<T>::operator=(const Point2<T>& p)` in a debug build: `DCHECK(!p.HasNaNs())`,
then the members are copied. -/
def Point2.assignDbg {T : Type} [IsNaN T] (_self p : Point2 T) : Option (Point2 T) :=
  if p.HasNaNs then none else some ⟨p.x, p.y⟩

/-- `Point2<T>::operator+=(const Vector2<T>& v)` in a debug build:
`DCHECK(!v.HasNaNs())`, then the members are updated. -/
def Point2.addAssignDbg {T : Type} [IsNaN T] [Add T] (self : Point2 T) (v : Vector2 T) :
    Option (Point2 T) :=
  if v.HasNaNs then none else some ⟨self.x + v.x, self.y + v.y⟩

/-- `Point2<T>::operator-=(const Vector2<T>& v)` in a debug build:
`DCHECK(!v.HasNaNs())`, then the members are updated. -/
def Point2.subAssignDbg {T : Type} [IsNaN T] [Sub T] (self : Point2 T) (v : Vector2 T) :
    Option (Point2 T) :=
  if v.HasNaNs then none else some ⟨self.x - v.x, self.y - v.y⟩

/-- `Point2<T>::operator+=(const Point2<T>& p)` in a debug build:
`DCHECK(!p.HasNaNs())`, then the members are updated. -/
def Point2.addAssignPointDbg {T : Type} [IsNaN T] [Add T] (self : Point2 T) (p : Point2 T) :
    Option (Point2 T) :=
  if p.HasNaNs then none else some ⟨self.x + p.x, self.y + p.y⟩

/-- `Point2<T>::operator*=(U f)` in a debug build: the members are scaled; the source has
no `DCHECK` here. -/
def Point2.mulAssignDbg {T : Type} [Mul T] (self : Point2 T) (f : T) : Option (Point2 T) :=
  some ⟨self.x * f, self.y * f⟩

/-- The constructor `Point3(T x, T y, T z)` in a debug build: the members are set, then
`DCHECK(!HasNaNs())`. -/
def Point3.newDbg {T : Type} [IsNaN T] (x y z : T) : Option (Point3 T) :=
  let self : Point3 T := ⟨x, y, z⟩
  if self.HasNaNs then none else some self

/-- `Point3<T>::operator=(const Point3<T>& p)` in a debug build: `DCHECK(!p.HasNaNs())`,
then the members are copied. -/
def Point3.assignDbg {T : Type} [IsNaN T] (_self p : Point3 T) : Option (Point3 T) :=
  if p.HasNaNs then none else some ⟨p.x, p.y, p.z⟩

/-- `Point3<T>::operator+=(const Vector3<T>& v)` in a debug build:
`DCHECK(!v.HasNaNs())`, then the members are updated. -/
def Point3.addAssignDbg {T : Type} [IsNaN T] [Add T] (self : Point3 T) (v : Vector3 T) :
    Option (Point3 T) :=
  if v.HasNaNs then none else some ⟨self.x + v.x, self.y + v.y, self.z + v.z⟩

/-- `Point3<T>::operator-=(const Vector3<T>& v)` in a debug build:
`DCHECK(!v.HasNaNs())`, then the members are updated. -/
def Point3.subAssignDbg {T : Type} [IsNaN T] [Sub T] (self : Point3 T) (v : Vector3 T) :
    Option (Point3 T) :=
  if v.HasNaNs then none else some ⟨self.x - v.x, self.y - v.y, self.z - v.z⟩

/-- `Point3<T>::operator+=(const Point3<T>& p)` in a debug build:
`DCHECK(!p.HasNaNs())`, then the members are updated. -/
def Point3.addAssignPointDbg {T : Type} [IsNaN T] [Add T] (self : Point3 T) (p : Point3 T) :
    Option (Point3 T) :=
  if p.HasNaNs then none else some ⟨self.x + p.x, self.y + p.y, self.z + p.z⟩

/-- `Point3<T>::operator*=(U f)` in a debug build: the members are scaled; the source has
no `DCHECK` here. -/
def Point3.mulAssignDbg {T : Type} [Mul T] (self : Point3 T) (f : T) : Option (Point3 T) :=
  some ⟨self.x * f, self.y * f, self.z * f⟩

/-- The constructor `Normal3(T xx, T yy, T zz)` in a debug build: the members are set, then
`DCHECK(!HasNaNs())`. -/
def Normal3.newDbg {T : Type} [IsNaN T] (xx yy zz : T) : Option (Normal3 T) :=
  let self : Normal3 T := ⟨xx, yy, zz⟩
  if self.HasNaNs then none else some self

/-- `Normal3<T>::operator=(const Normal3<T>& n)` in a debug build: `DCHECK(!n.HasNaNs())`,
then the members are copied. -/
def Normal3.assignDbg {T : Type} [IsNaN T] (_self n : Normal3 T) : Option (Normal3 T) :=
  if n.HasNaNs then none else some ⟨n.x, n.y, n.z⟩

/-- `Normal3<T>::operator+=(const Normal3<T>& n)` in a debug build:
`DCHECK(!n.HasNaNs())`, then the members are updated. -/
def Normal3.addAssignDbg {T : Type} [IsNaN T] [Add T] (self : Normal3 T) (n : Normal3 T) :
    Option (Normal3 T) :=
  if n.HasNaNs then none else some ⟨self.x + n.x, self.y + n.y, self.z + n.z⟩

/-- `Normal3<T>::operator-=(const Normal3<T>& n)` in a debug build:
`DCHECK(!n.HasNaNs())`, then the members are updated. -/
def Normal3.subAssignDbg {T : Type} [IsNaN T] [Sub T] (self : Normal3 T) (n : Normal3 T) :
    Option (Normal3 T) :=
  if n.HasNaNs then none else some ⟨self.x - n.x, self.y - n.y, self.z - n.z⟩

/-- `Normal3<T>::operator*=(U f)` in a debug build: the members are scaled; the source has
no `DCHECK` here. -/
def Normal3.mulAssignDbg {T : Type} [Mul T] (self : Normal3 T) (f : T) : Option (Normal3 T) :=
  some ⟨self.x * f, self.y * f, self.z * f⟩

/-! ## Device memory and the scene kernels (`scene/example.h`)

The kernels build and destroy a graph of heap objects.  Arithmetic in the builders is `+`,
`-`, `*`, comparisons and `sqrt` on finite values only, so it is embedded over an arbitrary
linearly ordered field `K` with `std::sqrt` as a parameter.  The one division, the aspect
ratio `width / height` of two `int`s, is kept in the scalar model `Float`, where a zero
height gives an infinity or NaN.

Device memory is a heap of objects created by `new`; the address of an object is its
position in the heap, which only grows, and `delete` is recorded in the order of the
calls.  `curand_uniform` is the stream `rnd : ℕ → K` of the generator; a `curandState` is
the number of draws already taken from it. -/

/-- An address in device memory. -/
abbrev Addr := ℕ

/-- Modelled from the spec: the material classes `Lambertian`, `Metal` and `Dielectric`
(declared outside the sources at hand), each with the arguments its constructor is called
with: an albedo, an albedo and a fuzz, a refractive index. -/
inductive Material (K : Type) where
  | Lambertian (albedo : Point3 K)
  | Metal (albedo : Point3 K) (fuzz : K)
  | Dielectric (refIdx : K)
  deriving DecidableEq

/-- Modelled from the spec: the shape classes `Sphere`, `Cylinder` and `ShapeList` (declared
outside the sources at hand), each with the arguments its constructor is called with.  A
sphere or cylinder holds the address of the material it owns; a `ShapeList` wraps the
array `d_list` and holds the count `numShapes`. -/
inductive Shape (K : Type) where
  | Sphere (center : Point3 K) (radius : K) (material : Addr)
  | Cylinder (center : Point3 K) (radius : K) (yMinOffset : K) (height : K)
      (material : Addr)
  | ShapeList (numShapes : ℤ)
  deriving DecidableEq

/-- Modelled from the spec: the class `Camera` (declared outside the sources at hand) with
the arguments its constructor is called with. -/
structure Camera (K : Type) where
  lookFrom : Point3 K
  lookAt : Point3 K
  lookUp : Vector3 K
  fov : K
  aspect : Float
  aperture : K
  focusDis : K
  deriving DecidableEq

/-- An object in device memory. -/
inductive Obj (K : Type) where
  | material (m : Material K)
  | shape (s : Shape K)
  | camera (c : Camera K)
  deriving DecidableEq

/-- The thread that executes a kernel: `threadIdx.x` and `blockIdx.x`. -/
structure ThreadId where
  threadIdx_x : ℕ
  blockIdx_x : ℕ
  deriving DecidableEq

/-- The device state the kernels work on.
* `heap`: the objects created by `new`, in order of creation; the address is the position.
* `freed`: the addresses passed to `delete`, in order.
* `d_list`: the array of `Shape*` slots (`d_list` / `shapes`).
* `d_world`, `d_camera`: the content of the cells `*d_world` and `*d_camera`.
* `rand_state`: the content of `*rand_state`.
* `numShapes_at_d_world`: the `int` that the read `((ShapeList*)d_world)->numShapes` finds.
  `d_world` is the address of the cell that holds the pointer to the world, not the
  address of the `ShapeList` object `*d_world`; the read reinterprets the memory at that
  cell, and no kernel writes there. -/
structure Device (K : Type) where
  heap : List (Obj K)
  freed : List Addr
  d_list : ℕ → Addr
  d_world : Addr
  d_camera : Addr
  rand_state : ℕ
  numShapes_at_d_world : ℤ

namespace Device
variable {K : Type}

/-- A `new` expression: the object is appended to the heap; its address is returned. -/
def new (st : Device K) (o : Obj K) : Addr × Device K :=
  (st.heap.length, { st with heap := st.heap ++ [o] })

/-- A `delete` expression. -/
def delete (st : Device K) (a : Addr) : Device K :=
  { st with freed := st.freed ++ [a] }

/-- `d_list[i] = new Sphere(center, radius, new M(...))`, with `mat` the material
`M(...)`. -/
def newSphereAt (st : Device K) (i : ℕ) (center : Point3 K) (radius : K) (mat : Material K) :
    Device K :=
  let (m, st) := st.new (Obj.material mat)
  let (s, st) := st.new (Obj.shape (Shape.Sphere center radius m))
  { st with d_list := Function.update st.d_list i s }

/-- `d_list[i] = new Cylinder(center, radius, yMinOffset, height, new M(...))`, with `mat`
the material `M(...)`. -/
def newCylinderAt (st : Device K) (i : ℕ) (center : Point3 K) (radius yMinOffset height : K)
    (mat : Material K) : Device K :=
  let (m, st) := st.new (Obj.material mat)
  let (s, st) := st.new (Obj.shape (Shape.Cylinder center radius yMinOffset height m))
  { st with d_list := Function.update st.d_list i s }

/-- The shape object that slot `i` of the array points to, if it points to one. -/
def shapeAt (st : Device K) (i : ℕ) : Option (Shape K) :=
  match st.heap[st.d_list i]? with
  | some (Obj.shape s) => some s
  | _ => none

/-- The material object at address `a`, if there is one. -/
def materialAt (st : Device K) (a : Addr) : Option (Material K) :=
  match st.heap[a]? with
  | some (Obj.material m) => some m
  | _ => none

/-- The camera object at address `a`, if there is one. -/
def cameraAt (st : Device K) (a : Addr) : Option (Camera K) :=
  match st.heap[a]? with
  | some (Obj.camera c) => some c
  | _ => none

/-- The shape object at address `a`, if there is one. -/
def shapeAtAddr (st : Device K) (a : Addr) : Option (Shape K) :=
  match st.heap[a]? with
  | some (Obj.shape s) => some s
  | _ => none

/-- Centre, radius and material of the sphere that slot `i` points to, if it points to a
sphere that owns a material. -/
def sphereAt (st : Device K) (i : ℕ) : Option (Point3 K × K × Material K) :=
  match st.shapeAt i with
  | some (Shape.Sphere c r m) =>
    match st.materialAt m with
    | some mat => some (c, r, mat)
    | none => none
  | _ => none

/-- The read `p->material` for a `Shape* p`: the `material` member of the shape object at
`p`.  It is none when `p` does not point to a sphere or cylinder. -/
def materialOf (st : Device K) (p : Addr) : Option Addr :=
  match st.heap[p]? with
  | some (Obj.shape (Shape.Sphere _ _ m)) => some m
  | some (Obj.shape (Shape.Cylinder _ _ _ _ m)) => some m
  | _ => none

end Device

/-- The guard `threadIdx.x == 0 && blockIdx.x == 0`. -/
def ThreadId.designated (tid : ThreadId) : Prop := tid.threadIdx_x = 0 ∧ tid.blockIdx_x = 0

instance (tid : ThreadId) : Decidable tid.designated :=
  inferInstanceAs (Decidable (tid.threadIdx_x = 0 ∧ tid.blockIdx_x = 0))

/-- The kernel `rand_init`: `curand_init(1999, 0, 0, rand_state)` puts the generator at the
start of its stream. -/
def rand_init {K : Type} (tid : ThreadId) (st : Device K) : Device K :=
  if tid.designated then { st with rand_state := 0 } else st

/-- The loop of `free_world` over the indices `is`: `delete d_list[i]->material;
delete d_list[i];`.  It is none when `d_list[i]` does not point to a shape that has a
material (undefined behaviour in the source). -/
def free_world.loop {K : Type} : List ℕ → Device K → Option (Device K)
  | [], st => some st
  | i :: is, st =>
    match st.materialOf (st.d_list i) with
    | none => none
    | some m => free_world.loop is ((st.delete m).delete (st.d_list i))

/-- The kernel `free_world`.  It has no guard on the thread.  Its loop bound is
`((ShapeList*)d_world)->numShapes`. -/
def free_world {K : Type} (_tid : ThreadId) (st : Device K) : Option (Device K) :=
  match free_world.loop (List.range st.numShapes_at_d_world.toNat) st with
  | none => none
  | some st =>
    let st := st.delete st.d_world
    let st := st.delete st.d_camera
    some st

/-- The kernel `create_world`.  The local `curNum` of the source is never read and is left
out. -/
def create_world {K : Type} [LinearOrderedField K] (sqrt : K → K) (tid : ThreadId)
    (nx ny : ℤ) (st : Device K) : Device K :=
  if tid.designated then
    let st := st.newSphereAt 0 ⟨0, 0, -1⟩ 0.5 (Material.Lambertian ⟨0.1, 0.2, 0.5⟩)
    let st := st.newSphereAt 1 ⟨0, -100.5, -1⟩ 100 (Material.Lambertian ⟨0.8, 0.8, 0.0⟩)
    let st := st.newSphereAt 2 ⟨1, 0, -1⟩ 0.5 (Material.Metal ⟨0.8, 0.6, 0.2⟩ 0.0)
    let st := st.newSphereAt 3 ⟨-1, 0, -1⟩ 0.5 (Material.Dielectric 1.5)
    let st := st.newSphereAt 4 ⟨-1, 0, -1⟩ (-0.45) (Material.Dielectric 1.5)
    let (w, st) := st.new (Obj.shape (Shape.ShapeList 5))
    let st := { st with d_world := w }
    let lookfrom : Point3 K := ⟨-2, 2, 1⟩
    let lookat : Point3 K := ⟨0, 0, -1⟩
    let dist_to_focus : K := Vector3.Length sqrt (lookfrom - lookat)
    let aperture : K := 0
    let (c, st) := st.new (Obj.camera
      ⟨lookfrom, lookat, ⟨0, 1, 0⟩, 20.0, Float.fin nx / Float.fin ny, aperture, dist_to_focus⟩)
    { st with d_camera := c }
  else st
/-- A `for` loop `for (a = start; a < stop; a += step) body`, run for at most `fuel`
iterations. -/
def forLoop {α σ : Type} [LT α] [DecidableRel (fun x y : α => x < y)] [Add α]
    (stop step : α) (body : α → σ → σ) : ℕ → α → σ → σ
  | 0, _, s => s
  | fuel + 1, a, s => if a < stop then forLoop stop step body fuel (a + step) (body a s) else s

/-- The local state of a scene generator: device memory, the counter `curNum` and the
generator state `local_rand_state`. -/
structure Gen (K : Type) where
  dev : Device K
  curNum : ℕ
  local_rand_state : ℕ

namespace Gen
variable {K : Type}

/-- `shapes[curNum++] = new Sphere(center, radius, new M(...))`, with `mat` the material
`M(...)`. -/
def pushSphere (g : Gen K) (center : Point3 K) (radius : K) (mat : Material K) : Gen K :=
  { g with dev := g.dev.newSphereAt g.curNum center radius mat, curNum := g.curNum + 1 }

/-- `shapes[curNum++] = new Cylinder(center, radius, yMinOffset, height, new M(...))`, with
`mat` the material `M(...)`. -/
def pushCylinder (g : Gen K) (center : Point3 K) (radius yMinOffset height : K)
    (mat : Material K) : Gen K :=
  { g with dev := g.dev.newCylinderAt g.curNum center radius yMinOffset height mat,
           curNum := g.curNum + 1 }

/-- The generator state after `n` more evaluations of `RND`. -/
def advance (g : Gen K) (n : ℕ) : Gen K :=
  { g with local_rand_state := g.local_rand_state + n }

end Gen

section Generators
variable {K : Type} [LinearOrderedField K]

/-- The choice of material and the creation of the sphere or pair of spheres, as it stands
three times in the source (lines 82-109, 156-183 and 215-242 of `example.h`), with the two
radii as parameters.  `chooseMat` and `center` have been drawn before; the draws of each
`RND` in the arguments are taken from left to right. -/
def placeSpheres (rnd : ℕ → K) (chooseMat : K) (center : Point3 K) (radius innerRadius : K)
    (g : Gen K) : Gen K :=
  let i := g.local_rand_state
  if chooseMat < 0.7 then
    (g.advance 6).pushSphere center radius
      (Material.Lambertian
        ⟨rnd i * rnd (i + 1), rnd (i + 2) * rnd (i + 3), rnd (i + 4) * rnd (i + 5)⟩)
  else if chooseMat < 0.85 then
    (g.advance 4).pushSphere center radius
      (Material.Metal
        ⟨0.5 * (1 + rnd i), 0.5 * (1 + rnd (i + 1)), 0.5 * (1 + rnd (i + 2))⟩ (rnd (i + 3)))
  else if chooseMat < 0.95 then
    (g.advance 1).pushSphere center radius (Material.Dielectric (1 + rnd i))
  else
    (g.pushSphere center radius (Material.Dielectric 1.5)).pushSphere center innerRadius
      (Material.Dielectric 1.5)

/-- The body of the inner loop of `SampleScene`, for the loop variables `a` and `b`. -/
def SampleScene.body (sqrt : K → K) (rnd : ℕ → K) (a b : ℤ) (g : Gen K) : Gen K :=
  let i := g.local_rand_state
  let chooseMat : K := rnd i
  let center : Point3 K := ⟨a + 0.9 * rnd (i + 1), 0.2, b + 0.9 * rnd (i + 2)⟩
  let g := g.advance 3
  if Vector3.Length sqrt (center - (⟨4, 0.2, 0⟩ : Point3 K)) > 0.9 then
    placeSpheres rnd chooseMat center 0.2 (-0.15) g
  else g

/-- The two nested loops of `SampleScene`: `a` and `b` run from `-11` while `< 11`. -/
def SampleScene.loops (sqrt : K → K) (rnd : ℕ → K) (g : Gen K) : Gen K :=
  forLoop (11 : ℤ) 1
    (fun a g => forLoop (11 : ℤ) 1 (fun b g => SampleScene.body sqrt rnd a b g) 23 (-11) g)
    23 (-11) g

/-- The body of `SampleScene` up to, and without, the two final assignments to
`*rand_state` and `*world`. -/
def SampleScene.gen (sqrt : K → K) (rnd : ℕ → K) (width height : ℤ) (st : Device K) :
    Gen K :=
  let local_rand_state := st.rand_state
  let lookFrom : Point3 K := ⟨13, 2, 3⟩
  let lookAt : Point3 K := ⟨0, 0, 0⟩
  let lookUp : Vector3 K := ⟨0, 1, 0⟩
  let aperture : K := 0.0
  let fov : K := 20.0
  let focusDis : K := 10.0
  let screenWidth : Float := Float.fin width
  let screenHeight : Float := Float.fin height
  let aspect : Float := screenWidth / screenHeight
  let (c, st) := st.new (Obj.camera ⟨lookFrom, lookAt, lookUp, fov, aspect, aperture, focusDis⟩)
  let st := { st with d_camera := c }
  let g : Gen K := ⟨st, 0, local_rand_state⟩
  let g := g.pushSphere ⟨0, -1000, 0⟩ 1000 (Material.Lambertian ⟨0.5, 0.5, 0.5⟩)
  let g := SampleScene.loops sqrt rnd g
  let g := g.pushSphere ⟨0, 1, 0⟩ 1.0 (Material.Dielectric 1.5)
  let g := g.pushSphere ⟨-4, 1, 0⟩ 1.0 (Material.Lambertian ⟨0.4, 0.2, 0.1⟩)
  let g := g.pushSphere ⟨4, 1, 0⟩ 1.0 (Material.Metal ⟨0.7, 0.6, 0.5⟩ 0.0)
  g

/-- The two final assignments of a generator: `*rand_state = local_rand_state;` and
`*world = new ShapeList(shapes, curNum);`. -/
def Gen.finish (g : Gen K) : Device K :=
  let st := { g.dev with rand_state := g.local_rand_state }
  let (w, st) := st.new (Obj.shape (Shape.ShapeList g.curNum))
  { st with d_world := w }

/-- The kernel `SampleScene`. -/
def SampleScene (sqrt : K → K) (rnd : ℕ → K) (tid : ThreadId) (width height : ℤ)
    (st : Device K) : Device K :=
  if tid.designated then (SampleScene.gen sqrt rnd width height st).finish else st

/-- The body of the first sphere loop of `ShapeTestCylinderScene` (spheres on the disc), for
the loop variables `a` and `b`. -/
def ShapeTestCylinderScene.upperBody (sqrt : K → K) (rnd : ℕ → K) (a b : ℤ) (g : Gen K) :
    Gen K :=
  let i := g.local_rand_state
  let chooseMat : K := rnd i
  let center : Point3 K :=
    ⟨a + 0.9 * rnd (i + 1), 0.3 + (0.1 + 0.2 * rnd (i + 2)), b + 0.9 * rnd (i + 3)⟩
  let g := g.advance 4
  if Vector3.Length sqrt (center - (⟨0, center.y, 0⟩ : Point3 K)) > 0.6 + (center.y - 0.35) ∧
      Vector3.Length sqrt (center - (⟨0, center.y, 0⟩ : Point3 K)) ≤
        3.0 - (center.y - 0.35) then
    placeSpheres rnd chooseMat center (center.y - 0.3) (0.4 - center.y) g
  else g

/-- The body of the second sphere loop of `ShapeTestCylinderScene` (spheres under the disc),
for the loop variables `a` and `b`. -/
def ShapeTestCylinderScene.lowerBody (sqrt : K → K) (rnd : ℕ → K) (a b : K) (g : Gen K) :
    Gen K :=
  let i := g.local_rand_state
  let chooseMat : K := rnd i
  let center : Point3 K :=
    ⟨a + 0.9 * rnd (i + 1), 0.2 + (0.1 + 0.25 * rnd (i + 2)), b + 0.9 * rnd (i + 3)⟩
  let g := g.advance 4
  if Vector3.Length sqrt (center - (⟨0, center.y, 0⟩ : Point3 K)) ≤ 4.0 - (center.y - 0.2) ∧
      Vector3.Length sqrt (center - (⟨0, center.y, 0⟩ : Point3 K)) ≥ 3.0 + (center.y - 0.2) ∧
      Vector3.Length sqrt (center - (⟨2.5, center.y, 2.5⟩ : Point3 K)) ≥ center.y ∧
      Vector3.Length sqrt (center - (⟨-2.5, center.y, 2.5⟩ : Point3 K)) ≥ center.y ∧
      Vector3.Length sqrt (center - (⟨2.5, center.y, -2.5⟩ : Point3 K)) ≥ center.y ∧
      Vector3.Length sqrt (center - (⟨-2.5, center.y, -2.5⟩ : Point3 K)) ≥ center.y then
    placeSpheres rnd chooseMat center (center.y - 0.2) (0.25 - center.y) g
  else g

/-- The body of `ShapeTestCylinderScene` up to, and without, the two final assignments to
`*rand_state` and `*world`. -/
def ShapeTestCylinderScene.gen (sqrt : K → K) (rnd : ℕ → K) (width height : ℤ)
    (st : Device K) : Gen K :=
  let local_rand_state := st.rand_state
  let lookFrom : Point3 K := ⟨-1, 3, 6⟩
  let lookAt : Point3 K := ⟨0, 0, -1⟩
  let lookUp : Vector3 K := ⟨0, 1, 0⟩
  let aperture : K := 0.0
  let fov : K := 80.0
  let focusDis : K := Vector3.Length sqrt (lookFrom - lookAt)
  let screenWidth : Float := Float.fin width
  let screenHeight : Float := Float.fin height
  let aspect : Float := screenWidth / screenHeight
  let (c, st) := st.new (Obj.camera ⟨lookFrom, lookAt, lookUp, fov, aspect, aperture, focusDis⟩)
  let st := { st with d_camera := c }
  let g : Gen K := ⟨st, 0, local_rand_state⟩
  let g := g.pushSphere ⟨0, -1000, 0⟩ 1000
    (Material.Lambertian ⟨0.980392, 0.694118, 0.627451⟩)
  let g := g.pushCylinder ⟨0, 0.1, 0⟩ 4.0 0.0 0.2
    (Material.Lambertian ⟨0.882353, 0.439216, 0.333333⟩)
  let g := g.pushCylinder ⟨0, 0.25, 0⟩ 3.0 0.0 0.1
    (Material.Metal ⟨0.423529, 0.360784, 0.905882⟩ 0)
  let g := g.pushCylinder ⟨2.5, 1.7, 2.5⟩ 0.2 0.0 3.0
    (Material.Metal ⟨0.0352941, 0.517647, 0.890196⟩ 0.6)
  let g := g.pushCylinder ⟨2.5, 1.7, -2.5⟩ 0.2 0.0 3.0
    (Material.Lambertian ⟨0, 0.807843, 0.788235⟩)
  let g := g.pushCylinder ⟨-2.5, 1.7, 2.5⟩ 0.2 0.0 3.0 (Material.Dielectric 1.5)
  let g := g.pushCylinder ⟨-2.5, 1.7, -2.5⟩ 0.2 0.0 3.0
    (Material.Metal ⟨0.992157, 0.47451, 0.658824⟩ 0.3)
  let g := g.pushCylinder ⟨0, 3.3, 0⟩ 4.0 0.0 0.2
    (Material.Metal ⟨0.839216, 0.188235, 0.192157⟩ 0.5)
  let g := forLoop (3 : ℤ) 1
    (fun a g =>
      forLoop (3 : ℤ) 1 (fun b g => ShapeTestCylinderScene.upperBody sqrt rnd a b g) 7 (-3) g)
    7 (-3) g
  let g := g.pushCylinder ⟨0, 0.375, 0⟩ 0.6 0.0 0.15 (Material.Lambertian ⟨1.0, 1.0, 1.0⟩)
  let g := g.pushCylinder ⟨0, 0.525, 0⟩ 0.5 0.0 0.15 (Material.Lambertian ⟨0.1, 0.1, 0.1⟩)
  let g := g.pushCylinder ⟨0, 0.675, 0⟩ 0.4 0.0 0.15 (Material.Lambertian ⟨0.9, 0.9, 0.9⟩)
  let g := g.pushCylinder ⟨0, 0.825, 0⟩ 0.3 0.0 0.15
    (Material.Metal ⟨0.827451, 0.329412, 0⟩ 0.3)
  let g := g.pushCylinder ⟨0, 1.2625, 0⟩ 0.2 0.0 0.575 (Material.Dielectric 1.5)
  let g := g.pushSphere ⟨0, 1.75, 0⟩ 0.20 (Material.Metal ⟨0.752941, 0.223529, 0.168627⟩ 0)
  let g := g.pushCylinder ⟨0, 2.2375, 0⟩ 0.2 0.0 0.575 (Material.Dielectric 1.5)
  let g := g.pushCylinder ⟨0, 2.6, 0⟩ 0.3 0.0 0.15
    (Material.Metal ⟨0.827451, 0.329412, 0⟩ 0.3)
  let g := g.pushCylinder ⟨0, 2.75, 0⟩ 0.4 0.0 0.15 (Material.Lambertian ⟨0.9, 0.9, 0.9⟩)
  let g := g.pushCylinder ⟨0, 2.9, 0⟩ 0.5 0.0 0.15 (Material.Lambertian ⟨0.1, 0.1, 0.1⟩)
  let g := g.pushCylinder ⟨0, 3.05, 0⟩ 0.6 0.0 0.15 (Material.Lambertian ⟨1.0, 1.0, 1.0⟩)
  let g := forLoop (4 : K) 0.5
    (fun a g =>
      forLoop (4 : K) 1 (fun b g => ShapeTestCylinderScene.lowerBody sqrt rnd a b g) 9 (-4) g)
    17 (-4) g
  g

/-- The kernel `ShapeTestCylinderScene`. -/
def ShapeTestCylinderScene (sqrt : K → K) (rnd : ℕ → K) (tid : ThreadId) (width height : ℤ)
    (st : Device K) : Device K :=
  if tid.designated then (ShapeTestCylinderScene.gen sqrt rnd width height st).finish else st

end Generators

/-- A device whose memory is fresh: nothing allocated, every cell reading zero. -/
def Device.fresh (K : Type) : Device K :=
  { heap := [], freed := [], d_list := fun _ => 0, d_world := 0, d_camera := 0,
    rand_state := 0, numShapes_at_d_world := 0 }

/-- The four kinds of sphere that a generator places. -/
inductive SphereKind where
  | lambertian
  | metal
  | dielectricSolid
  | dielectricShell
  deriving DecidableEq

/-- The kind that the draw `u` selects: below 0.7, below 0.85, below 0.95, and the rest. -/
def kindOfDraw {K : Type} [LinearOrderedField K] (u : K) : SphereKind :=
  if u < 0.7 then SphereKind.lambertian
  else if u < 0.85 then SphereKind.metal
  else if u < 0.95 then SphereKind.dielectricSolid
  else SphereKind.dielectricShell

/-! ## Vocabulary of the statements about device memory -/

/-- `st'` extends `st`: every object of `st` is still there, at the same address. -/
def Device.Ext {K : Type} (st st' : Device K) : Prop :=
  ∀ (a : Addr) (o : Obj K), st.heap[a]? = some o → st'.heap[a]? = some o

/-- The generator state `g'` extends `g`: the count has not decreased, the heap has only
grown, and the slots below the old count still hold the same pointers. -/
def Gen.Le {K : Type} (g g' : Gen K) : Prop :=
  g.curNum ≤ g'.curNum ∧ g.dev.Ext g'.dev ∧
    ∀ i : ℕ, i < g.curNum → g'.dev.d_list i = g.dev.d_list i

/-- The hollow-shell condition on slot `i` of the shape array: the slot points to a shape,
and if that shape is a sphere then either its radius is positive, or its radius is
negative and the slot before it points to a sphere with the same centre, a positive radius
strictly larger in magnitude, and both spheres own a `Dielectric(1.5)`. -/
def Device.HollowOK {K : Type} [LinearOrderedField K] (st : Device K) (i : ℕ) : Prop :=
  ∃ s, st.shapeAt i = some s ∧
    ∀ c r m, s = Shape.Sphere c r m →
      (0 < r ∨ (r < 0 ∧ 0 < i ∧ ∃ r' m', st.shapeAt (i - 1) = some (Shape.Sphere c r' m') ∧
        0 < r' ∧ -r < r' ∧
        st.materialAt m = some (Material.Dielectric 1.5) ∧
        st.materialAt m' = some (Material.Dielectric 1.5)))

/-- The order in which `free_world` calls `delete` in its loop over the indices `is`, when
`m i` is the material of the shape in slot `i`: the material of a shape, then the shape. -/
def deleteOrder (m : ℕ → Addr) (d_list : ℕ → Addr) : List ℕ → List Addr
  | [] => []
  | i :: is => m i :: d_list i :: deleteOrder m d_list is

/-! ## Reductions, products and random points (`geometry.h`) -/

/-- The library function `std::min(a, b)`: `b` when `b < a`, else `a`. -/
def stdMin {T : Type} [LT T] [DecidableRel (fun a b : T => a < b)] (a b : T) : T :=
  if b < a then b else a

/-- The library function `std::max(a, b)`: `b` when `a < b`, else `a`. -/
def stdMax {T : Type} [LT T] [DecidableRel (fun a b : T => a < b)] (a b : T) : T :=
  if a < b then b else a

/-- `MinComponent(const Vector3<T>& v)`. -/
def Vector3.MinComponent {T : Type} [LT T] [DecidableRel (fun a b : T => a < b)]
    (v : Vector3 T) : T :=
  stdMin v.x (stdMin v.y v.z)

/-- `MaxComponent(const Vector3<T>& v)`. -/
def Vector3.MaxComponent {T : Type} [LT T] [DecidableRel (fun a b : T => a < b)]
    (v : Vector3 T) : T :=
  stdMax v.x (stdMax v.y v.z)

/-- `MaxDimension(const Vector3<T>& v)`. -/
def Vector3.MaxDimension {T : Type} [LT T] [DecidableRel (fun a b : T => a < b)]
    (v : Vector3 T) : ℤ :=
  if v.x > v.y then (if v.x > v.z then 0 else 2) else (if v.y > v.z then 1 else 2)

/-- `Vector3<T>::operator-(const Vector3<T>& v)` (its `DCHECK` compiled out). -/
def Vector3.sub {T : Type} [Sub T] (v w : Vector3 T) : Vector3 T :=
  ⟨v.x - w.x, v.y - w.y, v.z - w.z⟩

instance {T : Type} [Sub T] : Sub (Vector3 T) := ⟨Vector3.sub⟩

/-- `Vector3<T>::operator-()`. -/
def Vector3.neg {T : Type} [Neg T] (v : Vector3 T) : Vector3 T := ⟨-v.x, -v.y, -v.z⟩

instance {T : Type} [Neg T] : Neg (Vector3 T) := ⟨Vector3.neg⟩

/-- The default constructor `Vector3()`: `x = y = z = 0`. -/
def Vector3.zero {T : Type} [Zero T] : Vector3 T := ⟨0, 0, 0⟩

/-- The free function `operator*(U s, const Vector3<T>& v)`: `v * s`. -/
def Vector3.scalarMul {T : Type} [Mul T] (s : T) (v : Vector3 T) : Vector3 T := v * s

/-- The conversion `Point3<T>::Point3(const Vector3<T>& v)` (its `DCHECK` compiled out). -/
def Point3.ofVector {T : Type} (v : Vector3 T) : Point3 T := ⟨v.x, v.y, v.z⟩

/-- `Cross(const Vector3<T>& v1, const Normal3<T>& v2)`, with the same `double` locals as
the overload on two vectors. -/
def Vector3.CrossNormal {T : Type} [Sub T] [Mul T] (v1 : Vector3 T) (v2 : Normal3 T) :
    Vector3 T :=
  let v1x := v1.x
  let v1y := v1.y
  let v1z := v1.z
  let v2x := v2.x
  let v2y := v2.y
  let v2z := v2.z
  ⟨(v1y * v2z) - (v1z * v2y), (v1z * v2x) - (v1x * v2z), (v1x * v2y) - (v1y * v2x)⟩

/-- `Cross(const Normal3<T>& v1, const Vector3<T>& v2)`. -/
def Normal3.Cross {T : Type} [Sub T] [Mul T] (v1 : Normal3 T) (v2 : Vector3 T) : Vector3 T :=
  let v1x := v1.x
  let v1y := v1.y
  let v1z := v1.z
  let v2x := v2.x
  let v2y := v2.y
  let v2z := v2.z
  ⟨(v1y * v2z) - (v1z * v2y), (v1z * v2x) - (v1x * v2z), (v1x * v2y) - (v1y * v2x)⟩

/-- `Dot(const Vector3<T>& v1, const Normal3<T>& n2)`. -/
def Vector3.DotNormal {T : Type} [Add T] [Mul T] (v1 : Vector3 T) (n2 : Normal3 T) : T :=
  v1.x * n2.x + v1.y * n2.y + v1.z * n2.z

/-- The `do { ... } while (Dot(p, p) >= 1.0)` loop of `RandomInUnitSphere`.  The generator
`randomNum(seeds)` is a global declared outside the sources at hand; its successive values
are the stream `rnd`, read from position `n` on, the three arguments of the constructor
taken from left to right.  `fuel` bounds the number of passes; the result is the accepted
vector and the position of the next draw. -/
def RandomInUnitSphere.loop {K : Type} [LinearOrderedField K] (rnd : ℕ → K) :
    ℕ → ℕ → Option (Vector3 K × ℕ)
  | 0, _ => none
  | fuel + 1, n =>
    let p : Vector3 K :=
      Vector3.scalarMul 2.0 ⟨rnd n, rnd (n + 1), rnd (n + 2)⟩ - ⟨1, 1, 1⟩
    if Vector3.Dot p p ≥ 1.0 then RandomInUnitSphere.loop rnd fuel (n + 3)
    else some (p, n + 3)

/-- `RandomInUnitSphere()`: the point returned and the position of the next draw, or `none`
when the loop has not ended within `fuel` passes. -/
def RandomInUnitSphere {K : Type} [LinearOrderedField K] (rnd : ℕ → K) (fuel n : ℕ) :
    Option (Point3 K × ℕ) :=
  (RandomInUnitSphere.loop rnd fuel n).map (fun r => (Point3.ofVector r.1, r.2))

/-- The `do { ... } while (Dot(p, p) >= 1.0)` loop of `RandomInUnitDisk`: two draws per
pass. -/
def RandomInUnitDisk.loop {K : Type} [LinearOrderedField K] (rnd : ℕ → K) :
    ℕ → ℕ → Option (Vector3 K × ℕ)
  | 0, _ => none
  | fuel + 1, n =>
    let p : Vector3 K := Vector3.scalarMul 2.0 ⟨rnd n, rnd (n + 1), 0⟩ - ⟨1, 1, 0⟩
    if Vector3.Dot p p ≥ 1.0 then RandomInUnitDisk.loop rnd fuel (n + 2)
    else some (p, n + 2)

/-- `RandomInUnitDisk()`: the point returned and the position of the next draw, or `none`
when the loop has not ended within `fuel` passes. -/
def RandomInUnitDisk {K : Type} [LinearOrderedField K] (rnd : ℕ → K) (fuel n : ℕ) :
    Option (Point3 K × ℕ) :=
  (RandomInUnitDisk.loop rnd fuel n).map (fun r => (Point3.ofVector r.1, r.2))

/-- The candidate vector that pass `j` (from 0) of the loop of `RandomInUnitSphere` builds
when the first pass reads the stream at position `n`. -/
def RandomInUnitSphere.candidate {K : Type} [LinearOrderedField K] (rnd : ℕ → K) (n j : ℕ) :
    Vector3 K :=
  Vector3.scalarMul 2.0 ⟨rnd (n + 3 * j), rnd (n + 3 * j + 1), rnd (n + 3 * j + 2)⟩ -
    ⟨1, 1, 1⟩

/-- The candidate vector that pass `j` (from 0) of the loop of `RandomInUnitDisk` builds
when the first pass reads the stream at position `n`. -/
def RandomInUnitDisk.candidate {K : Type} [LinearOrderedField K] (rnd : ℕ → K) (n j : ℕ) :
    Vector3 K :=
  Vector3.scalarMul 2.0 ⟨rnd (n + 2 * j), rnd (n + 2 * j + 1), 0⟩ - ⟨1, 1, 0⟩

/-! ## Vocabulary of the statements about the placement regions -/

/-- The horizontal distance of the point `c` from the vertical axis through `(ax, ·, az)`,
with `sqrt` for `std::sqrt`. -/
def horizontalDistance {K : Type} [LinearOrderedField K] (sqrt : K → K) (c : Point3 K)
    (ax az : K) : K :=
  sqrt ((c.x - ax) * (c.x - ax) + (c.z - az) * (c.z - az))

/-- The region of the upper sphere loop of `ShapeTestCylinderScene`: the horizontal distance
`r` of the centre from the vertical axis satisfies
`0.6 + (y - 0.35) < r ≤ 3.0 - (y - 0.35)`, with `y` the height of the centre. -/
def UpperAnnulus {K : Type} [LinearOrderedField K] (sqrt : K → K) (c : Point3 K) : Prop :=
  0.6 + (c.y - 0.35) < horizontalDistance sqrt c 0 0 ∧
    horizontalDistance sqrt c 0 0 ≤ 3.0 - (c.y - 0.35)

/-- The region of the lower sphere loop of `ShapeTestCylinderScene`: the horizontal distance
`r` of the centre from the vertical axis satisfies `3.0 + (y - 0.2) ≤ r ≤ 4.0 - (y - 0.2)`,
and the horizontal distance from each of the four pillar axes `(±2.5, ±2.5)` is at least
`y`, with `y` the height of the centre. -/
def LowerAnnulus {K : Type} [LinearOrderedField K] (sqrt : K → K) (c : Point3 K) : Prop :=
  3.0 + (c.y - 0.2) ≤ horizontalDistance sqrt c 0 0 ∧
    horizontalDistance sqrt c 0 0 ≤ 4.0 - (c.y - 0.2) ∧
    c.y ≤ horizontalDistance sqrt c 2.5 2.5 ∧
    c.y ≤ horizontalDistance sqrt c (-2.5) 2.5 ∧
    c.y ≤ horizontalDistance sqrt c 2.5 (-2.5) ∧
    c.y ≤ horizontalDistance sqrt c (-2.5) (-2.5)

/-- Every slot `i` of the shape array with `lo ≤ i < hi` holds a sphere whose centre
satisfies `P`. -/
def Device.SpheresIn {K : Type} (P : Point3 K → Prop) (st : Device K) (lo hi : ℕ) : Prop :=
  ∀ i, lo ≤ i → i < hi → ∃ c r m, st.sphereAt i = some (c, r, m) ∧ P c

/-- The first part of `ShapeTestCylinderScene`, lines 125 to 189 of `example.h`: the camera,
the eight fixed shapes and the upper sphere loop.  Its `curNum` is the count of shapes when
the upper loop has ended. -/
def ShapeTestCylinderScene.upperPart {K : Type} [LinearOrderedField K] (sqrt : K → K)
    (rnd : ℕ → K) (width height : ℤ) (st : Device K) : Gen K :=
  let local_rand_state := st.rand_state
  let lookFrom : Point3 K := ⟨-1, 3, 6⟩
  let lookAt : Point3 K := ⟨0, 0, -1⟩
  let lookUp : Vector3 K := ⟨0, 1, 0⟩
  let aperture : K := 0.0
  let fov : K := 80.0
  let focusDis : K := Vector3.Length sqrt (lookFrom - lookAt)
  let screenWidth : Float := Float.fin width
  let screenHeight : Float := Float.fin height
  let aspect : Float := screenWidth / screenHeight
  let (c, st) := st.new (Obj.camera ⟨lookFrom, lookAt, lookUp, fov, aspect, aperture, focusDis⟩)
  let st := { st with d_camera := c }
  let g : Gen K := ⟨st, 0, local_rand_state⟩
  let g := g.pushSphere ⟨0, -1000, 0⟩ 1000
    (Material.Lambertian ⟨0.980392, 0.694118, 0.627451⟩)
  let g := g.pushCylinder ⟨0, 0.1, 0⟩ 4.0 0.0 0.2
    (Material.Lambertian ⟨0.882353, 0.439216, 0.333333⟩)
  let g := g.pushCylinder ⟨0, 0.25, 0⟩ 3.0 0.0 0.1
    (Material.Metal ⟨0.423529, 0.360784, 0.905882⟩ 0)
  let g := g.pushCylinder ⟨2.5, 1.7, 2.5⟩ 0.2 0.0 3.0
    (Material.Metal ⟨0.0352941, 0.517647, 0.890196⟩ 0.6)
  let g := g.pushCylinder ⟨2.5, 1.7, -2.5⟩ 0.2 0.0 3.0
    (Material.Lambertian ⟨0, 0.807843, 0.788235⟩)
  let g := g.pushCylinder ⟨-2.5, 1.7, 2.5⟩ 0.2 0.0 3.0 (Material.Dielectric 1.5)
  let g := g.pushCylinder ⟨-2.5, 1.7, -2.5⟩ 0.2 0.0 3.0
    (Material.Metal ⟨0.992157, 0.47451, 0.658824⟩ 0.3)
  let g := g.pushCylinder ⟨0, 3.3, 0⟩ 4.0 0.0 0.2
    (Material.Metal ⟨0.839216, 0.188235, 0.192157⟩ 0.5)
  let g := forLoop (3 : ℤ) 1
    (fun a g =>
      forLoop (3 : ℤ) 1 (fun b g => ShapeTestCylinderScene.upperBody sqrt rnd a b g) 7 (-3) g)
    7 (-3) g
  g

/-- The second part of `ShapeTestCylinderScene`, lines 193 to 245 of `example.h`: the eleven
fixed shapes of the column and the lower sphere loop, run from the state `g` that the first
part has left. -/
def ShapeTestCylinderScene.lowerPart {K : Type} [LinearOrderedField K] (sqrt : K → K)
    (rnd : ℕ → K) (g : Gen K) : Gen K :=
  let g := g.pushCylinder ⟨0, 0.375, 0⟩ 0.6 0.0 0.15 (Material.Lambertian ⟨1.0, 1.0, 1.0⟩)
  let g := g.pushCylinder ⟨0, 0.525, 0⟩ 0.5 0.0 0.15 (Material.Lambertian ⟨0.1, 0.1, 0.1⟩)
  let g := g.pushCylinder ⟨0, 0.675, 0⟩ 0.4 0.0 0.15 (Material.Lambertian ⟨0.9, 0.9, 0.9⟩)
  let g := g.pushCylinder ⟨0, 0.825, 0⟩ 0.3 0.0 0.15
    (Material.Metal ⟨0.827451, 0.329412, 0⟩ 0.3)
  let g := g.pushCylinder ⟨0, 1.2625, 0⟩ 0.2 0.0 0.575 (Material.Dielectric 1.5)
  let g := g.pushSphere ⟨0, 1.75, 0⟩ 0.20 (Material.Metal ⟨0.752941, 0.223529, 0.168627⟩ 0)
  let g := g.pushCylinder ⟨0, 2.2375, 0⟩ 0.2 0.0 0.575 (Material.Dielectric 1.5)
  let g := g.pushCylinder ⟨0, 2.6, 0⟩ 0.3 0.0 0.15
    (Material.Metal ⟨0.827451, 0.329412, 0⟩ 0.3)
  let g := g.pushCylinder ⟨0, 2.75, 0⟩ 0.4 0.0 0.15 (Material.Lambertian ⟨0.9, 0.9, 0.9⟩)
  let g := g.pushCylinder ⟨0, 2.9, 0⟩ 0.5 0.0 0.15 (Material.Lambertian ⟨0.1, 0.1, 0.1⟩)
  let g := g.pushCylinder ⟨0, 3.05, 0⟩ 0.6 0.0 0.15 (Material.Lambertian ⟨1.0, 1.0, 1.0⟩)
  let g := forLoop (4 : K) 0.5
    (fun a g =>
      forLoop (4 : K) 1 (fun b g => ShapeTestCylinderScene.lowerBody sqrt rnd a b g) 9 (-4) g)
    17 (-4) g
  g

/-! ## Vocabulary of the statements about contiguous filling -/

/-- The generator has filled the shape array contiguously from a heap of `base` objects:
the heap holds two more objects for each of the `curNum` assignments
`shapes[curNum++] = new Sphere(..., new M(...))` made so far; slot `i` below the count
points to the sphere of the `i`-th assignment, at address `base + 2 i + 1`, which owns the
material allocated just before it, at address `base + 2 i`; and every slot from the count
on still holds what it held at the start, `d0 i`. -/
def Gen.Contiguous {K : Type} (base : ℕ) (d0 : ℕ → Addr) (g : Gen K) : Prop :=
  g.dev.heap.length = base + 2 * g.curNum ∧
    (∀ i, i < g.curNum →
      g.dev.d_list i = base + 2 * i + 1 ∧
      (∃ c r, g.dev.heap[base + 2 * i + 1]? =
        some (Obj.shape (Shape.Sphere c r (base + 2 * i)))) ∧
      (∃ mat, g.dev.heap[base + 2 * i]? = some (Obj.material mat))) ∧
    (∀ i, g.curNum ≤ i → g.dev.d_list i = d0 i)

/-! ## Evaluation lemmas for the scalar model -/

namespace Float

@[simp] theorem zero_def : (0 : Float) = fin 0 := rfl

@[simp] theorem one_def : (1 : Float) = fin 1 := rfl

@[simp] theorem fin_add_fin (a b : ℚ) : fin a + fin b = fin (a + b) := rfl

@[simp] theorem neg_fin (a : ℚ) : -fin a = fin (-a) := rfl

@[simp] theorem fin_sub_fin (a b : ℚ) : fin a - fin b = fin (a - b) := by
  show add (fin a) (neg (fin b)) = fin (a - b)
  simp [add, neg, sub_eq_add_neg]

@[simp] theorem fin_mul_fin (a b : ℚ) : fin a * fin b = fin (a * b) := rfl

theorem fin_div_fin (a b : ℚ) : fin a / fin b =
    if b = 0 then (if a = 0 then nan else if 0 < a then pinf else ninf) else fin (a / b) :=
  rfl

theorem fin_div_fin_of_ne (a : ℚ) {b : ℚ} (hb : b ≠ 0) : fin a / fin b = fin (a / b) := by
  simp [fin_div_fin, hb]

@[simp] theorem zero_div_zero : fin 0 / fin 0 = nan := by simp [fin_div_fin]

@[simp] theorem nan_add (a : Float) : nan + a = nan := by cases a <;> rfl

@[simp] theorem add_nan (a : Float) : a + nan = nan := by cases a <;> rfl

@[simp] theorem nan_sub (a : Float) : nan - a = nan := by cases a <;> rfl

@[simp] theorem sub_nan (a : Float) : a - nan = nan := by cases a <;> rfl

@[simp] theorem nan_mul (a : Float) : nan * a = nan := by cases a <;> rfl

@[simp] theorem mul_nan (a : Float) : a * nan = nan := by cases a <;> rfl

@[simp] theorem nan_div (a : Float) : nan / a = nan := by cases a <;> rfl

@[simp] theorem div_nan (a : Float) : a / nan = nan := by cases a <;> rfl

@[simp] theorem fin_lt_fin (a b : ℚ) : fin a < fin b ↔ a < b := by
  show blt (fin a) (fin b) = true ↔ a < b
  simp [blt]

@[simp] theorem fin_le_fin (a b : ℚ) : fin a ≤ fin b ↔ a ≤ b := by
  show ble (fin a) (fin b) = true ↔ a ≤ b
  simp [ble]

@[simp] theorem not_nan_lt (a : Float) : ¬ nan < a := by
  show ¬ blt nan a = true
  simp [blt]

@[simp] theorem not_lt_nan (a : Float) : ¬ a < nan := by
  show ¬ blt a nan = true
  cases a <;> simp [blt]

@[simp] theorem not_nan_le (a : Float) : ¬ nan ≤ a := by
  show ¬ ble nan a = true
  simp [ble]

@[simp] theorem not_le_nan (a : Float) : ¬ a ≤ nan := by
  show ¬ ble a nan = true
  cases a <;> simp [ble]

@[simp] theorem fin_lt_pinf (a : ℚ) : fin a < pinf := by
  show blt (fin a) pinf = true
  rfl

@[simp] theorem fin_le_pinf (a : ℚ) : fin a ≤ pinf := by
  show ble (fin a) pinf = true
  rfl

@[simp] theorem not_pinf_lt (a : Float) : ¬ pinf < a := by
  show ¬ blt pinf a = true
  simp [blt]

@[simp] theorem not_fin_lt_ninf (a : ℚ) : ¬ fin a < ninf := by
  show ¬ blt (fin a) ninf = true
  simp [blt]

@[simp] theorem not_fin_le_ninf (a : ℚ) : ¬ fin a ≤ ninf := by
  show ¬ ble (fin a) ninf = true
  simp [ble]

@[simp] theorem ninf_lt_fin (a : ℚ) : ninf < fin a := by
  show blt ninf (fin a) = true
  rfl

/-- Away from `NaN` the order is total: `¬ b < a` is `a ≤ b`. -/
theorem not_lt_iff_le {a b : Float} (ha : a ≠ nan) (hb : b ≠ nan) : ¬ b < a ↔ a ≤ b := by
  show ¬ blt b a = true ↔ ble a b = true
  cases a <;> cases b <;> simp_all [blt, ble]

end Float

@[simp] theorem Point3.add_x {T : Type} [Add T] (p : Point3 T) (v : Vector3 T) :
    (p + v).x = p.x + v.x := rfl

@[simp] theorem Point3.add_y {T : Type} [Add T] (p : Point3 T) (v : Vector3 T) :
    (p + v).y = p.y + v.y := rfl

@[simp] theorem Point3.add_z {T : Type} [Add T] (p : Point3 T) (v : Vector3 T) :
    (p + v).z = p.z + v.z := rfl

@[simp] theorem Vector3.mul_x {T : Type} [Mul T] (v : Vector3 T) (s : T) :
    (v * s).x = s * v.x := rfl

@[simp] theorem Vector3.mul_y {T : Type} [Mul T] (v : Vector3 T) (s : T) :
    (v * s).y = s * v.y := rfl

@[simp] theorem Vector3.mul_z {T : Type} [Mul T] (v : Vector3 T) (s : T) :
    (v * s).z = s * v.z := rfl

@[simp] theorem Normal3.neg_mk {T : Type} [Neg T] (a b c : T) :
    -(Normal3.mk a b c) = Normal3.mk (-a) (-b) (-c) := rfl

theorem Point3.add_mk {T : Type} [Add T] (a b c : T) (v : Vector3 T) :
    Point3.mk a b c + v = Point3.mk (a + v.x) (b + v.y) (c + v.z) := rfl

/-! ## `YZRect::Hit` on a ray that crosses the plane -/

open Float

set_option maxRecDepth 4000

/-- On finite inputs with `d.x ≠ 0` no special value arises before the division by the
extent of the rectangle, and `YZRect::Hit` has this closed form. -/
theorem YZRect.Hit_fin (y0 y1 z0 z1 k eps ox oy oz dx dy dz : ℚ) (mat : MaterialPtr)
    (tMax time : Float) (record : HitRecord) (hdx : dx ≠ 0) :
    YZRect.Hit ⟨fin y0, fin y1, fin z0, fin z1, fin k, mat⟩ (fin eps)
        ⟨⟨fin ox, fin oy, fin oz⟩, ⟨fin dx, fin dy, fin dz⟩, tMax, time⟩ record =
      if tMax < fin ((k - ox) / dx) ∨ (k - ox) / dx ≤ eps then
        ⟨false, ⟨⟨fin ox, fin oy, fin oz⟩, ⟨fin dx, fin dy, fin dz⟩, tMax, time⟩, record⟩
      else if oy + (k - ox) / dx * dy < y0 ∨ y1 < oy + (k - ox) / dx * dy ∨
          oz + (k - ox) / dx * dz < z0 ∨ z1 < oz + (k - ox) / dx * dz then
        ⟨false, ⟨⟨fin ox, fin oy, fin oz⟩, ⟨fin dx, fin dy, fin dz⟩, tMax, time⟩, record⟩
      else
        ⟨true, ⟨⟨fin ox, fin oy, fin oz⟩, ⟨fin dx, fin dy, fin dz⟩, tMax, time⟩,
          { t := fin ((k - ox) / dx)
            p := ⟨fin (ox + (k - ox) / dx * dx), fin (oy + (k - ox) / dx * dy),
              fin (oz + (k - ox) / dx * dz)⟩
            normal := if ox < k then ⟨fin (-1), fin 0, fin 0⟩ else ⟨fin 1, fin 0, fin 0⟩
            u := fin (oy + (k - ox) / dx * dy - y0) / fin (y1 - y0)
            v := fin (oz + (k - ox) / dx * dz - z0) / fin (z1 - z0)
            mat := mat }⟩ := by
  simp only [YZRect.Hit, Ray.at, fin_sub_fin, fin_div_fin_of_ne _ hdx, gt_iff_lt, fin_le_fin,
    Point3.add_x, Point3.add_y, Point3.add_z, Vector3.mul_x, Vector3.mul_y, Vector3.mul_z,
    fin_mul_fin, fin_add_fin, fin_lt_fin, Point3.add_mk, one_def, zero_def, Normal3.neg_mk,
    neg_fin, neg_zero]

/-- The plane equation has the single solution `t = (k - ox) / dx`. -/
theorem plane_solution {k ox dx : ℚ} (hdx : dx ≠ 0) (t : ℚ) :
    ox + t * dx = k ↔ t = (k - ox) / dx := by
  rw [eq_div_iff hdx]
  constructor <;> intro h <;> linarith

/-- What a successful `YZRect::Hit` has checked and written, on finite inputs with
`d.x ≠ 0`; `t` abbreviates `(k - ox) / dx`. -/
theorem YZRect.Hit_fin_of_ret (y0 y1 z0 z1 k eps ox oy oz dx dy dz : ℚ) (mat : MaterialPtr)
    (tMax time : Float) (record : HitRecord) (hdx : dx ≠ 0)
    (h : (YZRect.Hit ⟨fin y0, fin y1, fin z0, fin z1, fin k, mat⟩ (fin eps)
      ⟨⟨fin ox, fin oy, fin oz⟩, ⟨fin dx, fin dy, fin dz⟩, tMax, time⟩ record).ret = true) :
    eps < (k - ox) / dx ∧ ¬ tMax < fin ((k - ox) / dx) ∧
      y0 ≤ oy + (k - ox) / dx * dy ∧ oy + (k - ox) / dx * dy ≤ y1 ∧
      z0 ≤ oz + (k - ox) / dx * dz ∧ oz + (k - ox) / dx * dz ≤ z1 ∧
      (YZRect.Hit ⟨fin y0, fin y1, fin z0, fin z1, fin k, mat⟩ (fin eps)
        ⟨⟨fin ox, fin oy, fin oz⟩, ⟨fin dx, fin dy, fin dz⟩, tMax, time⟩ record).record =
        { t := fin ((k - ox) / dx)
          p := ⟨fin k, fin (oy + (k - ox) / dx * dy), fin (oz + (k - ox) / dx * dz)⟩
          normal := if ox < k then ⟨fin (-1), fin 0, fin 0⟩ else ⟨fin 1, fin 0, fin 0⟩
          u := fin (oy + (k - ox) / dx * dy - y0) / fin (y1 - y0)
          v := fin (oz + (k - ox) / dx * dz - z0) / fin (z1 - z0)
          mat := mat } := by
  rw [YZRect.Hit_fin y0 y1 z0 z1 k eps ox oy oz dx dy dz mat tMax time record hdx] at h ⊢
  by_cases h1 : tMax < fin ((k - ox) / dx) ∨ (k - ox) / dx ≤ eps
  · simp [if_pos h1] at h
  by_cases h2 : oy + (k - ox) / dx * dy < y0 ∨ y1 < oy + (k - ox) / dx * dy ∨
      oz + (k - ox) / dx * dz < z0 ∨ z1 < oz + (k - ox) / dx * dz
  · simp [if_neg h1, if_pos h2] at h
  rw [if_neg h1, if_neg h2]
  have hx : ox + (k - ox) / dx * dx = k := (plane_solution hdx _).2 rfl
  push_neg at h1 h2
  exact ⟨h1.2, h1.1, h2.1, h2.2.1, h2.2.2.1, h2.2.2.2, by rw [hx]⟩

/-! ## `YZRect::Hit` over an arbitrary scalar -/

/-- The embedding of `YZRect::Hit` over `Float` is the one over an arbitrary scalar, read
at the scalar `Float`. -/
theorem YZRect.Hit_toGeneric (self : YZRect) (eps : Float) (ray : Ray) (record : HitRecord) :
    (self.Hit eps ray record).toGeneric =
      self.toGeneric.Hit eps ray.toGeneric record.toGeneric := by
  unfold YZRect.Hit Generic.YZRect.Hit
  simp only [YZRect.toGeneric, Ray.toGeneric, HitRecord.toGeneric, HitOut.toGeneric, Ray.at,
    Generic.Ray.at]
  split_ifs <;> rfl

/-- The embedding of `YZRect::BoundingBox` over `Float` is the one over an arbitrary scalar,
read at the scalar `Float`. -/
theorem YZRect.BoundingBox_toGeneric (self : YZRect) (box : Bounds3f) :
    (self.BoundingBox box).1 = (self.toGeneric.BoundingBox box.toGeneric).1 ∧
      (self.BoundingBox box).2.toGeneric = (self.toGeneric.BoundingBox box.toGeneric).2 :=
  ⟨rfl, rfl⟩

section GenericHitLemmas
variable {T : Type} [Zero T] [One T] [Add T] [Sub T] [Mul T] [Div T] [Neg T] [LT T] [LE T]
  [∀ a b : T, Decidable (a < b)] [∀ a b : T, Decidable (a ≤ b)]

/-- What a successful `YZRect::Hit` has tested and where it has put the point, over every
scalar type. -/
theorem Generic.YZRect.Hit_of_ret (self : Generic.YZRect T) (eps : T) (ray : Generic.Ray T)
    (record : Generic.HitRecord T) (h : (self.Hit eps ray record).ret = true) :
    ¬ ((self.k - ray.o.x) / ray.d.x > ray.tMax ∨ (self.k - ray.o.x) / ray.d.x ≤ eps) ∧
      ¬ ((ray.at ((self.k - ray.o.x) / ray.d.x)).y < self.y0 ∨
        (ray.at ((self.k - ray.o.x) / ray.d.x)).y > self.y1 ∨
        (ray.at ((self.k - ray.o.x) / ray.d.x)).z < self.z0 ∨
        (ray.at ((self.k - ray.o.x) / ray.d.x)).z > self.z1) ∧
      (self.Hit eps ray record).record.p = ray.at ((self.k - ray.o.x) / ray.d.x) := by
  unfold Generic.YZRect.Hit at h ⊢
  simp only at h ⊢
  split_ifs at h ⊢ with h1 h2 <;> exact ⟨h1, h2, rfl⟩

/-- What a successful `YZRect::Hit` writes to `rec.u` and `rec.v`, over every scalar type. -/
theorem Generic.YZRect.Hit_uv_of_ret (self : Generic.YZRect T) (eps : T)
    (ray : Generic.Ray T) (record : Generic.HitRecord T)
    (h : (self.Hit eps ray record).ret = true) :
    (self.Hit eps ray record).record.u =
        ((ray.at ((self.k - ray.o.x) / ray.d.x)).y - self.y0) / (self.y1 - self.y0) ∧
      (self.Hit eps ray record).record.v =
        ((ray.at ((self.k - ray.o.x) / ray.d.x)).z - self.z0) / (self.z1 - self.z0) := by
  unfold Generic.YZRect.Hit at h ⊢
  simp only at h ⊢
  split_ifs at h ⊢ with h1 h2 <;> exact ⟨rfl, rfl⟩

/-- When `YZRect::Hit` returns true, over every scalar type: exactly when none of its six
tests succeeds. -/
theorem Generic.YZRect.Hit_ret_iff (self : Generic.YZRect T) (eps : T) (ray : Generic.Ray T)
    (record : Generic.HitRecord T) :
    (self.Hit eps ray record).ret = true ↔
      (¬ (self.k - ray.o.x) / ray.d.x > ray.tMax ∧ ¬ (self.k - ray.o.x) / ray.d.x ≤ eps) ∧
      ¬ (ray.at ((self.k - ray.o.x) / ray.d.x)).y < self.y0 ∧
      ¬ (ray.at ((self.k - ray.o.x) / ray.d.x)).y > self.y1 ∧
      ¬ (ray.at ((self.k - ray.o.x) / ray.d.x)).z < self.z0 ∧
      ¬ (ray.at ((self.k - ray.o.x) / ray.d.x)).z > self.z1 := by
  constructor
  · intro h
    obtain ⟨h1, h2, -⟩ := Generic.YZRect.Hit_of_ret self eps ray record h
    push_neg at h1 h2
    exact ⟨⟨h1.1, h1.2⟩, h2.1, h2.2.1, h2.2.2.1, h2.2.2.2⟩
  · rintro ⟨⟨h1, h2⟩, h3, h4, h5, h6⟩
    have h1' : ¬ ((self.k - ray.o.x) / ray.d.x > ray.tMax ∨
        (self.k - ray.o.x) / ray.d.x ≤ eps) := by
      rintro (h | h)
      · exact h1 h
      · exact h2 h
    have h2' : ¬ ((ray.at ((self.k - ray.o.x) / ray.d.x)).y < self.y0 ∨
        (ray.at ((self.k - ray.o.x) / ray.d.x)).y > self.y1 ∨
        (ray.at ((self.k - ray.o.x) / ray.d.x)).z < self.z0 ∨
        (ray.at ((self.k - ray.o.x) / ray.d.x)).z > self.z1) := by
      rintro (h | h | h | h)
      · exact h3 h
      · exact h4 h
      · exact h5 h
      · exact h6 h
    unfold Generic.YZRect.Hit
    simp only
    rw [if_neg h1', if_neg h2']

end GenericHitLemmas

/-- What a successful `YZRect::Hit` has tested and written, for every input. -/
theorem YZRect.Hit_record_of_ret (self : YZRect) (eps : Float) (ray : Ray)
    (record : HitRecord) (h : (self.Hit eps ray record).ret = true) :
    ¬ (ray.at ((self.k - ray.o.x) / ray.d.x)).y < self.y0 ∧
      ¬ (ray.at ((self.k - ray.o.x) / ray.d.x)).y > self.y1 ∧
      ¬ (ray.at ((self.k - ray.o.x) / ray.d.x)).z < self.z0 ∧
      ¬ (ray.at ((self.k - ray.o.x) / ray.d.x)).z > self.z1 ∧
      (self.Hit eps ray record).record.p = ray.at ((self.k - ray.o.x) / ray.d.x) ∧
      (self.Hit eps ray record).record.u =
        ((ray.at ((self.k - ray.o.x) / ray.d.x)).y - self.y0) / (self.y1 - self.y0) ∧
      (self.Hit eps ray record).record.v =
        ((ray.at ((self.k - ray.o.x) / ray.d.x)).z - self.z0) / (self.z1 - self.z0) := by
  unfold YZRect.Hit at h ⊢
  simp only at h ⊢
  split_ifs at h ⊢ with h1 h2 <;>
  · push_neg at h2
    exact ⟨h2.1, h2.2.1, h2.2.2.1, h2.2.2.2, rfl, rfl, rfl⟩

/-- The normalized position `(a - lo) / (hi - lo)` of a value that is neither below `lo`
nor above `hi` is NaN or lies in `[0, 1]`; it lies in `[0, 1]` when `a` is not NaN and the
extent `hi - lo` is finite and not zero. -/
theorem Float.unit_or_nan (a lo hi : Float) (h1 : ¬ a < lo) (h2 : ¬ a > hi) :
    ((a - lo) / (hi - lo) = nan ∨
      ((0 : Float) ≤ (a - lo) / (hi - lo) ∧ (a - lo) / (hi - lo) ≤ (1 : Float))) ∧
    (a ≠ nan → (∃ q : ℚ, q ≠ 0 ∧ hi - lo = fin q) →
      ((0 : Float) ≤ (a - lo) / (hi - lo) ∧ (a - lo) / (hi - lo) ≤ (1 : Float))) := by
  rcases a with a | _ | _ | _ <;> rcases lo with lo | _ | _ | _ <;>
    rcases hi with hi | _ | _ | _
  case fin.fin.fin =>
    rw [gt_iff_lt, fin_lt_fin] at h2
    rw [fin_lt_fin] at h1
    push_neg at h1 h2
    rw [fin_sub_fin, fin_sub_fin]
    by_cases hz : hi - lo = 0
    · have ha : a - lo = 0 := by linarith
      refine ⟨Or.inl ?_, ?_⟩
      · rw [hz, ha]; exact zero_div_zero
      · rintro - ⟨q, hq, he⟩
        rw [hz] at he
        exact absurd (Float.fin.inj he).symm hq
    · have hpos : 0 < hi - lo := lt_of_le_of_ne (by linarith) (Ne.symm hz)
      have hu : (0 : Float) ≤ fin (a - lo) / fin (hi - lo) ∧
          fin (a - lo) / fin (hi - lo) ≤ (1 : Float) := by
        rw [fin_div_fin_of_ne _ hz, zero_def, one_def, fin_le_fin, fin_le_fin]
        exact ⟨div_nonneg (by linarith) hpos.le, (div_le_one hpos).2 (by linarith)⟩
      exact ⟨Or.inr hu, fun _ _ => hu⟩
  all_goals first
    | exact absurd rfl h1
    | exact absurd rfl h2
    | exact ⟨Or.inl rfl, fun ha => absurd rfl ha⟩
    | exact ⟨Or.inl rfl, fun _ ⟨_, _, he⟩ => Float.noConfusion he⟩
    | exact ⟨Or.inl (nan_div _), fun _ ⟨_, _, he⟩ => Float.noConfusion he⟩
    | exact ⟨Or.inl (nan_div _), fun ha => absurd rfl ha⟩
    | exact ⟨Or.inl (div_nan _), fun _ ⟨_, _, he⟩ => Float.noConfusion he⟩
    | exact ⟨Or.inr ⟨(fin_le_fin _ _).2 (le_refl 0), (fin_le_fin _ _).2 zero_le_one⟩,
        fun _ _ => ⟨(fin_le_fin _ _).2 (le_refl 0), (fin_le_fin _ _).2 zero_le_one⟩⟩

/-- In a binary format, for values other than NaN, `b < a` fails exactly when `a <= b`: a
test of the code that fails on such values gives the opposite inequality. -/
theorem FP.not_lt_iff_le_binary {f : Format} {a b : FP f} (ha : a ≠ FP.nan)
    (hb : b ≠ FP.nan) : ¬ b < a ↔ a ≤ b := by
  show ¬ FP.blt b a = true ↔ FP.ble a b = true
  rcases a with ⟨m1, e1⟩ | _ | _ | _ <;> rcases b with ⟨m2, e2⟩ | _ | _ | _ <;>
    simp_all [FP.blt, FP.ble, min_comm]

/-- In a binary format, for values other than NaN, `a <= b` fails exactly when `b < a`. -/
theorem FP.not_le_iff_lt_binary {f : Format} {a b : FP f} (ha : a ≠ FP.nan)
    (hb : b ≠ FP.nan) : ¬ a ≤ b ↔ b < a := by
  rw [← FP.not_lt_iff_le_binary ha hb, not_not]

/-! ## Rounding in a binary format

The functions `FP.round`, `FP.sub` and `FP.div` against the rational values: rounding is
monotone, a difference and a quotient of finite values are the rounded exact ones. -/

namespace FP
variable {f : Format}

/-- The bit search brackets its argument: `2 ^ l ≤ n < 2 ^ (l + 1)`. -/
theorem log2Fuel_spec : ∀ (fuel n : ℕ), n ≤ fuel → 0 < n →
    2 ^ log2Fuel fuel n ≤ n ∧ n < 2 ^ (log2Fuel fuel n + 1)
  | 0, n, h, hn => by omega
  | fuel + 1, n, h, hn => by
    unfold log2Fuel
    split_ifs with h1
    · have : n = 1 := by omega
      subst this
      simp
    · have h2 : 2 ≤ n := by omega
      have hd : n / 2 ≤ fuel := by omega
      have hp : 0 < n / 2 := by omega
      obtain ⟨ih1, ih2⟩ := log2Fuel_spec fuel (n / 2) hd hp
      constructor
      · rw [pow_succ]
        omega
      · rw [pow_succ]
        omega

/-- The function `log2` is the position of the leading bit. -/
theorem log2_spec {n : ℕ} (hn : 0 < n) : 2 ^ log2 n ≤ n ∧ n < 2 ^ (log2 n + 1) :=
  log2Fuel_spec n n (le_refl n) hn

/-- A power of two with a natural exponent, read in `ℚ` as a power with an integer
exponent. -/
theorem two_pow_toNat {k : ℤ} (hk : 0 ≤ k) : ((2 ^ k.toNat : ℕ) : ℚ) = (2 : ℚ) ^ k := by
  obtain ⟨n, rfl⟩ := Int.eq_ofNat_of_zero_le hk
  simp

/-- `floorLog2 N D` brackets the quotient `N / D`. -/
theorem floorLog2_spec {N D : ℕ} (hN : 0 < N) (hD : 0 < D) :
    (2 : ℚ) ^ floorLog2 N D ≤ (N : ℚ) / D ∧ (N : ℚ) / D < (2 : ℚ) ^ (floorLog2 N D + 1) := by
  obtain ⟨ha1, ha2⟩ := log2_spec hN
  obtain ⟨hb1, hb2⟩ := log2_spec hD
  have hDq : (0 : ℚ) < D := by exact_mod_cast hD
  have hNq : (0 : ℚ) < N := by exact_mod_cast hN
  have ha1q : (2 : ℚ) ^ (log2 N : ℤ) ≤ N := by
    rw [zpow_natCast]; exact_mod_cast ha1
  have ha2q : (N : ℚ) < (2 : ℚ) ^ ((log2 N : ℤ) + 1) := by
    rw [show ((log2 N : ℤ) + 1) = ((log2 N + 1 : ℕ) : ℤ) by push_cast; ring, zpow_natCast]
    exact_mod_cast ha2
  have hb1q : (2 : ℚ) ^ (log2 D : ℤ) ≤ D := by
    rw [zpow_natCast]; exact_mod_cast hb1
  have hb2q : (D : ℚ) < (2 : ℚ) ^ ((log2 D : ℤ) + 1) := by
    rw [show ((log2 D : ℤ) + 1) = ((log2 D + 1 : ℕ) : ℤ) by push_cast; ring, zpow_natCast]
    exact_mod_cast hb2
  have h2 : (0 : ℚ) < 2 := by norm_num
  have h2ne : (2 : ℚ) ≠ 0 := by norm_num
  -- the quotient lies strictly between `2 ^ (l0 - 1)` and `2 ^ (l0 + 1)`
  have hup : (N : ℚ) / D < (2 : ℚ) ^ ((log2 N : ℤ) - (log2 D : ℤ) + 1) := by
    rw [show (log2 N : ℤ) - (log2 D : ℤ) + 1 = ((log2 N : ℤ) + 1) - (log2 D : ℤ) by ring,
      zpow_sub₀ h2ne, div_lt_div_iff₀ hDq (zpow_pos h2 _)]
    calc (N : ℚ) * 2 ^ (log2 D : ℤ) < 2 ^ ((log2 N : ℤ) + 1) * 2 ^ (log2 D : ℤ) :=
          mul_lt_mul_of_pos_right ha2q (zpow_pos h2 _)
      _ ≤ 2 ^ ((log2 N : ℤ) + 1) * D := mul_le_mul_of_nonneg_left hb1q (zpow_pos h2 _).le
  have hlo : (2 : ℚ) ^ ((log2 N : ℤ) - (log2 D : ℤ) - 1) < (N : ℚ) / D := by
    rw [show (log2 N : ℤ) - (log2 D : ℤ) - 1 = (log2 N : ℤ) - ((log2 D : ℤ) + 1) by ring,
      zpow_sub₀ h2ne, div_lt_div_iff₀ (zpow_pos h2 _) hDq]
    calc (2 : ℚ) ^ (log2 N : ℤ) * D < 2 ^ (log2 N : ℤ) * 2 ^ ((log2 D : ℤ) + 1) :=
          mul_lt_mul_of_pos_left hb2q (zpow_pos h2 _)
      _ ≤ N * 2 ^ ((log2 D : ℤ) + 1) := mul_le_mul_of_nonneg_right ha1q (zpow_pos h2 _).le
  unfold floorLog2
  simp only
  set l0 : ℤ := (log2 N : ℤ) - (log2 D : ℤ) with hl0
  by_cases hpos : l0 ≥ 0
  · rw [if_pos hpos]
    have key : D * 2 ^ l0.toNat ≤ N ↔ (2 : ℚ) ^ l0 ≤ (N : ℚ) / D := by
      rw [le_div_iff₀ hDq, ← two_pow_toNat hpos]
      constructor
      · intro h
        have : ((D * 2 ^ l0.toNat : ℕ) : ℚ) ≤ (N : ℚ) := by exact_mod_cast h
        push_cast at this ⊢
        linarith
      · intro h
        have : ((D * 2 ^ l0.toNat : ℕ) : ℚ) ≤ (N : ℚ) := by
          push_cast at h ⊢
          linarith
        exact_mod_cast this
    split_ifs with ht
    · exact ⟨key.1 ht, hup⟩
    · refine ⟨hlo.le, ?_⟩
      rw [sub_add_cancel]
      exact not_le.1 (fun h => ht (key.2 h))
  · rw [if_neg hpos]
    have hneg : 0 ≤ -l0 := by omega
    have key : D ≤ N * 2 ^ (-l0).toNat ↔ (2 : ℚ) ^ l0 ≤ (N : ℚ) / D := by
      rw [le_div_iff₀ hDq]
      have hz : (2 : ℚ) ^ l0 = ((2 ^ (-l0).toNat : ℕ) : ℚ)⁻¹ := by
        rw [two_pow_toNat hneg, zpow_neg, inv_inv]
      have hp : (0 : ℚ) < ((2 ^ (-l0).toNat : ℕ) : ℚ) := by positivity
      rw [hz, inv_mul_le_iff₀ hp]
      constructor
      · intro h
        have : ((D : ℕ) : ℚ) ≤ ((N * 2 ^ (-l0).toNat : ℕ) : ℚ) := by exact_mod_cast h
        push_cast at this ⊢
        linarith
      · intro h
        have : ((D : ℕ) : ℚ) ≤ ((N * 2 ^ (-l0).toNat : ℕ) : ℚ) := by
          push_cast at h ⊢
          linarith
        exact_mod_cast this
    split_ifs with ht
    · exact ⟨key.1 ht, hup⟩
    · refine ⟨hlo.le, ?_⟩
      rw [sub_add_cancel]
      exact not_le.1 (fun h => ht (key.2 h))


/-- The integer `n` is a nearest integer of `y`, the even one on a tie. -/
theorem nearest_even_mono {y1 y2 : ℚ} {n1 n2 : ℕ} (hy : y1 ≤ y2)
    (h1 : (n1 : ℚ) - 1 / 2 ≤ y1 ∧ y1 ≤ n1 + 1 / 2 ∧
      (y1 = n1 - 1 / 2 ∨ y1 = n1 + 1 / 2 → n1 % 2 = 0))
    (h2 : (n2 : ℚ) - 1 / 2 ≤ y2 ∧ y2 ≤ n2 + 1 / 2 ∧
      (y2 = n2 - 1 / 2 ∨ y2 = n2 + 1 / 2 → n2 % 2 = 0)) : n1 ≤ n2 := by
  by_contra hcon
  have hlt : n2 + 1 ≤ n1 := by omega
  have hq : (n2 : ℚ) + 1 ≤ n1 := by exact_mod_cast hlt
  have e1 : y1 = n1 - 1 / 2 := by linarith [h1.1, h2.2.1]
  have e2 : y2 = n2 + 1 / 2 := by linarith [h1.1, h2.2.1]
  have p1 := h1.2.2 (Or.inl e1)
  have p2 := h2.2.2 (Or.inr e2)
  have e3 : (n1 : ℚ) = n2 + 1 := by linarith [h1.1, h2.2.1]
  have e4 : n1 = n2 + 1 := by exact_mod_cast e3
  omega

/-- What `round` computes on a positive quotient: with `q` the exponent of the last
significand bit, the significand `n` is the integer nearest to `(N / D) / 2 ^ q`, the even
one on a tie; the result is `n * 2 ^ q`, or `+∞` on overflow. -/
theorem round_cases (f : Format) {N D : ℕ} (hN : 0 < N) (hD : 0 < D) :
    ∃ n : ℕ,
      ((n : ℚ) - 1 / 2 ≤ (N : ℚ) / D / 2 ^ (max (floorLog2 N D) f.emin - ((f.prec : ℤ) - 1)) ∧
        (N : ℚ) / D / 2 ^ (max (floorLog2 N D) f.emin - ((f.prec : ℤ) - 1)) ≤ n + 1 / 2 ∧
        ((N : ℚ) / D / 2 ^ (max (floorLog2 N D) f.emin - ((f.prec : ℤ) - 1)) = n - 1 / 2 ∨
          (N : ℚ) / D / 2 ^ (max (floorLog2 N D) f.emin - ((f.prec : ℤ) - 1)) = n + 1 / 2 →
          n % 2 = 0)) ∧
      round f false N D =
        if max (floorLog2 N D) f.emin - ((f.prec : ℤ) - 1) + (f.prec : ℤ) - 1 > f.emax ∨
            (max (floorLog2 N D) f.emin - ((f.prec : ℤ) - 1) + (f.prec : ℤ) - 1 = f.emax ∧
              n = 2 ^ f.prec) then pinf
        else canon false n (max (floorLog2 N D) f.emin - ((f.prec : ℤ) - 1)) := by
  set q : ℤ := max (floorLog2 N D) f.emin - ((f.prec : ℤ) - 1) with hq
  have hN0 : N ≠ 0 := by omega
  have hDq : (0 : ℚ) < D := by exact_mod_cast hD
  -- the scaled numerator and denominator
  obtain ⟨num, den, hden, hy, hr⟩ : ∃ num den : ℕ, 0 < den ∧
      (num : ℚ) / den = (N : ℚ) / D / 2 ^ q ∧
      round f false N D =
        (if q + (f.prec : ℤ) - 1 > f.emax ∨ (q + (f.prec : ℤ) - 1 = f.emax ∧
            (if 2 * (num % den) > den then num / den + 1
              else if 2 * (num % den) = den then
                (if num / den % 2 = 0 then num / den else num / den + 1)
              else num / den) = 2 ^ f.prec) then pinf
          else canon false (if 2 * (num % den) > den then num / den + 1
              else if 2 * (num % den) = den then
                (if num / den % 2 = 0 then num / den else num / den + 1)
              else num / den) q) := by
    refine ⟨if q ≥ 0 then N else N * 2 ^ (-q).toNat, if q ≥ 0 then D * 2 ^ q.toNat else D,
      ?_, ?_, ?_⟩
    · split_ifs <;> positivity
    · by_cases hq0 : q ≥ 0
      · rw [if_pos hq0, if_pos hq0]
        have h2 : (2 : ℚ) ^ q.toNat = (2 : ℚ) ^ q := by
          rw [← two_pow_toNat hq0]
          push_cast
          rfl
        push_cast
        rw [h2, div_div]
      · rw [if_neg hq0, if_neg hq0]
        have hneg : 0 ≤ -q := by omega
        have h2 : (2 : ℚ) ^ (-q).toNat = (2 : ℚ) ^ (-q) := by
          rw [← two_pow_toNat hneg]
          push_cast
          rfl
        push_cast
        rw [h2, zpow_neg]
        field_simp
        left
        ring
    · unfold round
      rw [if_neg hN0]
      simp only [← hq, Bool.false_eq_true, if_false]
  rw [hr, ← hy]
  have hdenq : (0 : ℚ) < den := by exact_mod_cast hden
  have hdm : den * (num / den) + num % den = num := Nat.div_add_mod num den
  have hmod : num % den < den := Nat.mod_lt _ hden
  have hyq : (num : ℚ) / den = (num / den : ℕ) + ((num % den : ℕ) : ℚ) / den := by
    have h : (num : ℚ) = (den : ℚ) * (num / den : ℕ) + (num % den : ℕ) := by
      exact_mod_cast hdm.symm
    rw [div_eq_iff hdenq.ne.symm, add_mul, div_mul_cancel₀ _ hdenq.ne.symm]
    linarith
  set n0 := num / den
  set r := num % den
  have hrq : (0 : ℚ) ≤ (r : ℚ) / den := by positivity
  by_cases c1 : 2 * r > den
  · refine ⟨n0 + 1, ?_, by simp only [if_pos c1]⟩
    have : (1 : ℚ) / 2 < (r : ℚ) / den := by
      rw [lt_div_iff₀ hdenq]
      have : ((den : ℕ) : ℚ) < ((2 * r : ℕ) : ℚ) := by exact_mod_cast c1
      push_cast at this
      linarith
    have h1 : (r : ℚ) / den < 1 := by
      rw [div_lt_one hdenq]
      exact_mod_cast hmod
    push_cast
    refine ⟨by linarith, by linarith, ?_⟩
    rintro (h | h) <;> linarith
  · by_cases c2 : 2 * r = den
    · have hhalf : (r : ℚ) / den = 1 / 2 := by
        rw [div_eq_iff hdenq.ne.symm]
        have : ((2 * r : ℕ) : ℚ) = ((den : ℕ) : ℚ) := by exact_mod_cast c2
        push_cast at this
        linarith
      by_cases c3 : n0 % 2 = 0
      · refine ⟨n0, ?_, by simp only [if_neg c1, if_pos c2, if_pos c3]⟩
        exact ⟨by linarith, by linarith, fun _ => c3⟩
      · refine ⟨n0 + 1, ?_, by simp only [if_neg c1, if_pos c2, if_neg c3]⟩
        push_cast
        exact ⟨by linarith, by linarith, fun _ => by omega⟩
    · refine ⟨n0, ?_, by simp only [if_neg c1, if_neg c2]⟩
      have : (r : ℚ) / den < 1 / 2 := by
        rw [div_lt_iff₀ hdenq]
        have h3 : 2 * r < den := by omega
        have : ((2 * r : ℕ) : ℚ) < ((den : ℕ) : ℚ) := by exact_mod_cast h3
        push_cast at this
        linarith
      refine ⟨by linarith, by linarith, ?_⟩
      rintro (h | h) <;> linarith


/-- The order of finite values is the order of the rationals they denote. -/
theorem fin_le_fin_iff (m1 e1 m2 e2 : ℤ) :
    (fin m1 e1 : FP f) ≤ fin m2 e2 ↔ (m1 : ℚ) * 2 ^ e1 ≤ (m2 : ℚ) * 2 ^ e2 := by
  show ble (fin m1 e1 : FP f) (fin m2 e2) = true ↔ _
  simp only [ble, decide_eq_true_eq]
  set e := min e1 e2 with he
  have h1 : 0 ≤ e1 - e := by have := min_le_left e1 e2; omega
  have h2 : 0 ≤ e2 - e := by have := min_le_right e1 e2; omega
  have hpos : (0 : ℚ) < 2 ^ e := zpow_pos (by norm_num) _
  have c1 : (((m1 * ((2 ^ (e1 - e).toNat : ℕ) : ℤ) : ℤ) : ℚ)) * 2 ^ e = (m1 : ℚ) * 2 ^ e1 := by
    push_cast
    have : (2 : ℚ) ^ (e1 - e).toNat = (2 : ℚ) ^ (e1 - e) := by
      rw [← two_pow_toNat h1]; push_cast; rfl
    rw [this, mul_assoc, ← zpow_add₀ (by norm_num : (2 : ℚ) ≠ 0)]
    congr 2
    ring
  have c2 : (((m2 * ((2 ^ (e2 - e).toNat : ℕ) : ℤ) : ℤ) : ℚ)) * 2 ^ e = (m2 : ℚ) * 2 ^ e2 := by
    push_cast
    have : (2 : ℚ) ^ (e2 - e).toNat = (2 : ℚ) ^ (e2 - e) := by
      rw [← two_pow_toNat h2]; push_cast; rfl
    rw [this, mul_assoc, ← zpow_add₀ (by norm_num : (2 : ℚ) ≠ 0)]
    congr 2
    ring
  rw [← c1, ← c2, mul_le_mul_right hpos]
  exact Int.cast_le.symm

/-- Stripping trailing zero bits keeps the value. -/
theorem strip_val : ∀ (fuel n : ℕ) (e : ℤ),
    ((strip fuel n e).1 : ℚ) * 2 ^ (strip fuel n e).2 = (n : ℚ) * 2 ^ e
  | 0, n, e => rfl
  | fuel + 1, n, e => by
    unfold strip
    split_ifs with h
    · rw [strip_val fuel (n / 2) (e + 1)]
      have hn : n = 2 * (n / 2) := by omega
      have : (n : ℚ) = 2 * ((n / 2 : ℕ) : ℚ) := by exact_mod_cast hn
      rw [this, zpow_add₀ (by norm_num : (2 : ℚ) ≠ 0)]
      rw [zpow_one]
      ring
    · rfl

/-- The value `n * 2 ^ e` in lowest terms is a finite value with a non-negative significand
and the same value. -/
theorem canon_false_eq (n : ℕ) (e : ℤ) :
    ∃ (m : ℕ) (e' : ℤ), (canon false n e : FP f) = fin m e' ∧
      (m : ℚ) * 2 ^ e' = (n : ℚ) * 2 ^ e := by
  by_cases h : n = 0
  · refine ⟨0, 0, ?_, by simp [h]⟩
    simp [canon, h]
  · refine ⟨(strip n n e).1, (strip n n e).2, ?_, strip_val n n e⟩
    simp [canon, h]


/-- The significand that `round` finds is at most `2 ^ prec`, and at least `2 ^ (prec - 1)`
in the normal range. -/
theorem round_sig_bounds (f : Format) (hp : 1 ≤ f.prec) {N D : ℕ} (hN : 0 < N) (hD : 0 < D)
    {n : ℕ}
    (h1 : (n : ℚ) - 1 / 2 ≤
      (N : ℚ) / D / 2 ^ (max (floorLog2 N D) f.emin - ((f.prec : ℤ) - 1)))
    (h2 : (N : ℚ) / D / 2 ^ (max (floorLog2 N D) f.emin - ((f.prec : ℤ) - 1)) ≤ n + 1 / 2) :
    n ≤ 2 ^ f.prec ∧ (f.emin ≤ floorLog2 N D → 2 ^ (f.prec - 1) ≤ n) := by
  obtain ⟨blo, bhi⟩ := floorLog2_spec hN hD
  set l := floorLog2 N D
  set L := max l f.emin
  set q : ℤ := L - ((f.prec : ℤ) - 1) with hq
  have h2pos : (0 : ℚ) < 2 := by norm_num
  have h2ne : (2 : ℚ) ≠ 0 := by norm_num
  have hqpos : (0 : ℚ) < 2 ^ q := zpow_pos h2pos _
  constructor
  · have hy : (N : ℚ) / D / 2 ^ q < ((2 ^ f.prec : ℕ) : ℚ) := by
      rw [div_lt_iff₀ hqpos]
      have e : ((2 ^ f.prec : ℕ) : ℚ) * 2 ^ q = (2 : ℚ) ^ (L + 1) := by
        push_cast
        rw [← zpow_natCast, ← zpow_add₀ h2ne]
        congr 1
        rw [hq]
        ring
      rw [e]
      refine lt_of_lt_of_le bhi ?_
      exact zpow_le_zpow_right₀ (by norm_num) (by have := le_max_left l f.emin; omega)
    by_contra hcon
    have : 2 ^ f.prec + 1 ≤ n := by omega
    have : ((2 ^ f.prec : ℕ) : ℚ) + 1 ≤ n := by exact_mod_cast this
    linarith
  · intro hl
    have hLl : L = l := max_eq_left hl
    have hy : ((2 ^ (f.prec - 1) : ℕ) : ℚ) ≤ (N : ℚ) / D / 2 ^ q := by
      rw [le_div_iff₀ hqpos]
      have e : ((2 ^ (f.prec - 1) : ℕ) : ℚ) * 2 ^ q = (2 : ℚ) ^ l := by
        push_cast
        rw [← zpow_natCast, ← zpow_add₀ h2ne]
        congr 1
        rw [hq, hLl]
        have : ((f.prec - 1 : ℕ) : ℤ) = (f.prec : ℤ) - 1 := by omega
        rw [this]
        ring
      rw [e]
      exact blo
    by_contra hcon
    have : n + 1 ≤ 2 ^ (f.prec - 1) := by omega
    have : (n : ℚ) + 1 ≤ ((2 ^ (f.prec - 1) : ℕ) : ℚ) := by exact_mod_cast this
    linarith

/-- Every finite value is below `+∞`. -/
theorem fin_le_pinf_binary (m e : ℤ) : (fin m e : FP f) ≤ pinf := by
  show ble (fin m e : FP f) pinf = true
  rfl

/-- The value `+∞` is not above itself. -/
theorem pinf_le_pinf_binary : (pinf : FP f) ≤ pinf := by
  show ble (pinf : FP f) pinf = true
  rfl

/-- Rounding is monotone on positive quotients. -/
theorem round_mono_pos (f : Format) (hp : 1 ≤ f.prec) {N1 D1 N2 D2 : ℕ} (hN1 : 0 < N1)
    (hD1 : 0 < D1) (hN2 : 0 < N2) (hD2 : 0 < D2) (h : (N1 : ℚ) / D1 ≤ (N2 : ℚ) / D2) :
    round f false N1 D1 ≤ round f false N2 D2 := by
  obtain ⟨n1, ⟨s1a, s1b, s1c⟩, r1⟩ := round_cases f hN1 hD1
  obtain ⟨n2, ⟨s2a, s2b, s2c⟩, r2⟩ := round_cases f hN2 hD2
  obtain ⟨c1hi, c1lo⟩ := round_sig_bounds f hp hN1 hD1 s1a s1b
  obtain ⟨c2hi, c2lo⟩ := round_sig_bounds f hp hN2 hD2 s2a s2b
  obtain ⟨b1lo, b1hi⟩ := floorLog2_spec hN1 hD1
  obtain ⟨b2lo, b2hi⟩ := floorLog2_spec hN2 hD2
  set l1 := floorLog2 N1 D1
  set l2 := floorLog2 N2 D2
  have h2pos : (0 : ℚ) < 2 := by norm_num
  have h2ne : (2 : ℚ) ≠ 0 := by norm_num
  have hl : l1 ≤ l2 := by
    have h3 : (2 : ℚ) ^ l1 < 2 ^ (l2 + 1) := lt_of_le_of_lt (le_trans b1lo h) b2hi
    have := (zpow_lt_zpow_iff_right₀ (by norm_num : (1 : ℚ) < 2)).1 h3
    omega
  set L1 := max l1 f.emin with hL1
  set L2 := max l2 f.emin with hL2
  have hL : L1 ≤ L2 := max_le_max hl le_rfl
  have e1 : L1 - ((f.prec : ℤ) - 1) + (f.prec : ℤ) - 1 = L1 := by ring
  have e2 : L2 - ((f.prec : ℤ) - 1) + (f.prec : ℤ) - 1 = L2 := by ring
  rw [e1] at r1
  rw [e2] at r2
  rw [r1, r2]
  -- the second result overflows
  by_cases o2 : L2 > f.emax ∨ (L2 = f.emax ∧ n2 = 2 ^ f.prec)
  · rw [if_pos o2]
    split_ifs
    · exact pinf_le_pinf_binary
    · obtain ⟨m, e', hc, -⟩ := canon_false_eq (f := f) n1 (L1 - ((f.prec : ℤ) - 1))
      rw [hc]
      exact fin_le_pinf_binary _ _
  rw [if_neg o2]
  push_neg at o2
  obtain ⟨o2a, o2b⟩ := o2
  -- the comparison of the two significands at a common exponent
  have hsame : L1 = L2 → n1 ≤ n2 := by
    intro hLL
    refine nearest_even_mono ?_ ⟨s1a, s1b, s1c⟩ ⟨s2a, s2b, s2c⟩
    rw [hLL]
    exact div_le_div_of_nonneg_right h (zpow_pos h2pos _).le
  have o1 : ¬ (L1 > f.emax ∨ (L1 = f.emax ∧ n1 = 2 ^ f.prec)) := by
    rintro (h1 | ⟨h1, h1'⟩)
    · omega
    · have hLL : L1 = L2 := by omega
      have := hsame hLL
      have : n2 = 2 ^ f.prec := by omega
      exact o2b (by omega) this
  rw [if_neg o1]
  obtain ⟨m1, e1', hc1, hv1⟩ := canon_false_eq (f := f) n1 (L1 - ((f.prec : ℤ) - 1))
  obtain ⟨m2, e2', hc2, hv2⟩ := canon_false_eq (f := f) n2 (L2 - ((f.prec : ℤ) - 1))
  rw [hc1, hc2, fin_le_fin_iff]
  push_cast
  rw [hv1, hv2]
  by_cases hLL : L1 = L2
  · rw [hLL]
    have : (n1 : ℚ) ≤ n2 := by exact_mod_cast hsame hLL
    exact mul_le_mul_of_nonneg_right this (zpow_pos h2pos _).le
  · have hlt : L1 < L2 := lt_of_le_of_ne hL hLL
    have hl2 : f.emin ≤ l2 := by
      by_contra hcon
      have : L2 = f.emin := max_eq_right (by omega)
      have : f.emin ≤ L1 := le_max_right _ _
      omega
    have hL2l : L2 = l2 := max_eq_left hl2
    have hn2 := c2lo hl2
    calc (n1 : ℚ) * 2 ^ (L1 - ((f.prec : ℤ) - 1))
        ≤ ((2 ^ f.prec : ℕ) : ℚ) * 2 ^ (L1 - ((f.prec : ℤ) - 1)) :=
          mul_le_mul_of_nonneg_right (by exact_mod_cast c1hi) (zpow_pos h2pos _).le
      _ = (2 : ℚ) ^ (L1 + 1) := by
          push_cast
          rw [← zpow_natCast, ← zpow_add₀ h2ne]
          congr 1
          ring
      _ ≤ (2 : ℚ) ^ L2 := zpow_le_zpow_right₀ (by norm_num) (by omega)
      _ = ((2 ^ (f.prec - 1) : ℕ) : ℚ) * 2 ^ (L2 - ((f.prec : ℤ) - 1)) := by
          push_cast
          rw [← zpow_natCast, ← zpow_add₀ h2ne]
          congr 1
          have : ((f.prec - 1 : ℕ) : ℤ) = (f.prec : ℤ) - 1 := by omega
          rw [this]
          ring
      _ ≤ (n2 : ℚ) * 2 ^ (L2 - ((f.prec : ℤ) - 1)) :=
          mul_le_mul_of_nonneg_right (by exact_mod_cast hn2) (zpow_pos h2pos _).le


/-- Zero rounds to zero. -/
theorem round_zero (f : Format) (neg : Bool) (D : ℕ) : round f neg 0 D = fin 0 0 := by
  unfold round
  rw [if_pos rfl]

/-- A rounded non-negative quotient is `+∞` or a finite value with a non-negative
significand. -/
theorem round_form (f : Format) (N D : ℕ) (hD : 0 < D) :
    round f false N D = pinf ∨ ∃ (m : ℕ) (e : ℤ), round f false N D = fin m e := by
  rcases Nat.eq_zero_or_pos N with rfl | hN
  · exact Or.inr ⟨0, 0, round_zero f false D⟩
  · obtain ⟨n, -, r⟩ := round_cases f hN hD
    rw [r]
    split_ifs
    · exact Or.inl rfl
    · obtain ⟨m, e, hc, -⟩ := canon_false_eq (f := f) n
        (max (floorLog2 N D) f.emin - ((f.prec : ℤ) - 1))
      exact Or.inr ⟨m, e, hc⟩

/-- A finite value with a non-negative significand is not below zero. -/
theorem zero_le_fin_nat (m : ℕ) (e : ℤ) : (0 : FP f) ≤ fin m e := by
  show (fin 0 0 : FP f) ≤ fin m e
  rw [fin_le_fin_iff]
  have : (0 : ℚ) < 2 ^ e := zpow_pos (by norm_num) _
  push_cast
  have hm : (0 : ℚ) ≤ m := by positivity
  nlinarith

/-- Rounding is monotone on non-negative quotients. -/
theorem round_le_round (f : Format) (hp : 1 ≤ f.prec) {N1 D1 N2 D2 : ℕ} (hD1 : 0 < D1)
    (hD2 : 0 < D2) (h : (N1 : ℚ) / D1 ≤ (N2 : ℚ) / D2) :
    round f false N1 D1 ≤ round f false N2 D2 := by
  rcases Nat.eq_zero_or_pos N1 with rfl | hN1
  · rw [round_zero]
    rcases round_form f N2 D2 hD2 with h2 | ⟨m, e, h2⟩
    · rw [h2]; exact fin_le_pinf_binary _ _
    · rw [h2]; exact zero_le_fin_nat m e
  · have hN2 : 0 < N2 := by
      by_contra hcon
      have : N2 = 0 := by omega
      subst this
      have h1 : (0 : ℚ) < (N1 : ℚ) / D1 := by positivity
      simp at h
      linarith
    exact round_mono_pos f hp hN1 hD1 hN2 hD2 h

/-- The quotient 1 is rounded to 1. -/
theorem round_one_le (f : Format) (hp : 1 ≤ f.prec) (he : f.emin ≤ 0) :
    round f false 1 1 ≤ (1 : FP f) := by
  obtain ⟨n, ⟨s1, s2, -⟩, r⟩ := round_cases f (N := 1) (D := 1) one_pos one_pos
  have hl : floorLog2 1 1 = 0 := by decide
  rw [hl] at r s1 s2
  have hmax : max (0 : ℤ) f.emin = 0 := max_eq_left he
  rw [hmax] at r s1 s2
  have hno : ¬ ((0 : ℤ) - ((f.prec : ℤ) - 1) + (f.prec : ℤ) - 1 > f.emax ∨
      ((0 : ℤ) - ((f.prec : ℤ) - 1) + (f.prec : ℤ) - 1 = f.emax ∧ n = 2 ^ f.prec)) := by
    unfold Format.emax
    rintro (h | ⟨h, -⟩) <;> omega
  rw [r, if_neg hno]
  obtain ⟨m, e, hc, hv⟩ := canon_false_eq (f := f) n ((0 : ℤ) - ((f.prec : ℤ) - 1))
  rw [hc]
  show (fin (m : ℤ) e : FP f) ≤ fin 1 0
  rw [fin_le_fin_iff]
  push_cast
  rw [hv]
  have hy : ((1 : ℕ) : ℚ) / ((1 : ℕ) : ℚ) / 2 ^ ((0 : ℤ) - ((f.prec : ℤ) - 1)) =
      ((2 ^ (f.prec - 1) : ℕ) : ℚ) := by
    push_cast
    rw [← zpow_natCast, div_one, one_div, ← zpow_neg]
    congr 1
    have : ((f.prec - 1 : ℕ) : ℤ) = (f.prec : ℤ) - 1 := by omega
    rw [this]
    ring
  rw [hy] at s1 s2
  have hn : n = 2 ^ (f.prec - 1) := by
    have a1 : (n : ℚ) < ((2 ^ (f.prec - 1) : ℕ) : ℚ) + 1 := by linarith
    have a2 : ((2 ^ (f.prec - 1) : ℕ) : ℚ) < (n : ℚ) + 1 := by linarith
    have b1 : n < 2 ^ (f.prec - 1) + 1 := by exact_mod_cast a1
    have b2 : 2 ^ (f.prec - 1) < n + 1 := by exact_mod_cast a2
    omega
  rw [hn]
  have : ((2 ^ (f.prec - 1) : ℕ) : ℚ) * 2 ^ ((0 : ℤ) - ((f.prec : ℤ) - 1)) = 1 := by
    push_cast
    rw [← zpow_natCast, ← zpow_add₀ (by norm_num : (2 : ℚ) ≠ 0)]
    have : ((f.prec - 1 : ℕ) : ℤ) + ((0 : ℤ) - ((f.prec : ℤ) - 1)) = 0 := by omega
    rw [this, zpow_zero]
  rw [this]
  norm_num


/-- A power of two with a non-negative integer exponent. -/
theorem two_zpow_toNat {k : ℤ} (hk : 0 ≤ k) : (2 : ℚ) ^ k.toNat = (2 : ℚ) ^ k := by
  rw [← two_pow_toNat hk]
  push_cast
  rfl

/-- The difference of two finite values, the first not below the second, is the rounded
exact difference. -/
theorem sub_fin_fin_eq (m1 e1 m2 e2 : ℤ) (h : (m2 : ℚ) * 2 ^ e2 ≤ (m1 : ℚ) * 2 ^ e1) :
    ∃ N D : ℕ, 0 < D ∧ (N : ℚ) / D = (m1 : ℚ) * 2 ^ e1 - (m2 : ℚ) * 2 ^ e2 ∧
      (fin m1 e1 - fin m2 e2 : FP f) = round f false N D := by
  set e := min e1 e2 with he
  have h1 : 0 ≤ e1 - e := by have := min_le_left e1 e2; omega
  have h2 : 0 ≤ e2 - e := by have := min_le_right e1 e2; omega
  have h2ne : (2 : ℚ) ≠ 0 := by norm_num
  have hpos : (0 : ℚ) < 2 ^ e := zpow_pos (by norm_num) _
  set M : ℤ := m1 * ((2 ^ (e1 - e).toNat : ℕ) : ℤ) + (-m2) * ((2 ^ (e2 - e).toNat : ℕ) : ℤ)
    with hM
  have hval : (M : ℚ) * 2 ^ e = (m1 : ℚ) * 2 ^ e1 - (m2 : ℚ) * 2 ^ e2 := by
    rw [hM]
    push_cast
    rw [two_zpow_toNat h1, two_zpow_toNat h2, add_mul, mul_assoc, mul_assoc,
      ← zpow_add₀ h2ne, ← zpow_add₀ h2ne]
    rw [show e1 - e + e = e1 by ring, show e2 - e + e = e2 by ring]
    ring
  have hM0 : 0 ≤ M := by
    have : (0 : ℚ) ≤ (M : ℚ) * 2 ^ e := by rw [hval]; linarith
    have : (0 : ℚ) ≤ (M : ℚ) := nonneg_of_mul_nonneg_left this hpos
    exact_mod_cast this
  have hsub : (fin m1 e1 - fin m2 e2 : FP f) = roundDyadic f M e := rfl
  have hdec : decide (M < 0) = false := by simp [hM0]
  have habs : ((M.natAbs : ℕ) : ℚ) = (M : ℚ) := by
    have h0 : ((M.natAbs : ℕ) : ℤ) = M := Int.natAbs_of_nonneg hM0
    have h3 : (((M.natAbs : ℕ) : ℤ) : ℚ) = (M : ℚ) := congrArg (fun z : ℤ => (z : ℚ)) h0
    rw [← h3]
    exact (Int.cast_natCast _).symm
  rw [hsub]
  unfold roundDyadic
  by_cases hE : e ≥ 0
  · refine ⟨M.natAbs * 2 ^ e.toNat, 1, one_pos, ?_, ?_⟩
    · push_cast
      rw [habs, two_zpow_toNat hE, div_one, hval]
    · rw [if_pos hE, hdec]
  · have hneg : 0 ≤ -e := by omega
    refine ⟨M.natAbs, 2 ^ (-e).toNat, by positivity, ?_, ?_⟩
    · push_cast
      rw [habs, two_zpow_toNat hneg, ← hval, zpow_neg]
      field_simp
    · rw [if_neg hE, hdec]

/-- The quotient of a non-negative finite value by a positive one is the rounded exact
quotient. -/
theorem div_fin_fin_eq (m1 : ℕ) (e1 : ℤ) (m2 : ℕ) (e2 : ℤ) (h2 : m2 ≠ 0) :
    ∃ N D : ℕ, 0 < D ∧ (N : ℚ) / D = ((m1 : ℚ) * 2 ^ e1) / ((m2 : ℚ) * 2 ^ e2) ∧
      (fin (m1 : ℤ) e1 / fin (m2 : ℤ) e2 : FP f) = round f false N D := by
  have h2ne : (2 : ℚ) ≠ 0 := by norm_num
  have hm2 : ((m2 : ℕ) : ℤ) ≠ 0 := by exact_mod_cast h2
  have hm2q : (m2 : ℚ) ≠ 0 := by exact_mod_cast h2
  have hdiv : (fin (m1 : ℤ) e1 / fin (m2 : ℤ) e2 : FP f) =
      if e1 ≥ e2 then round f false ((m1 : ℤ).natAbs * 2 ^ (e1 - e2).toNat) (m2 : ℤ).natAbs
      else round f false (m1 : ℤ).natAbs ((m2 : ℤ).natAbs * 2 ^ (e2 - e1).toNat) := by
    show div (fin (m1 : ℤ) e1) (fin (m2 : ℤ) e2) = _
    unfold div
    simp only [if_neg hm2]
    have hn : decide (((m1 : ℤ) < 0) ≠ ((m2 : ℤ) < 0)) = false := by
      have a1 : ¬ ((m1 : ℤ) < 0) := by omega
      have a2 : ¬ ((m2 : ℤ) < 0) := by omega
      simp [a1, a2]
    rw [hn]
  rw [hdiv]
  simp only [Int.natAbs_ofNat]
  by_cases hE : e1 ≥ e2
  · have hk : 0 ≤ e1 - e2 := by omega
    refine ⟨m1 * 2 ^ (e1 - e2).toNat, m2, Nat.pos_of_ne_zero h2, ?_, by rw [if_pos hE]⟩
    push_cast
    rw [two_zpow_toNat hk, zpow_sub₀ h2ne]
    field_simp
    left
    ring
  · have hk : 0 ≤ e2 - e1 := by omega
    refine ⟨m1, m2 * 2 ^ (e2 - e1).toNat, by positivity, ?_, by rw [if_neg hE]⟩
    push_cast
    rw [two_zpow_toNat hk, zpow_sub₀ h2ne]
    field_simp

/-- The order of a binary format is transitive. -/
theorem le_trans_binary {a b c : FP f} (h1 : a ≤ b) (h2 : b ≤ c) : a ≤ c := by
  rcases a with ⟨m1, e1⟩ | _ | _ | _ <;> rcases b with ⟨m2, e2⟩ | _ | _ | _ <;>
    rcases c with ⟨m3, e3⟩ | _ | _ | _
  case fin.fin.fin =>
    rw [fin_le_fin_iff] at h1 h2 ⊢
    exact le_trans h1 h2
  all_goals first
    | exact (Bool.false_ne_true h1).elim
    | exact (Bool.false_ne_true h2).elim
    | (show ble _ _ = true; rfl)

/-- Division by NaN gives NaN. -/
theorem div_nan_binary (x : FP f) : x / nan = nan := by
  cases x <;> rfl

/-- Division of NaN gives NaN. -/
theorem nan_div_binary (x : FP f) : nan / x = nan := by
  cases x <;> rfl

/-- The quotient of two rounded non-negative values, the first not above the second, is
NaN or lies in `[0, 1]`; it lies in `[0, 1]` when the second is finite and not zero. -/
theorem unit_of_rounded (hp : 1 ≤ f.prec) (he : f.emin ≤ 0) {N1 D1 N2 D2 : ℕ}
    (hD1 : 0 < D1) (hD2 : 0 < D2) (h : (N1 : ℚ) / D1 ≤ (N2 : ℚ) / D2) :
    (round f false N1 D1 / round f false N2 D2 = nan ∨
      ((0 : FP f) ≤ round f false N1 D1 / round f false N2 D2 ∧
        round f false N1 D1 / round f false N2 D2 ≤ (1 : FP f))) ∧
    ((∃ (m e : ℤ), m ≠ 0 ∧ round f false N2 D2 = fin m e) →
      ((0 : FP f) ≤ round f false N1 D1 / round f false N2 D2 ∧
        round f false N1 D1 / round f false N2 D2 ≤ (1 : FP f))) := by
  have hxy := round_le_round f hp hD1 hD2 h
  have h01 : (0 : FP f) ≤ fin 0 0 ∧ (fin 0 0 : FP f) ≤ 1 := by
    constructor
    · exact zero_le_fin_nat 0 0
    · show (fin 0 0 : FP f) ≤ fin 1 0
      rw [fin_le_fin_iff]
      norm_num
  rcases round_form f N1 D1 hD1 with hx | ⟨m1, e1, hx⟩ <;>
    rcases round_form f N2 D2 hD2 with hy | ⟨m2, e2, hy⟩
  · rw [hx, hy]
    exact ⟨Or.inl rfl, fun ⟨_, _, _, h⟩ => FP.noConfusion h⟩
  · rw [hx, hy] at hxy
    exact (Bool.false_ne_true hxy).elim
  · rw [hx, hy]
    exact ⟨Or.inr h01, fun _ => h01⟩
  · rw [hx, hy] at hxy ⊢
    rw [fin_le_fin_iff] at hxy
    by_cases hm2 : m2 = 0
    · subst hm2
      have hpos : (0 : ℚ) < 2 ^ e1 := zpow_pos (by norm_num) _
      have hm1 : m1 = 0 := by
        have h0 : ((m1 : ℤ) : ℚ) * 2 ^ e1 ≤ 0 := by simpa using hxy
        have h1 : ((m1 : ℤ) : ℚ) ≤ 0 := by
          by_contra hc
          push_neg at hc
          have := mul_pos hc hpos
          linarith
        have h2 : (m1 : ℤ) ≤ 0 := by exact_mod_cast h1
        omega
      subst hm1
      refine ⟨Or.inl ?_, ?_⟩
      · show div (fin ((0 : ℕ) : ℤ) e1) (fin ((0 : ℕ) : ℤ) e2) = (nan : FP f)
        simp [div]
      · rintro ⟨m, e, hm, heq⟩
        have := (FP.fin.inj heq).1
        exact absurd this.symm (by simpa using hm)
    · obtain ⟨N, D, hD, hv, hdiv⟩ := div_fin_fin_eq (f := f) m1 e1 m2 e2 hm2
      have hm2q : (0 : ℚ) < (m2 : ℚ) := by
        have : 0 < m2 := Nat.pos_of_ne_zero hm2
        exact_mod_cast this
      have hpos2 : (0 : ℚ) < (m2 : ℚ) * 2 ^ e2 := mul_pos hm2q (zpow_pos (by norm_num) _)
      have hnn1 : (0 : ℚ) ≤ (m1 : ℚ) * 2 ^ e1 :=
        mul_nonneg (by positivity) (zpow_pos (by norm_num) _).le
      have hxy' : (m1 : ℚ) * 2 ^ e1 ≤ (m2 : ℚ) * 2 ^ e2 := by exact_mod_cast hxy
      have hu : (0 : FP f) ≤ round f false N D ∧ round f false N D ≤ (1 : FP f) := by
        constructor
        · have h0 := @round_le_round f hp 0 1 N D one_pos hD
            (by rw [hv]; simp; exact div_nonneg hnn1 hpos2.le)
          rw [round_zero] at h0
          exact h0
        · refine le_trans_binary (@round_le_round f hp N D 1 1 hD one_pos ?_)
            (round_one_le f hp he)
          rw [hv]
          simp only [Nat.cast_one, div_one]
          exact (div_le_one hpos2).2 hxy'
      rw [hdiv]
      exact ⟨Or.inr hu, fun _ => hu⟩

/-- In a binary format the normalized position `(a - lo) / (hi - lo)` of a value that is
neither below `lo` nor above `hi` is NaN or lies in `[0, 1]`; it lies in `[0, 1]` when `a`
is not NaN and the computed extent `hi - lo` is finite and not zero. -/
theorem unit_or_nan_binary (hp : 1 ≤ f.prec) (he : f.emin ≤ 0) (a lo hi : FP f)
    (h1 : ¬ a < lo) (h2 : ¬ a > hi) :
    ((a - lo) / (hi - lo) = nan ∨
      ((0 : FP f) ≤ (a - lo) / (hi - lo) ∧ (a - lo) / (hi - lo) ≤ (1 : FP f))) ∧
    (a ≠ nan → (∃ (m e : ℤ), m ≠ 0 ∧ hi - lo = fin m e) →
      ((0 : FP f) ≤ (a - lo) / (hi - lo) ∧ (a - lo) / (hi - lo) ≤ (1 : FP f))) := by
  rcases a with ⟨ma, ea⟩ | _ | _ | _ <;> rcases lo with ⟨ml, el⟩ | _ | _ | _ <;>
    rcases hi with ⟨mh, eh⟩ | _ | _ | _
  case fin.fin.fin =>
    have hla : (fin ml el : FP f) ≤ fin ma ea :=
      (not_lt_iff_le_binary (fun h => FP.noConfusion h) (fun h => FP.noConfusion h)).1 h1
    have hah : (fin ma ea : FP f) ≤ fin mh eh :=
      (not_lt_iff_le_binary (fun h => FP.noConfusion h) (fun h => FP.noConfusion h)).1 h2
    rw [fin_le_fin_iff] at hla hah
    obtain ⟨N1, D1, hD1, hv1, hx⟩ := sub_fin_fin_eq (f := f) ma ea ml el hla
    obtain ⟨N2, D2, hD2, hv2, hy⟩ := sub_fin_fin_eq (f := f) mh eh ml el (le_trans hla hah)
    rw [hx, hy]
    have hu := unit_of_rounded hp he hD1 hD2 (by rw [hv1, hv2]; exact sub_le_sub_right hah _)
    exact ⟨hu.1, fun _ => hu.2⟩
  case fin.fin.pinf =>
    have hla : (fin ml el : FP f) ≤ fin ma ea :=
      (not_lt_iff_le_binary (fun h => FP.noConfusion h) (fun h => FP.noConfusion h)).1 h1
    rw [fin_le_fin_iff] at hla
    obtain ⟨N1, D1, hD1, hv1, hx⟩ := sub_fin_fin_eq (f := f) ma ea ml el hla
    rw [hx]
    have hy : (pinf - fin ml el : FP f) = pinf := rfl
    rw [hy]
    refine ⟨?_, fun _ ⟨_, _, _, h⟩ => FP.noConfusion h⟩
    rcases round_form f N1 D1 hD1 with hx | ⟨m1, e1, hx⟩
    · rw [hx]
      exact Or.inl rfl
    · rw [hx]
      refine Or.inr ⟨zero_le_fin_nat 0 0, ?_⟩
      show (fin 0 0 : FP f) ≤ fin 1 0
      rw [fin_le_fin_iff]
      norm_num
  case fin.fin.nan =>
    have hy : (nan - fin ml el : FP f) = nan := rfl
    rw [hy, div_nan_binary]
    exact ⟨Or.inl rfl, fun _ ⟨_, _, _, h⟩ => FP.noConfusion h⟩
  all_goals first
    | exact absurd rfl h1
    | exact absurd rfl h2
    | exact ⟨Or.inl (nan_div_binary _), fun ha => absurd rfl ha⟩
    | exact ⟨Or.inl rfl, fun _ ⟨_, _, _, h⟩ => FP.noConfusion h⟩

end FP

/-! ## C1: when `Hit` returns true -/

/-- In exact arithmetic (the scalar `Float`), for every YZRect with finite bounds and every
ray with finite origin and direction whose direction has `d.x ≠ 0` (`tMax` any value but
NaN, `+∞` included), `YZRect::Hit` returns true if and only if there is a `t` with
`ShadowEpsilon < t ≤ tMax` such that the point `o + t*d` has `x = k`, `y0 ≤ y ≤ y1` and
`z0 ≤ z ≤ z1`. -/
theorem YZRect.Hit_iff_intersects_exact (y0 y1 z0 z1 k eps ox oy oz dx dy dz : ℚ)
    (mat : MaterialPtr) (tMax time : Float) (record : HitRecord) (hdx : dx ≠ 0)
    (htMax : tMax ≠ nan) :
    (YZRect.Hit ⟨fin y0, fin y1, fin z0, fin z1, fin k, mat⟩ (fin eps)
        ⟨⟨fin ox, fin oy, fin oz⟩, ⟨fin dx, fin dy, fin dz⟩, tMax, time⟩ record).ret = true ↔
      Intersects y0 y1 z0 z1 k eps ox oy oz dx dy dz tMax := by
  rw [YZRect.Hit_fin y0 y1 z0 z1 k eps ox oy oz dx dy dz mat tMax time record hdx]
  have hfin : fin ((k - ox) / dx) ≠ nan := by simp
  constructor
  · intro h
    by_cases h1 : tMax < fin ((k - ox) / dx) ∨ (k - ox) / dx ≤ eps
    · simp [if_pos h1] at h
    by_cases h2 : oy + (k - ox) / dx * dy < y0 ∨ y1 < oy + (k - ox) / dx * dy ∨
        oz + (k - ox) / dx * dz < z0 ∨ z1 < oz + (k - ox) / dx * dz
    · simp [if_neg h1, if_pos h2] at h
    push_neg at h1 h2
    exact ⟨(k - ox) / dx, (fin_lt_fin _ _).2 h1.2, (not_lt_iff_le hfin htMax).1 h1.1,
      (plane_solution hdx _).2 rfl, h2.1, h2.2.1, h2.2.2.1, h2.2.2.2⟩
  · rintro ⟨t, h1, h2, h3, h4, h5, h6, h7⟩
    obtain rfl := (plane_solution hdx t).1 h3
    have h1' : ¬ (tMax < fin ((k - ox) / dx) ∨ (k - ox) / dx ≤ eps) := by
      push_neg
      exact ⟨(not_lt_iff_le hfin htMax).2 h2, (fin_lt_fin _ _).1 h1⟩
    have h2' : ¬ (oy + (k - ox) / dx * dy < y0 ∨ y1 < oy + (k - ox) / dx * dy ∨
        oz + (k - ox) / dx * dz < z0 ∨ z1 < oz + (k - ox) / dx * dz) := by
      push_neg
      exact ⟨h4, h5, h6, h7⟩
    rw [if_neg h1', if_neg h2']

section GenericHit
variable {T : Type} [Zero T] [One T] [Add T] [Sub T] [Mul T] [Div T] [Neg T] [LT T] [LE T]
  [∀ a b : T, Decidable (a < b)] [∀ a b : T, Decidable (a ≤ b)]

/-- C1 (as amended): over every scalar type, for every YZRect, ShadowEpsilon, ray and
record, `YZRect::Hit` returns true if and only if the computed parameter
`t = (k - o.x) / d.x` satisfies neither `t > tMax` nor `t <= ShadowEpsilon` and the computed
point `p = o + d * t` satisfies none of `p.y < y0`, `p.y > y1`, `p.z < z0`, `p.z > z1`,
each comparison being the one of the scalar type (so false on a NaN).  In a binary
floating-point format, when none of these computed and given values is NaN, this is:
`ShadowEpsilon < t ≤ tMax`, `y0 ≤ p.y ≤ y1` and `z0 ≤ p.z ≤ z1`. -/
theorem YZRect_Hit_iff_tests_pass (self : Generic.YZRect T) (eps : T) (ray : Generic.Ray T)
    (record : Generic.HitRecord T) :
    ((self.Hit eps ray record).ret = true ↔
      (¬ (self.k - ray.o.x) / ray.d.x > ray.tMax ∧ ¬ (self.k - ray.o.x) / ray.d.x ≤ eps) ∧
      ¬ (ray.at ((self.k - ray.o.x) / ray.d.x)).y < self.y0 ∧
      ¬ (ray.at ((self.k - ray.o.x) / ray.d.x)).y > self.y1 ∧
      ¬ (ray.at ((self.k - ray.o.x) / ray.d.x)).z < self.z0 ∧
      ¬ (ray.at ((self.k - ray.o.x) / ray.d.x)).z > self.z1) ∧
    (∀ (f : Format) (s : Generic.YZRect (FP f)) (e : FP f) (r : Generic.Ray (FP f))
        (rc : Generic.HitRecord (FP f)),
      (s.k - r.o.x) / r.d.x ≠ FP.nan → r.tMax ≠ FP.nan → e ≠ FP.nan →
      (r.at ((s.k - r.o.x) / r.d.x)).y ≠ FP.nan → (r.at ((s.k - r.o.x) / r.d.x)).z ≠ FP.nan →
      s.y0 ≠ FP.nan → s.y1 ≠ FP.nan → s.z0 ≠ FP.nan → s.z1 ≠ FP.nan →
      ((s.Hit e r rc).ret = true ↔
        (e < (s.k - r.o.x) / r.d.x ∧ (s.k - r.o.x) / r.d.x ≤ r.tMax) ∧
        (s.y0 ≤ (r.at ((s.k - r.o.x) / r.d.x)).y ∧ (r.at ((s.k - r.o.x) / r.d.x)).y ≤ s.y1) ∧
        (s.z0 ≤ (r.at ((s.k - r.o.x) / r.d.x)).z ∧
          (r.at ((s.k - r.o.x) / r.d.x)).z ≤ s.z1))) := by
  refine ⟨Generic.YZRect.Hit_ret_iff self eps ray record, ?_⟩
  intro f s e r rc ht hT he hy hz hy0 hy1 hz0 hz1
  rw [Generic.YZRect.Hit_ret_iff s e r rc, gt_iff_lt, gt_iff_lt, gt_iff_lt,
    FP.not_lt_iff_le_binary ht hT, FP.not_le_iff_lt_binary ht he,
    FP.not_lt_iff_le_binary hy0 hy, FP.not_lt_iff_le_binary hy hy1,
    FP.not_lt_iff_le_binary hz0 hz, FP.not_lt_iff_le_binary hz hz1]
  tauto

end GenericHit

/-- Witness of C1 (as amended), in binary32: the ray from `(0, 0.5, 0.5)` in direction
`(41, 0, 0)` passes every test on the unit square in the plane `x = 1`, `YZRect::Hit`
returns true, and the computed `t`, the value nearest to `1/41`, lies in
`(ShadowEpsilon, tMax]`. -/
theorem YZRect_Hit_iff_tests_pass_witness :
    ((⟨0, 1, 0, 1, 1, 7⟩ : Generic.YZRect (FP binary32)).Hit 0.001
      ⟨⟨0, 0.5, 0.5⟩, ⟨41, 0, 0⟩, .pinf, 0⟩ ⟨0, ⟨0, 0, 0⟩, ⟨0, 0, 0⟩, 0, 0, 0⟩).ret = true ∧
    ((0.001 : FP binary32) < (1 - 0) / 41 ∧ ((1 - 0) / 41 : FP binary32) ≤ .pinf) :=
  ⟨(YZRect_Hit_iff_tests_pass (⟨0, 1, 0, 1, 1, 7⟩ : Generic.YZRect (FP binary32)) 0.001
      ⟨⟨0, 0.5, 0.5⟩, ⟨41, 0, 0⟩, .pinf, 0⟩ ⟨0, ⟨0, 0, 0⟩, ⟨0, 0, 0⟩, 0, 0, 0⟩).1.2
      (by decide),
    (((YZRect_Hit_iff_tests_pass (⟨0, 1, 0, 1, 1, 7⟩ : Generic.YZRect (FP binary32)) 0.001
      ⟨⟨0, 0.5, 0.5⟩, ⟨41, 0, 0⟩, .pinf, 0⟩ ⟨0, ⟨0, 0, 0⟩, ⟨0, 0, 0⟩, 0, 0, 0⟩).2 binary32
      ⟨0, 1, 0, 1, 1, 7⟩ 0.001 ⟨⟨0, 0.5, 0.5⟩, ⟨41, 0, 0⟩, .pinf, 0⟩
      ⟨0, ⟨0, 0, 0⟩, ⟨0, 0, 0⟩, 0, 0, 0⟩ (by decide) (by decide) (by decide) (by decide)
      (by decide) (by decide) (by decide) (by decide) (by decide)).1 (by decide)).1⟩

/-- C1 as stated fails.  First input: the ray from `(0, 5, 5)` in direction `(0, 1, 0)` lies
in the plane `x = 0` of the unit square and never meets it (its `z` is always 5), yet
`t = 0/0` is NaN, every comparison with it is false, and `YZRect::Hit` returns true.
Second input, in binary32: the ray from `(-1e-9, 0.5, 0.5)` in direction `(1, 0, 0)` with
`tMax = 1` meets the plane `x = 1` only at `t = 1 - o.x`, about `1 + 1e-9` and beyond
`tMax`, yet the computed `t` is 1 and `YZRect::Hit` returns true.  Third input, in binary32: the ray from the origin in
direction `(7, 3, 0)` meets the plane `x = 1` at `t = 1/7` in the point `(1, 3/7, 0)`,
inside the rectangle `0 ≤ y ≤ y1`, `0 ≤ z ≤ 1` where `y1 = 0.42857146` is the value
nearest to `3/7` (just above it), yet the computed `y` is `0.4285715 > y1` and
`YZRect::Hit` returns false. -/
theorem YZRect_Hit_iff_tests_pass_counterexample :
    ((YZRect.Hit ⟨fin 0, fin 1, fin 0, fin 1, fin 0, 7⟩ (fin (1 / 1000))
        ⟨⟨fin 0, fin 5, fin 5⟩, ⟨fin 0, fin 1, fin 0⟩, fin 100, fin 0⟩
        ⟨fin 0, ⟨fin 0, fin 0, fin 0⟩, ⟨fin 0, fin 0, fin 0⟩, fin 0, fin 0, 0⟩).ret = true ∧
      ¬ Intersects 0 1 0 1 0 (1 / 1000) 0 5 5 0 1 0 (fin 100)) ∧
    (((⟨0, 1, 0, 1, 1, 7⟩ : Generic.YZRect (FP binary32)).Hit 0.001
        ⟨⟨-1e-9, 0.5, 0.5⟩, ⟨1, 0, 0⟩, 1, 0⟩ ⟨0, ⟨0, 0, 0⟩, ⟨0, 0, 0⟩, 0, 0, 0⟩).ret = true ∧
      ¬ Intersects 0 1 0 1 1 (FP.toRat (0.001 : FP binary32))
        (FP.toRat (-1e-9 : FP binary32)) (1 / 2) (1 / 2) 1 0 0 (fin 1)) ∧
    (((⟨0, 3 / 7, 0, 1, 1, 7⟩ : Generic.YZRect (FP binary32)).Hit 0.001
        ⟨⟨0, 0, 0⟩, ⟨7, 3, 0⟩, .pinf, 0⟩ ⟨0, ⟨0, 0, 0⟩, ⟨0, 0, 0⟩, 0, 0, 0⟩).ret = false ∧
      Intersects 0 (FP.toRat (3 / 7 : FP binary32)) 0 1 1
        (FP.toRat (0.001 : FP binary32)) 0 0 0 7 3 0 pinf) := by
  have he : (0.001 : FP binary32) = .fin 8589935 (-33) := by decide
  have hy : (3 / 7 : FP binary32) = .fin 14380471 (-25) := by decide
  have ho : (-1e-9 : FP binary32) = .fin (-9007199) (-53) := by decide
  refine ⟨⟨?_, ?_⟩, ⟨by decide, ?_⟩, ⟨by decide, ?_⟩⟩
  · simp [YZRect.Hit, Ray.at, fin_div_fin]
  · rintro ⟨t, -, -, -, -, -, -, h⟩
    norm_num at h
  · rintro ⟨t, -, h2, h3, -⟩
    rw [fin_le_fin] at h2
    rw [ho] at h3
    simp only [FP.toRat] at h3
    norm_num at h3
    linarith
  · rw [he, hy]
    refine ⟨1 / 7, ?_, fin_le_pinf _, ?_, ?_, ?_, ?_, ?_⟩
    · rw [fin_lt_fin]
      simp only [FP.toRat]
      norm_num
    · norm_num
    · norm_num
    · simp only [FP.toRat]
      norm_num
    · norm_num
    · norm_num

/-! ## C2: the surface parameters of a hit -/

/-- C2 (as amended): for every YZRect (built by its constructor or not), every ray and
every record, whenever `YZRect::Hit` returns true each of `rec.u` and `rec.v` is either NaN
or lies in `[0, 1]`; and `0 ≤ rec.u ≤ 1` holds when `rec.p.y` is not NaN and the computed
extent `y1 - y0` is finite and not zero, likewise `0 ≤ rec.v ≤ 1` when `rec.p.z` is not NaN
and `z1 - z0` is finite and not zero.  This holds in exact arithmetic (the scalar `Float`)
and of the computed values in every binary format with at least one significand bit and
the exponent 0, binary32 among them. -/
theorem YZRect_Hit_uv_unit_or_nan (self : YZRect) (eps : Float) (ray : Ray)
    (record : HitRecord) (h : (self.Hit eps ray record).ret = true) :
    ((self.Hit eps ray record).record.u = nan ∨
      ((0 : Float) ≤ (self.Hit eps ray record).record.u ∧
        (self.Hit eps ray record).record.u ≤ (1 : Float))) ∧
    ((self.Hit eps ray record).record.v = nan ∨
      ((0 : Float) ≤ (self.Hit eps ray record).record.v ∧
        (self.Hit eps ray record).record.v ≤ (1 : Float))) ∧
    ((self.Hit eps ray record).record.p.y ≠ nan →
      (∃ q : ℚ, q ≠ 0 ∧ self.y1 - self.y0 = fin q) →
      ((0 : Float) ≤ (self.Hit eps ray record).record.u ∧
        (self.Hit eps ray record).record.u ≤ (1 : Float))) ∧
    ((self.Hit eps ray record).record.p.z ≠ nan →
      (∃ q : ℚ, q ≠ 0 ∧ self.z1 - self.z0 = fin q) →
      ((0 : Float) ≤ (self.Hit eps ray record).record.v ∧
        (self.Hit eps ray record).record.v ≤ (1 : Float))) ∧
    ∀ (f : Format), 1 ≤ f.prec → f.emin ≤ 0 →
      ∀ (s : Generic.YZRect (FP f)) (e : FP f) (r : Generic.Ray (FP f))
        (rc : Generic.HitRecord (FP f)), (s.Hit e r rc).ret = true →
        ((s.Hit e r rc).record.u = FP.nan ∨
          ((0 : FP f) ≤ (s.Hit e r rc).record.u ∧ (s.Hit e r rc).record.u ≤ (1 : FP f))) ∧
        ((s.Hit e r rc).record.v = FP.nan ∨
          ((0 : FP f) ≤ (s.Hit e r rc).record.v ∧ (s.Hit e r rc).record.v ≤ (1 : FP f))) ∧
        ((s.Hit e r rc).record.p.y ≠ FP.nan →
          (∃ (m x : ℤ), m ≠ 0 ∧ s.y1 - s.y0 = FP.fin m x) →
          ((0 : FP f) ≤ (s.Hit e r rc).record.u ∧ (s.Hit e r rc).record.u ≤ (1 : FP f))) ∧
        ((s.Hit e r rc).record.p.z ≠ FP.nan →
          (∃ (m x : ℤ), m ≠ 0 ∧ s.z1 - s.z0 = FP.fin m x) →
          ((0 : FP f) ≤ (s.Hit e r rc).record.v ∧ (s.Hit e r rc).record.v ≤ (1 : FP f))) := by
  obtain ⟨hy0, hy1, hz0, hz1, hp, hu, hv⟩ := YZRect.Hit_record_of_ret self eps ray record h
  rw [hp, hu, hv]
  refine ⟨(Float.unit_or_nan _ _ _ hy0 hy1).1, (Float.unit_or_nan _ _ _ hz0 hz1).1,
    (Float.unit_or_nan _ _ _ hy0 hy1).2, (Float.unit_or_nan _ _ _ hz0 hz1).2, ?_⟩
  intro f hprec hemin s e r rc hs
  obtain ⟨-, ht, hq⟩ := Generic.YZRect.Hit_of_ret s e r rc hs
  obtain ⟨gu, gv⟩ := Generic.YZRect.Hit_uv_of_ret s e r rc hs
  push_neg at ht
  rw [hq, gu, gv]
  exact ⟨(FP.unit_or_nan_binary hprec hemin _ _ _ ht.1 ht.2.1).1,
    (FP.unit_or_nan_binary hprec hemin _ _ _ ht.2.2.1 ht.2.2.2).1,
    (FP.unit_or_nan_binary hprec hemin _ _ _ ht.1 ht.2.1).2,
    (FP.unit_or_nan_binary hprec hemin _ _ _ ht.2.2.1 ht.2.2.2).2⟩

/-- Witness of C2 (as amended): the unit square in the plane `x = 0`, built with both
ranges given in swapped order, hit in its middle: `rec.u` and `rec.v` lie in `[0, 1]`; and
in binary32 the rectangle `[0, 3] × [0, 1]` in the plane `x = 1`, built by the constructor,
hit at `y = 1`: `rec.u`, the binary32 value nearest to 1/3, lies in `[0, 1]`. -/
theorem YZRect_Hit_uv_unit_or_nan_witness :
    (((YZRect.new (fin 1) (fin 0) (fin 1) (fin 0) (fin 0) 7).Hit (fin (1 / 1000))
        ⟨⟨fin (-1), fin (1 / 2), fin (1 / 2)⟩, ⟨fin 1, fin 0, fin 0⟩, pinf, fin 0⟩
        ⟨fin 0, ⟨fin 0, fin 0, fin 0⟩, ⟨fin 0, fin 0, fin 0⟩, fin 0, fin 0, 0⟩).ret = true ∧
    ((0 : Float) ≤ ((YZRect.new (fin 1) (fin 0) (fin 1) (fin 0) (fin 0) 7).Hit (fin (1 / 1000))
        ⟨⟨fin (-1), fin (1 / 2), fin (1 / 2)⟩, ⟨fin 1, fin 0, fin 0⟩, pinf, fin 0⟩
        ⟨fin 0, ⟨fin 0, fin 0, fin 0⟩, ⟨fin 0, fin 0, fin 0⟩, fin 0, fin 0, 0⟩).record.u ∧
      ((YZRect.new (fin 1) (fin 0) (fin 1) (fin 0) (fin 0) 7).Hit (fin (1 / 1000))
        ⟨⟨fin (-1), fin (1 / 2), fin (1 / 2)⟩, ⟨fin 1, fin 0, fin 0⟩, pinf, fin 0⟩
        ⟨fin 0, ⟨fin 0, fin 0, fin 0⟩, ⟨fin 0, fin 0, fin 0⟩, fin 0, fin 0, 0⟩).record.u ≤
        (1 : Float))) ∧
    (((Generic.YZRect.new (0 : FP binary32) 3 0 1 1 7).Hit 0.001
        ⟨⟨0, 1, 0.5⟩, ⟨1, 0, 0⟩, .pinf, 0⟩ ⟨0, ⟨0, 0, 0⟩, ⟨0, 0, 0⟩, 0, 0, 0⟩).ret = true ∧
      ((Generic.YZRect.new (0 : FP binary32) 3 0 1 1 7).Hit 0.001
        ⟨⟨0, 1, 0.5⟩, ⟨1, 0, 0⟩, .pinf, 0⟩
        ⟨0, ⟨0, 0, 0⟩, ⟨0, 0, 0⟩, 0, 0, 0⟩).record.u = .fin 11184811 (-25) ∧
      ((0 : FP binary32) ≤ ((Generic.YZRect.new (0 : FP binary32) 3 0 1 1 7).Hit 0.001
          ⟨⟨0, 1, 0.5⟩, ⟨1, 0, 0⟩, .pinf, 0⟩
          ⟨0, ⟨0, 0, 0⟩, ⟨0, 0, 0⟩, 0, 0, 0⟩).record.u ∧
        ((Generic.YZRect.new (0 : FP binary32) 3 0 1 1 7).Hit 0.001
          ⟨⟨0, 1, 0.5⟩, ⟨1, 0, 0⟩, .pinf, 0⟩
          ⟨0, ⟨0, 0, 0⟩, ⟨0, 0, 0⟩, 0, 0, 0⟩).record.u ≤ (1 : FP binary32))) :=
  ⟨⟨by norm_num [YZRect.Hit, YZRect.new, Ray.at, fin_div_fin],
    (YZRect_Hit_uv_unit_or_nan (YZRect.new (fin 1) (fin 0) (fin 1) (fin 0) (fin 0) 7)
      (fin (1 / 1000))
      ⟨⟨fin (-1), fin (1 / 2), fin (1 / 2)⟩, ⟨fin 1, fin 0, fin 0⟩, pinf, fin 0⟩
      ⟨fin 0, ⟨fin 0, fin 0, fin 0⟩, ⟨fin 0, fin 0, fin 0⟩, fin 0, fin 0, 0⟩
      (by norm_num [YZRect.Hit, YZRect.new, Ray.at, fin_div_fin])).2.2.1
      (by
        norm_num [YZRect.Hit, YZRect.new, Ray.at, fin_div_fin]
        simp)
      ⟨1, one_ne_zero, by norm_num [YZRect.new]⟩⟩,
    by decide, by decide,
    ((YZRect_Hit_uv_unit_or_nan (YZRect.new (fin 1) (fin 0) (fin 1) (fin 0) (fin 0) 7)
      (fin (1 / 1000))
      ⟨⟨fin (-1), fin (1 / 2), fin (1 / 2)⟩, ⟨fin 1, fin 0, fin 0⟩, pinf, fin 0⟩
      ⟨fin 0, ⟨fin 0, fin 0, fin 0⟩, ⟨fin 0, fin 0, fin 0⟩, fin 0, fin 0, 0⟩
      (by norm_num [YZRect.Hit, YZRect.new, Ray.at, fin_div_fin])).2.2.2.2 binary32
      (by decide) (by decide) (Generic.YZRect.new (0 : FP binary32) 3 0 1 1 7) 0.001
      ⟨⟨0, 1, 0.5⟩, ⟨1, 0, 0⟩, .pinf, 0⟩ ⟨0, ⟨0, 0, 0⟩, ⟨0, 0, 0⟩, 0, 0, 0⟩
      (by decide)).2.2.1 (by decide) ⟨3, 0, by decide, by decide⟩⟩

/-- C2 as stated fails.  First input: the constructed rectangle with `y0 = y1 = 0` is hit
by the ray from `(-1, 0, 1/2)` in direction `(1, 0, 0)`, and `rec.u = 0/0` is NaN.  Second
input: the unit square is "hit" by a ray lying in its plane, and `rec.u` is NaN again.
Third input, in binary32: the constructed rectangle with `y0 = -3e38`, `y1 = 3e38` in the
plane `x = 1` is hit at `y = 3e38` by the ray from `(0, 3e38, 0.5)` in direction
`(1, 0, 0)`; `rec.p.y - y0` and `y1 - y0` both overflow to `+∞` and `rec.u = ∞/∞` is NaN,
although the bounds differ.  NaN is not in `[0, 1]`. -/
theorem YZRect_Hit_uv_unit_or_nan_counterexample :
    (((YZRect.new (fin 0) (fin 0) (fin 0) (fin 1) (fin 0) 7).Hit (fin (1 / 1000))
        ⟨⟨fin (-1), fin 0, fin (1 / 2)⟩, ⟨fin 1, fin 0, fin 0⟩, pinf, fin 0⟩
        ⟨fin 0, ⟨fin 0, fin 0, fin 0⟩, ⟨fin 0, fin 0, fin 0⟩, fin 0, fin 0, 0⟩).ret = true ∧
      ¬ ((0 : Float) ≤ ((YZRect.new (fin 0) (fin 0) (fin 0) (fin 1) (fin 0) 7).Hit
          (fin (1 / 1000)) ⟨⟨fin (-1), fin 0, fin (1 / 2)⟩, ⟨fin 1, fin 0, fin 0⟩, pinf, fin 0⟩
          ⟨fin 0, ⟨fin 0, fin 0, fin 0⟩, ⟨fin 0, fin 0, fin 0⟩, fin 0, fin 0, 0⟩).record.u)) ∧
    (((YZRect.new (fin 0) (fin 1) (fin 0) (fin 1) (fin 0) 7).Hit (fin (1 / 1000))
        ⟨⟨fin 0, fin (1 / 2), fin (1 / 2)⟩, ⟨fin 0, fin 1, fin 0⟩, fin 100, fin 0⟩
        ⟨fin 0, ⟨fin 0, fin 0, fin 0⟩, ⟨fin 0, fin 0, fin 0⟩, fin 0, fin 0, 0⟩).ret = true ∧
      ¬ ((0 : Float) ≤ ((YZRect.new (fin 0) (fin 1) (fin 0) (fin 1) (fin 0) 7).Hit
          (fin (1 / 1000)) ⟨⟨fin 0, fin (1 / 2), fin (1 / 2)⟩, ⟨fin 0, fin 1, fin 0⟩, fin 100,
            fin 0⟩
          ⟨fin 0, ⟨fin 0, fin 0, fin 0⟩, ⟨fin 0, fin 0, fin 0⟩, fin 0, fin 0, 0⟩).record.u)) ∧
    (((Generic.YZRect.new (-3e38 : FP binary32) 3e38 0 1 1 7).Hit 0.001
        ⟨⟨0, 3e38, 0.5⟩, ⟨1, 0, 0⟩, .pinf, 0⟩ ⟨0, ⟨0, 0, 0⟩, ⟨0, 0, 0⟩, 0, 0, 0⟩).ret = true ∧
      ((Generic.YZRect.new (-3e38 : FP binary32) 3e38 0 1 1 7).Hit 0.001
        ⟨⟨0, 3e38, 0.5⟩, ⟨1, 0, 0⟩, .pinf, 0⟩
        ⟨0, ⟨0, 0, 0⟩, ⟨0, 0, 0⟩, 0, 0, 0⟩).record.u = .nan ∧
      ¬ ((0 : FP binary32) ≤
        ((Generic.YZRect.new (-3e38 : FP binary32) 3e38 0 1 1 7).Hit 0.001
          ⟨⟨0, 3e38, 0.5⟩, ⟨1, 0, 0⟩, .pinf, 0⟩
          ⟨0, ⟨0, 0, 0⟩, ⟨0, 0, 0⟩, 0, 0, 0⟩).record.u)) := by
  refine ⟨⟨?_, ?_⟩, ⟨?_, ?_⟩, ?_⟩
  · norm_num [YZRect.Hit, YZRect.new, Ray.at, fin_div_fin]
  · norm_num [YZRect.Hit, YZRect.new, Ray.at, fin_div_fin]
  · norm_num [YZRect.Hit, YZRect.new, Ray.at, fin_div_fin]
  · norm_num [YZRect.Hit, YZRect.new, Ray.at, fin_div_fin]
  · decide

/-! ## C3: the recorded point -/

section GenericPoint
variable {T : Type} [Zero T] [One T] [Add T] [Sub T] [Mul T] [Div T] [Neg T] [LT T] [LE T]
  [∀ a b : T, Decidable (a < b)] [∀ a b : T, Decidable (a ≤ b)]

/-- C3 (as amended): over every scalar type, whenever `YZRect::Hit` returns true the
recorded point is the computed point `o + d * t` for the computed `t = (k - o.x) / d.x`,
and none of `rec.p.y < y0`, `rec.p.y > y1`, `rec.p.z < z0`, `rec.p.z > z1` holds.  In a
binary floating-point format this is `y0 ≤ rec.p.y ≤ y1` when none of the three values is
NaN, and `z0 ≤ rec.p.z ≤ z1` when none of the three values is NaN. -/
theorem YZRect_Hit_point_in_ranges (self : Generic.YZRect T) (eps : T) (ray : Generic.Ray T)
    (record : Generic.HitRecord T) (h : (self.Hit eps ray record).ret = true) :
    ((self.Hit eps ray record).record.p = ray.o + ray.d * ((self.k - ray.o.x) / ray.d.x) ∧
      ¬ (self.Hit eps ray record).record.p.y < self.y0 ∧
      ¬ (self.Hit eps ray record).record.p.y > self.y1 ∧
      ¬ (self.Hit eps ray record).record.p.z < self.z0 ∧
      ¬ (self.Hit eps ray record).record.p.z > self.z1) ∧
    (∀ (f : Format) (s : Generic.YZRect (FP f)) (e : FP f) (r : Generic.Ray (FP f))
        (rc : Generic.HitRecord (FP f)), (s.Hit e r rc).ret = true →
      ((s.Hit e r rc).record.p.y ≠ FP.nan → s.y0 ≠ FP.nan → s.y1 ≠ FP.nan →
        s.y0 ≤ (s.Hit e r rc).record.p.y ∧ (s.Hit e r rc).record.p.y ≤ s.y1) ∧
      ((s.Hit e r rc).record.p.z ≠ FP.nan → s.z0 ≠ FP.nan → s.z1 ≠ FP.nan →
        s.z0 ≤ (s.Hit e r rc).record.p.z ∧ (s.Hit e r rc).record.p.z ≤ s.z1)) := by
  constructor
  · obtain ⟨-, h2, hp⟩ := Generic.YZRect.Hit_of_ret self eps ray record h
    rw [hp]
    push_neg at h2
    exact ⟨rfl, h2.1, h2.2.1, h2.2.2.1, h2.2.2.2⟩
  · intro f s e r rc hs
    obtain ⟨-, h2, hp⟩ := Generic.YZRect.Hit_of_ret s e r rc hs
    rw [hp]
    push_neg at h2
    exact ⟨fun hy hy0 hy1 => ⟨(FP.not_lt_iff_le_binary hy0 hy).1 h2.1,
        (FP.not_lt_iff_le_binary hy hy1).1 h2.2.1⟩,
      fun hz hz0 hz1 => ⟨(FP.not_lt_iff_le_binary hz0 hz).1 h2.2.2.1,
        (FP.not_lt_iff_le_binary hz hz1).1 h2.2.2.2⟩⟩

end GenericPoint

/-- Witness of C3 (as amended), in binary32: the ray from `(0, 0.5, 0.5)` in direction
`(41, 0, 0)` hits the unit square in the plane `x = 1`; the recorded point is the computed
`o + d * t`, namely `(0.99999994, 0.5, 0.5)`, and its `y` lies in `[0, 1]`. -/
theorem YZRect_Hit_point_in_ranges_witness :
    ((⟨0, 1, 0, 1, 1, 7⟩ : Generic.YZRect (FP binary32)).Hit 0.001
        ⟨⟨0, 0.5, 0.5⟩, ⟨41, 0, 0⟩, .pinf, 0⟩ ⟨0, ⟨0, 0, 0⟩, ⟨0, 0, 0⟩, 0, 0, 0⟩).ret = true ∧
    ((⟨0, 1, 0, 1, 1, 7⟩ : Generic.YZRect (FP binary32)).Hit 0.001
        ⟨⟨0, 0.5, 0.5⟩, ⟨41, 0, 0⟩, .pinf, 0⟩ ⟨0, ⟨0, 0, 0⟩, ⟨0, 0, 0⟩, 0, 0, 0⟩).record.p =
      (⟨0, 0.5, 0.5⟩ : Point3 (FP binary32)) +
        (⟨41, 0, 0⟩ : Vector3 (FP binary32)) * (((1 : FP binary32) - 0) / 41) ∧
    (⟨0, 0.5, 0.5⟩ : Point3 (FP binary32)) +
        (⟨41, 0, 0⟩ : Vector3 (FP binary32)) * (((1 : FP binary32) - 0) / 41) =
      ⟨.fin 16777215 (-24), 0.5, 0.5⟩ ∧
    ((0 : FP binary32) ≤ ((⟨0, 1, 0, 1, 1, 7⟩ : Generic.YZRect (FP binary32)).Hit 0.001
        ⟨⟨0, 0.5, 0.5⟩, ⟨41, 0, 0⟩, .pinf, 0⟩
        ⟨0, ⟨0, 0, 0⟩, ⟨0, 0, 0⟩, 0, 0, 0⟩).record.p.y ∧
      ((⟨0, 1, 0, 1, 1, 7⟩ : Generic.YZRect (FP binary32)).Hit 0.001
        ⟨⟨0, 0.5, 0.5⟩, ⟨41, 0, 0⟩, .pinf, 0⟩
        ⟨0, ⟨0, 0, 0⟩, ⟨0, 0, 0⟩, 0, 0, 0⟩).record.p.y ≤ (1 : FP binary32)) :=
  ⟨by decide,
    (YZRect_Hit_point_in_ranges (⟨0, 1, 0, 1, 1, 7⟩ : Generic.YZRect (FP binary32)) 0.001
      ⟨⟨0, 0.5, 0.5⟩, ⟨41, 0, 0⟩, .pinf, 0⟩ ⟨0, ⟨0, 0, 0⟩, ⟨0, 0, 0⟩, 0, 0, 0⟩
      (by decide)).1.1,
    by decide,
    ((YZRect_Hit_point_in_ranges (⟨0, 1, 0, 1, 1, 7⟩ : Generic.YZRect (FP binary32)) 0.001
      ⟨⟨0, 0.5, 0.5⟩, ⟨41, 0, 0⟩, .pinf, 0⟩ ⟨0, ⟨0, 0, 0⟩, ⟨0, 0, 0⟩, 0, 0, 0⟩
      (by decide)).2 binary32 ⟨0, 1, 0, 1, 1, 7⟩ 0.001 ⟨⟨0, 0.5, 0.5⟩, ⟨41, 0, 0⟩, .pinf, 0⟩
      ⟨0, ⟨0, 0, 0⟩, ⟨0, 0, 0⟩, 0, 0, 0⟩ (by decide)).1 (by decide) (by decide) (by decide)⟩

/-- C3 as stated fails.  First input: the ray from `(2, 9, 9)` in direction `(0, 0, 1)` lies
in the plane `x = 2` of the rectangle `[0,1] × [0,1]`, far outside it; `YZRect::Hit`
returns true and records a point whose `x` is NaN, not `k = 2`.  Second input, in binary32:
the ray from `(0, 0.5, 0.5)` in direction `(41, 0, 0)` hits the unit square in the plane
`x = 1`; the computed `t` is the value nearest to `1/41`, and the recorded `x` is
`41 * t` as rounded, `0.99999994` (that is `16777215 * 2^-24`), not `k = 1`. -/
theorem YZRect_Hit_point_in_ranges_counterexample :
    ((YZRect.Hit ⟨fin 0, fin 1, fin 0, fin 1, fin 2, 7⟩ (fin (1 / 1000))
        ⟨⟨fin 2, fin 9, fin 9⟩, ⟨fin 0, fin 0, fin 1⟩, fin 50, fin 0⟩
        ⟨fin 0, ⟨fin 0, fin 0, fin 0⟩, ⟨fin 0, fin 0, fin 0⟩, fin 0, fin 0, 0⟩).ret = true ∧
      (YZRect.Hit ⟨fin 0, fin 1, fin 0, fin 1, fin 2, 7⟩ (fin (1 / 1000))
        ⟨⟨fin 2, fin 9, fin 9⟩, ⟨fin 0, fin 0, fin 1⟩, fin 50, fin 0⟩
        ⟨fin 0, ⟨fin 0, fin 0, fin 0⟩, ⟨fin 0, fin 0, fin 0⟩, fin 0, fin 0, 0⟩).record.p.x ≠
        fin 2) ∧
    (((⟨0, 1, 0, 1, 1, 7⟩ : Generic.YZRect (FP binary32)).Hit 0.001
        ⟨⟨0, 0.5, 0.5⟩, ⟨41, 0, 0⟩, .pinf, 0⟩ ⟨0, ⟨0, 0, 0⟩, ⟨0, 0, 0⟩, 0, 0, 0⟩).ret = true ∧
      ((⟨0, 1, 0, 1, 1, 7⟩ : Generic.YZRect (FP binary32)).Hit 0.001
        ⟨⟨0, 0.5, 0.5⟩, ⟨41, 0, 0⟩, .pinf, 0⟩
        ⟨0, ⟨0, 0, 0⟩, ⟨0, 0, 0⟩, 0, 0, 0⟩).record.p.x = .fin 16777215 (-24) ∧
      ((⟨0, 1, 0, 1, 1, 7⟩ : Generic.YZRect (FP binary32)).Hit 0.001
        ⟨⟨0, 0.5, 0.5⟩, ⟨41, 0, 0⟩, .pinf, 0⟩
        ⟨0, ⟨0, 0, 0⟩, ⟨0, 0, 0⟩, 0, 0, 0⟩).record.p.x ≠ 1) := by
  refine ⟨⟨?_, ?_⟩, by decide⟩ <;> simp [YZRect.Hit, Ray.at, fin_div_fin]

/-! ## C4: a miss leaves the record untouched -/

/-- C4: for every YZRect, ray and incoming hit record (special values included), when
`YZRect::Hit` returns false the hit record after the call is the record before the call,
field for field. -/
theorem YZRect_Hit_false_leaves_record (self : YZRect) (ShadowEpsilon : Float) (ray : Ray)
    (record : HitRecord) (h : (self.Hit ShadowEpsilon ray record).ret = false) :
    (self.Hit ShadowEpsilon ray record).record = record ∧
      (self.Hit ShadowEpsilon ray record).record.t = record.t ∧
      (self.Hit ShadowEpsilon ray record).record.p = record.p ∧
      (self.Hit ShadowEpsilon ray record).record.normal = record.normal ∧
      (self.Hit ShadowEpsilon ray record).record.u = record.u ∧
      (self.Hit ShadowEpsilon ray record).record.v = record.v ∧
      (self.Hit ShadowEpsilon ray record).record.mat = record.mat := by
  have key : (self.Hit ShadowEpsilon ray record).record = record := by
    unfold YZRect.Hit at h ⊢
    simp only at h ⊢
    split_ifs at h ⊢ <;> rfl
  rw [key]
  exact ⟨rfl, rfl, rfl, rfl, rfl, rfl, rfl⟩

/-- Witness of C4: a ray that crosses the plane `x = 0` outside the unit square; the record
handed in comes back unchanged. -/
theorem YZRect_Hit_false_leaves_record_witness :
    (YZRect.Hit ⟨fin 0, fin 1, fin 0, fin 1, fin 0, 7⟩ (fin (1 / 1000))
        ⟨⟨fin (-1), fin 5, fin 5⟩, ⟨fin 1, fin 0, fin 0⟩, pinf, fin 0⟩
        ⟨fin 4, ⟨fin 1, fin 2, fin 3⟩, ⟨fin 0, fin 1, fin 0⟩, fin (1 / 3), fin (2 / 3),
          9⟩).record.t = fin 4 :=
  (YZRect_Hit_false_leaves_record ⟨fin 0, fin 1, fin 0, fin 1, fin 0, 7⟩ (fin (1 / 1000))
    ⟨⟨fin (-1), fin 5, fin 5⟩, ⟨fin 1, fin 0, fin 0⟩, pinf, fin 0⟩
    ⟨fin 4, ⟨fin 1, fin 2, fin 3⟩, ⟨fin 0, fin 1, fin 0⟩, fin (1 / 3), fin (2 / 3), 9⟩
    (by norm_num [YZRect.Hit, Ray.at, fin_div_fin])).2.1

/-! ## C5: the recorded normal -/

/-- C5 (as amended): for every YZRect with finite bounds, `ShadowEpsilon > 0` and every ray
with finite origin and direction whose direction has `d.x ≠ 0`, whenever `YZRect::Hit`
returns true the recorded normal is `(-1,0,0)` when the ray origin has `x < k` and
`(1,0,0)` when it has `x > k` (one of the two is the case), and
`Dot(rec.normal, ray.d) < 0`. -/
theorem YZRect_Hit_normal_faces_origin (y0 y1 z0 z1 k eps ox oy oz dx dy dz : ℚ)
    (mat : MaterialPtr) (tMax time : Float) (record : HitRecord) (heps : 0 < eps)
    (hdx : dx ≠ 0)
    (h : (YZRect.Hit ⟨fin y0, fin y1, fin z0, fin z1, fin k, mat⟩ (fin eps)
      ⟨⟨fin ox, fin oy, fin oz⟩, ⟨fin dx, fin dy, fin dz⟩, tMax, time⟩ record).ret = true) :
    (ox < k →
      (YZRect.Hit ⟨fin y0, fin y1, fin z0, fin z1, fin k, mat⟩ (fin eps)
        ⟨⟨fin ox, fin oy, fin oz⟩, ⟨fin dx, fin dy, fin dz⟩, tMax, time⟩ record).record.normal =
        ⟨fin (-1), fin 0, fin 0⟩) ∧
    (k < ox →
      (YZRect.Hit ⟨fin y0, fin y1, fin z0, fin z1, fin k, mat⟩ (fin eps)
        ⟨⟨fin ox, fin oy, fin oz⟩, ⟨fin dx, fin dy, fin dz⟩, tMax, time⟩ record).record.normal =
        ⟨fin 1, fin 0, fin 0⟩) ∧
    ox ≠ k ∧
    Normal3.Dot
      (YZRect.Hit ⟨fin y0, fin y1, fin z0, fin z1, fin k, mat⟩ (fin eps)
        ⟨⟨fin ox, fin oy, fin oz⟩, ⟨fin dx, fin dy, fin dz⟩, tMax, time⟩ record).record.normal
      ⟨fin dx, fin dy, fin dz⟩ < (0 : Float) := by
  obtain ⟨ht, -, -, -, -, -, hrec⟩ :=
    YZRect.Hit_fin_of_ret y0 y1 z0 z1 k eps ox oy oz dx dy dz mat tMax time record hdx h
  rw [hrec]
  have htpos : 0 < (k - ox) / dx := lt_trans heps ht
  have hne : ox ≠ k := by
    rintro rfl
    simp at htpos
  rcases lt_or_gt_of_ne hne with hlt | hgt
  · have hdxpos : 0 < dx := by
      rcases div_pos_iff.1 htpos with ⟨_, h2⟩ | ⟨h1, _⟩
      · exact h2
      · linarith
    refine ⟨fun _ => by simp [hlt], fun h' => absurd hlt (not_lt.2 h'.le), hne, ?_⟩
    simp only [if_pos hlt, Normal3.Dot, fin_mul_fin, fin_add_fin, zero_def, fin_lt_fin]
    linarith
  · have hdxneg : dx < 0 := by
      rcases div_pos_iff.1 htpos with ⟨h1, _⟩ | ⟨_, h2⟩
      · linarith
      · exact h2
    have hnlt : ¬ ox < k := not_lt.2 (le_of_lt hgt)
    refine ⟨fun h' => absurd h' hnlt, fun _ => by simp [hnlt], hne, ?_⟩
    simp only [if_neg hnlt, Normal3.Dot, fin_mul_fin, fin_add_fin, zero_def, fin_lt_fin]
    linarith

/-- Witness of C5 (as amended): a ray coming from the side `x > k` of the plane `x = 0`. -/
theorem YZRect_Hit_normal_faces_origin_witness :
    (YZRect.Hit ⟨fin 0, fin 1, fin 0, fin 1, fin 0, 7⟩ (fin (1 / 1000))
        ⟨⟨fin 2, fin (1 / 2), fin (1 / 2)⟩, ⟨fin (-1), fin 0, fin 0⟩, pinf, fin 0⟩
        ⟨fin 0, ⟨fin 0, fin 0, fin 0⟩, ⟨fin 0, fin 0, fin 0⟩, fin 0, fin 0, 0⟩).record.normal =
      ⟨fin 1, fin 0, fin 0⟩ :=
  (YZRect_Hit_normal_faces_origin 0 1 0 1 0 (1 / 1000) 2 (1 / 2) (1 / 2) (-1) 0 0 7 pinf
    (fin 0) ⟨fin 0, ⟨fin 0, fin 0, fin 0⟩, ⟨fin 0, fin 0, fin 0⟩, fin 0, fin 0, 0⟩
    (by norm_num) (by norm_num)
    (by norm_num [YZRect.Hit, Ray.at, fin_div_fin])).2.1 (by norm_num)

/-- C5 as stated fails: for the ray from `(0, 1/2, -3)` in direction `(0, 0, 1)`, lying in
the plane `x = 0` of the unit square, `YZRect::Hit` returns true with normal `(1,0,0)`,
and `Dot(rec.normal, ray.d) = 0`, which is not negative. -/
theorem YZRect_Hit_normal_faces_origin_counterexample :
    (YZRect.Hit ⟨fin 0, fin 1, fin 0, fin 1, fin 0, 7⟩ (fin (1 / 1000))
        ⟨⟨fin 0, fin (1 / 2), fin (-3)⟩, ⟨fin 0, fin 0, fin 1⟩, pinf, fin 0⟩
        ⟨fin 0, ⟨fin 0, fin 0, fin 0⟩, ⟨fin 0, fin 0, fin 0⟩, fin 0, fin 0, 0⟩).ret = true ∧
      ¬ Normal3.Dot
        (YZRect.Hit ⟨fin 0, fin 1, fin 0, fin 1, fin 0, 7⟩ (fin (1 / 1000))
          ⟨⟨fin 0, fin (1 / 2), fin (-3)⟩, ⟨fin 0, fin 0, fin 1⟩, pinf, fin 0⟩
          ⟨fin 0, ⟨fin 0, fin 0, fin 0⟩, ⟨fin 0, fin 0, fin 0⟩, fin 0, fin 0, 0⟩).record.normal
        ⟨fin 0, fin 0, fin 1⟩ < (0 : Float) := by
  constructor <;> simp [YZRect.Hit, Ray.at, fin_div_fin, Normal3.Dot]

/-! ## C6: the constructor orders the bounds -/

section GenericBox
variable {T : Type} [Zero T] [One T] [Add T] [Sub T] [Mul T] [Div T] [Neg T] [LT T] [LE T]
  [∀ a b : T, Decidable (a < b)] [∀ a b : T, Decidable (a ≤ b)]

end GenericBox

/-- C8: for Vector2, Vector3, Point2, Point3 and Normal3, `operator/` and `operator/=` by a
scalar `f` trap if and only if `f` is exactly zero; for every non-zero `f` they succeed and
yield each component multiplied by `1/f`. -/
theorem scalar_division_traps_iff_zero {T : Type} [Zero T] [One T] [Mul T] [Div T]
    [DecidableEq T] (f : T) (v2 : Vector2 T) (v3 : Vector3 T) (p2 : Point2 T)
    (p3 : Point3 T) (n3 : Normal3 T) :
    ((v2.div f = none ↔ f = 0) ∧ (v2.divAssign f = none ↔ f = 0) ∧
      (v3.div f = none ↔ f = 0) ∧ (v3.divAssign f = none ↔ f = 0) ∧
      (p2.div f = none ↔ f = 0) ∧ (p2.divAssign f = none ↔ f = 0) ∧
      (p3.div f = none ↔ f = 0) ∧ (p3.divAssign f = none ↔ f = 0) ∧
      (n3.div f = none ↔ f = 0) ∧ (n3.divAssign f = none ↔ f = 0)) ∧
    (f ≠ 0 →
      v2.div f = some ⟨v2.x * (1 / f), v2.y * (1 / f)⟩ ∧
      v2.divAssign f = some ⟨v2.x * (1 / f), v2.y * (1 / f)⟩ ∧
      v3.div f = some ⟨v3.x * (1 / f), v3.y * (1 / f), v3.z * (1 / f)⟩ ∧
      v3.divAssign f = some ⟨v3.x * (1 / f), v3.y * (1 / f), v3.z * (1 / f)⟩ ∧
      p2.div f = some ⟨1 / f * p2.x, 1 / f * p2.y⟩ ∧
      p2.divAssign f = some ⟨p2.x * (1 / f), p2.y * (1 / f)⟩ ∧
      p3.div f = some ⟨1 / f * p3.x, 1 / f * p3.y, 1 / f * p3.z⟩ ∧
      p3.divAssign f = some ⟨p3.x * (1 / f), p3.y * (1 / f), p3.z * (1 / f)⟩ ∧
      n3.div f = some ⟨n3.x * (1 / f), n3.y * (1 / f), n3.z * (1 / f)⟩ ∧
      n3.divAssign f = some ⟨n3.x * (1 / f), n3.y * (1 / f), n3.z * (1 / f)⟩) := by
  constructor
  · by_cases hf : f = 0 <;>
      simp [Vector2.div, Vector2.divAssign, Vector3.div, Vector3.divAssign, Point2.div,
        Point2.divAssign, Point3.div, Point3.divAssign, Normal3.div, Normal3.divAssign, hf]
  · intro hf
    simp [Vector2.div, Vector2.divAssign, Vector3.div, Vector3.divAssign, Point2.div,
      Point2.divAssign, Point3.div, Point3.divAssign, Normal3.div, Normal3.divAssign, hf]

/-- Witness of C8: halving the vector `(2, 4, 6)` over the rationals. -/
theorem scalar_division_traps_iff_zero_witness :
    (Vector3.mk (2 : ℚ) 4 6).div 2 = some ⟨2 * (1 / 2), 4 * (1 / 2), 6 * (1 / 2)⟩ :=
  ((scalar_division_traps_iff_zero (2 : ℚ) ⟨2, 4⟩ ⟨2, 4, 6⟩ ⟨2, 4⟩ ⟨2, 4, 6⟩ ⟨2, 4, 6⟩).2
    (by norm_num)).2.2.1

/-! ## C9: `Normalize` -/

section Exact
variable {K : Type} [LinearOrderedField K]

/-- A vector with a non-zero component has a positive squared length. -/
theorem sq_sum3_pos {x y z : K} (h : x ≠ 0 ∨ y ≠ 0 ∨ z ≠ 0) : 0 < x * x + y * y + z * z := by
  rcases h with h | h | h
  · have := mul_self_pos.2 h
    nlinarith [mul_self_nonneg y, mul_self_nonneg z]
  · have := mul_self_pos.2 h
    nlinarith [mul_self_nonneg x, mul_self_nonneg z]
  · have := mul_self_pos.2 h
    nlinarith [mul_self_nonneg x, mul_self_nonneg y]

/-- The square root of a positive number is positive. -/
theorem IsSqrt.pos {sqrt : K → K} (hs : IsSqrt sqrt) {x : K} (hx : 0 < x) : 0 < sqrt x := by
  obtain ⟨h0, h1⟩ := hs x hx.le
  rcases h0.eq_or_lt with h | h
  · rw [← h, mul_zero] at h1
    exact absurd h1 hx.ne
  · exact h

/-- The square root of one is one. -/
theorem IsSqrt.one {sqrt : K → K} (hs : IsSqrt sqrt) : sqrt 1 = 1 := by
  obtain ⟨h0, h1⟩ := hs 1 zero_le_one
  have hpos := hs.pos (zero_lt_one : (0 : K) < 1)
  nlinarith

/-- Scaling `(x, y, z)` by the inverse of its length gives squared length one. -/
theorem scaled_sq_sum3 {x y z s : K} (hs0 : s ≠ 0) (hss : s * s = x * x + y * y + z * z) :
    x * (1 / s) * (x * (1 / s)) + y * (1 / s) * (y * (1 / s)) + z * (1 / s) * (z * (1 / s)) =
      1 := by
  field_simp
  linear_combination -hss

/-- Scaling `(x, y)` by the inverse of its length gives squared length one. -/
theorem scaled_sq_sum2 {x y s : K} (hs0 : s ≠ 0) (hss : s * s = x * x + y * y) :
    x * (1 / s) * (x * (1 / s)) + y * (1 / s) * (y * (1 / s)) = 1 := by
  field_simp
  linear_combination -hss

/-- C9: for every non-zero vector `v` (Vector3, Vector2 or Normal3 over a scalar field with
an exact square root), `Normalize(v)` succeeds, has `LengthSquared` and `Length` exactly 1,
and is a positive scalar multiple of `v`. -/
theorem Normalize_unit_length (sqrt : K → K) (hs : IsSqrt sqrt) (v : Vector3 K)
    (w : Vector2 K) (n : Normal3 K) :
    (v ≠ ⟨0, 0, 0⟩ →
      ∃ r, v.Normalize sqrt = some r ∧ r.LengthSquared = 1 ∧ r.Length sqrt = 1 ∧
        ∃ c, 0 < c ∧ r = ⟨c * v.x, c * v.y, c * v.z⟩) ∧
    (w ≠ ⟨0, 0⟩ →
      ∃ r, w.Normalize sqrt = some r ∧ r.LengthSquared = 1 ∧ r.Length sqrt = 1 ∧
        ∃ c, 0 < c ∧ r = ⟨c * w.x, c * w.y⟩) ∧
    (n ≠ ⟨0, 0, 0⟩ →
      ∃ r, n.Normalize sqrt = some r ∧ r.LengthSquared = 1 ∧ r.Length sqrt = 1 ∧
        ∃ c, 0 < c ∧ r = ⟨c * n.x, c * n.y, c * n.z⟩) := by
  refine ⟨fun hv => ?_, fun hw => ?_, fun hn => ?_⟩
  · obtain ⟨x, y, z⟩ := v
    have hne : x ≠ 0 ∨ y ≠ 0 ∨ z ≠ 0 := by
      by_contra hcon
      push_neg at hcon
      exact hv (by rw [hcon.1, hcon.2.1, hcon.2.2])
    have hpos := sq_sum3_pos hne
    have hlen := hs.pos hpos
    have hsq := (hs _ hpos.le).2
    have hunit := scaled_sq_sum3 hlen.ne.symm hsq
    refine ⟨⟨x * (1 / sqrt (x * x + y * y + z * z)), y * (1 / sqrt (x * x + y * y + z * z)),
      z * (1 / sqrt (x * x + y * y + z * z))⟩, ?_, hunit, ?_,
      1 / sqrt (x * x + y * y + z * z), one_div_pos.2 hlen, ?_⟩
    · simp [Vector3.Normalize, Vector3.div, Vector3.Length, Vector3.LengthSquared, hlen.ne.symm]
    · simp only [Vector3.Length, Vector3.LengthSquared]
      rw [hunit, hs.one]
    · simp only [mul_comm]
  · obtain ⟨x, y⟩ := w
    have hne : x ≠ 0 ∨ y ≠ 0 ∨ (0 : K) ≠ 0 := by
      by_contra hcon
      push_neg at hcon
      exact hw (by rw [hcon.1, hcon.2.1])
    have hpos := sq_sum3_pos hne
    rw [mul_zero, add_zero] at hpos
    have hlen := hs.pos hpos
    have hsq := (hs _ hpos.le).2
    have hunit := scaled_sq_sum2 hlen.ne.symm hsq
    refine ⟨⟨x * (1 / sqrt (x * x + y * y)), y * (1 / sqrt (x * x + y * y))⟩, ?_, hunit, ?_,
      1 / sqrt (x * x + y * y), one_div_pos.2 hlen, ?_⟩
    · simp [Vector2.Normalize, Vector2.div, Vector2.Length, Vector2.LengthSquared, hlen.ne.symm]
    · simp only [Vector2.Length, Vector2.LengthSquared]
      rw [hunit, hs.one]
    · simp only [mul_comm]
  · obtain ⟨x, y, z⟩ := n
    have hne : x ≠ 0 ∨ y ≠ 0 ∨ z ≠ 0 := by
      by_contra hcon
      push_neg at hcon
      exact hn (by rw [hcon.1, hcon.2.1, hcon.2.2])
    have hpos := sq_sum3_pos hne
    have hlen := hs.pos hpos
    have hsq := (hs _ hpos.le).2
    have hunit := scaled_sq_sum3 hlen.ne.symm hsq
    refine ⟨⟨x * (1 / sqrt (x * x + y * y + z * z)), y * (1 / sqrt (x * x + y * y + z * z)),
      z * (1 / sqrt (x * x + y * y + z * z))⟩, ?_, hunit, ?_,
      1 / sqrt (x * x + y * y + z * z), one_div_pos.2 hlen, ?_⟩
    · simp [Normal3.Normalize, Normal3.div, Normal3.Length, Normal3.LengthSquared, hlen.ne.symm]
    · simp only [Normal3.Length, Normal3.LengthSquared]
      rw [hunit, hs.one]
    · simp only [mul_comm]

end Exact

/-- The real square root meets the specification of `std::sqrt`. -/
theorem isSqrt_real : IsSqrt Real.sqrt :=
  fun x hx => ⟨Real.sqrt_nonneg x, Real.mul_self_sqrt hx⟩

/-- Witness of C9: the vector `(3, 4, 0)` over the reals, with the real square root. -/
theorem Normalize_unit_length_witness :
    ∃ r, (Vector3.mk (3 : ℝ) 4 0).Normalize Real.sqrt = some r ∧ r.LengthSquared = 1 ∧
      r.Length Real.sqrt = 1 ∧ ∃ c, 0 < c ∧ r = ⟨c * 3, c * 4, c * 0⟩ :=
  (Normalize_unit_length Real.sqrt isSqrt_real ⟨3, 4, 0⟩ ⟨3, 4⟩ ⟨3, 4, 0⟩).1
    (by simp)

/-! ## C10: `CoordinateSystem` -/

section Basis
variable {K : Type} [LinearOrderedField K]

/-- C10 (as amended): in exact arithmetic, that is over every linearly ordered field of
scalars with an exact square root, for every unit-length vector `v1`,
`CoordinateSystem(v1, &v2, &v3)` succeeds and produces `v2` and `v3` such that
`(v1, v2, v3)` is an orthonormal basis: `v2` and `v3` have length 1 and
`Dot(v1,v2) = Dot(v1,v3) = Dot(v2,v3) = 0`. -/
theorem CoordinateSystem_orthonormal (sqrt : K → K) (hs : IsSqrt sqrt) (v1 : Vector3 K)
    (h1 : v1.Length sqrt = 1) :
    ∃ v2 v3, CoordinateSystem sqrt v1 = some (v2, v3) ∧
      v2.Length sqrt = 1 ∧ v3.Length sqrt = 1 ∧
      v2.LengthSquared = 1 ∧ v3.LengthSquared = 1 ∧
      Vector3.Dot v1 v2 = 0 ∧ Vector3.Dot v1 v3 = 0 ∧ Vector3.Dot v2 v3 = 0 := by
  obtain ⟨x, y, z⟩ := v1
  have hnn : 0 ≤ x * x + y * y + z * z := by
    nlinarith [mul_self_nonneg x, mul_self_nonneg y, mul_self_nonneg z]
  have hunit : x * x + y * y + z * z = 1 := by
    have h := (hs _ hnn).2
    simp only [Vector3.Length, Vector3.LengthSquared] at h1
    rw [h1] at h
    linarith
  by_cases hxy : |x| > |y|
  · have hx : x ≠ 0 := by
      rintro rfl
      simp at hxy
      exact absurd hxy (not_lt.2 (abs_nonneg y))
    have hpos : 0 < x * x + z * z := by
      have := mul_self_pos.2 hx
      nlinarith [mul_self_nonneg z]
    have hlen := hs.pos hpos
    have hsq := (hs _ hpos.le).2
    have hs0 := hlen.ne.symm
    set s := sqrt (x * x + z * z) with hsdef
    have hc : 1 / s * (1 / s) * (x * x + z * z) = 1 := by
      rw [← hsq]
      field_simp
    have hL2 : (Vector3.mk (-z * (1 / s)) (0 * (1 / s)) (x * (1 / s))).LengthSquared = 1 := by
      simp only [Vector3.LengthSquared]
      linear_combination hc
    have hL3 : (Vector3.Cross ⟨x, y, z⟩
        (Vector3.mk (-z * (1 / s)) (0 * (1 / s)) (x * (1 / s)))).LengthSquared = 1 := by
      simp only [Vector3.LengthSquared, Vector3.Cross]
      linear_combination (x * x + y * y + z * z) * hc + hunit
    refine ⟨⟨-z * (1 / s), 0 * (1 / s), x * (1 / s)⟩,
      Vector3.Cross ⟨x, y, z⟩ ⟨-z * (1 / s), 0 * (1 / s), x * (1 / s)⟩, ?_, ?_, ?_, hL2, hL3,
      ?_, ?_, ?_⟩
    · simp only [CoordinateSystem, if_pos hxy, Vector3.div, ← hsdef, if_neg hs0]
    · simp only [Vector3.Length]
      rw [hL2, hs.one]
    · simp only [Vector3.Length]
      rw [hL3, hs.one]
    · simp only [Vector3.Dot]
      ring
    · simp only [Vector3.Dot, Vector3.Cross]
      ring
    · simp only [Vector3.Dot, Vector3.Cross]
      ring
  · have hpos : 0 < y * y + z * z := by
      rcases eq_or_ne y 0 with hy | hy
      · have hx0 : x = 0 := by
          rw [hy] at hxy
          simp at hxy
          exact hxy
        have hz : z * z = 1 := by
          rw [hx0, hy] at hunit
          linarith
        rw [hy, hz]
        norm_num
      · have := mul_self_pos.2 hy
        nlinarith [mul_self_nonneg z]
    have hlen := hs.pos hpos
    have hsq := (hs _ hpos.le).2
    have hs0 := hlen.ne.symm
    set s := sqrt (y * y + z * z) with hsdef
    have hc : 1 / s * (1 / s) * (y * y + z * z) = 1 := by
      rw [← hsq]
      field_simp
    have hL2 : (Vector3.mk (0 * (1 / s)) (z * (1 / s)) (-y * (1 / s))).LengthSquared = 1 := by
      simp only [Vector3.LengthSquared]
      linear_combination hc
    have hL3 : (Vector3.Cross ⟨x, y, z⟩
        (Vector3.mk (0 * (1 / s)) (z * (1 / s)) (-y * (1 / s)))).LengthSquared = 1 := by
      simp only [Vector3.LengthSquared, Vector3.Cross]
      linear_combination (x * x + y * y + z * z) * hc + hunit
    refine ⟨⟨0 * (1 / s), z * (1 / s), -y * (1 / s)⟩,
      Vector3.Cross ⟨x, y, z⟩ ⟨0 * (1 / s), z * (1 / s), -y * (1 / s)⟩, ?_, ?_, ?_, hL2, hL3,
      ?_, ?_, ?_⟩
    · simp only [CoordinateSystem, if_neg hxy, Vector3.div, ← hsdef, if_neg hs0]
    · simp only [Vector3.Length]
      rw [hL2, hs.one]
    · simp only [Vector3.Length]
      rw [hL3, hs.one]
    · simp only [Vector3.Dot]
      ring
    · simp only [Vector3.Dot, Vector3.Cross]
      ring
    · simp only [Vector3.Dot, Vector3.Cross]
      ring

end Basis

/-- Witness of C10 (as amended): the unit vector `(0, 0, 1)` over the reals, with the real
square root. -/
theorem CoordinateSystem_orthonormal_witness :
    ∃ v2 v3, CoordinateSystem Real.sqrt (Vector3.mk (0 : ℝ) 0 1) = some (v2, v3) ∧
      v2.Length Real.sqrt = 1 ∧ v3.Length Real.sqrt = 1 ∧
      v2.LengthSquared = 1 ∧ v3.LengthSquared = 1 ∧
      Vector3.Dot ⟨0, 0, 1⟩ v2 = 0 ∧ Vector3.Dot ⟨0, 0, 1⟩ v3 = 0 ∧ Vector3.Dot v2 v3 = 0 :=
  CoordinateSystem_orthonormal Real.sqrt isSqrt_real ⟨0, 0, 1⟩
    (by simp [Vector3.Length, Vector3.LengthSquared])

/-- In exact arithmetic `*v2` is the value of the first statement over the scalar field. -/
theorem CoordinateSystem.eq_first {K : Type} [LinearOrderedField K] (sqrt : K → K)
    (v1 : Vector3 K) :
    CoordinateSystem sqrt v1 =
      match CoordinateSystem.first (fun x => |x|) sqrt v1 with
      | none => none
      | some v2 => some (v2, Vector3.Cross v1 v2) := rfl

/-- C10 as stated fails in binary32.  The vector `v1 = (1/3, 2/3, 2/3)` as rounded, that is
`(0.33333334, 0.6666667, 0.6666667)`, has computed length exactly 1.  `CoordinateSystem`
writes `v2 = (0, 0.70710677, -0.70710677)`, whose computed length is `0.99999994` (that is
`16777215 * 2^-24`), not 1; nor is its exact squared length 1. -/
theorem CoordinateSystem_orthonormal_counterexample :
    Vector3.Length FP.sqrt (⟨1 / 3, 2 / 3, 2 / 3⟩ : Vector3 (FP binary32)) = 1 ∧
    CoordinateSystem.first FP.abs FP.sqrt (⟨1 / 3, 2 / 3, 2 / 3⟩ : Vector3 (FP binary32)) =
      some ⟨0, .fin 11863283 (-24), .fin (-11863283) (-24)⟩ ∧
    Vector3.Length FP.sqrt
        (⟨0, .fin 11863283 (-24), .fin (-11863283) (-24)⟩ : Vector3 (FP binary32)) =
      .fin 16777215 (-24) ∧
    Vector3.Length FP.sqrt
        (⟨0, .fin 11863283 (-24), .fin (-11863283) (-24)⟩ : Vector3 (FP binary32)) ≠ 1 ∧
    Vector3.LengthSquared
        (⟨FP.toRat (0 : FP binary32), FP.toRat (.fin 11863283 (-24) : FP binary32),
          FP.toRat (.fin (-11863283) (-24) : FP binary32)⟩ : Vector3 ℚ) ≠ 1 := by
  refine ⟨by decide, by decide, by decide, by decide, ?_⟩
  simp only [Vector3.LengthSquared, FP.toRat]
  norm_num

/-! ## C19: points and vectors -/

@[simp] theorem Point2.addVector_x {T : Type} [Add T] (p : Point2 T) (v : Vector2 T) :
    (p + v).x = p.x + v.x := rfl

@[simp] theorem Point2.addVector_y {T : Type} [Add T] (p : Point2 T) (v : Vector2 T) :
    (p + v).y = p.y + v.y := rfl

/-- C19: in exact arithmetic (any commutative additive group of scalars), for all points
`p`, `q` and every vector `w`, for Point3 and for Point2: `(p + w) - (q + w) = p - q`,
`(p + w) - p = w` and `(p + w) - w = p`. -/
theorem point_vector_translation {T : Type} [AddCommGroup T] (p q : Point3 T) (w : Vector3 T)
    (p2 q2 : Point2 T) (w2 : Vector2 T) :
    ((p + w) - (q + w) = p - q ∧ (p + w) - p = w ∧ (p + w) - w = p) ∧
      ((p2 + w2) - (q2 + w2) = p2 - q2 ∧ (p2 + w2) - p2 = w2 ∧ (p2 + w2) - w2 = p2) := by
  obtain ⟨px, py, pz⟩ := p
  obtain ⟨qx, qy, qz⟩ := q
  obtain ⟨wx, wy, wz⟩ := w
  obtain ⟨ax, ay⟩ := p2
  obtain ⟨bx, by'⟩ := q2
  obtain ⟨cx, cy⟩ := w2
  refine ⟨⟨?_, ?_, ?_⟩, ⟨?_, ?_, ?_⟩⟩
  · show Vector3.mk _ _ _ = Vector3.mk _ _ _
    simp only [Point3.add_x, Point3.add_y, Point3.add_z, Point2.addVector_x, Point2.addVector_y,
      add_sub_add_right_eq_sub]
  · show Vector3.mk _ _ _ = Vector3.mk _ _ _
    simp only [Point3.add_x, Point3.add_y, Point3.add_z, Point2.addVector_x, Point2.addVector_y,
      add_sub_cancel_left]
  · show Point3.mk _ _ _ = Point3.mk _ _ _
    simp only [Point3.add_x, Point3.add_y, Point3.add_z, Point2.addVector_x, Point2.addVector_y,
      add_sub_cancel_right]
  · show Vector2.mk _ _ = Vector2.mk _ _
    simp only [Point3.add_x, Point3.add_y, Point3.add_z, Point2.addVector_x, Point2.addVector_y,
      add_sub_add_right_eq_sub]
  · show Vector2.mk _ _ = Vector2.mk _ _
    simp only [Point3.add_x, Point3.add_y, Point3.add_z, Point2.addVector_x, Point2.addVector_y,
      add_sub_cancel_left]
  · show Point2.mk _ _ = Point2.mk _ _
    simp only [Point3.add_x, Point3.add_y, Point3.add_z, Point2.addVector_x, Point2.addVector_y,
      add_sub_cancel_right]

/-! ## C20: component access by index -/

/-- C20: in a debug build, for Vector3, Point3 and Normal3 `operator[](i)` returns `x`,
`y`, `z` for `i = 0, 1, 2` and fails for every other `i`; for Vector2 and Point2 it returns
`x`, `y` for `i = 0, 1` and fails for every other `i`. -/
theorem index_returns_component {T : Type} (v3 : Vector3 T) (p3 : Point3 T) (n3 : Normal3 T)
    (v2 : Vector2 T) (p2 : Point2 T) (i : ℤ) :
    (v3.index 0 = some v3.x ∧ v3.index 1 = some v3.y ∧ v3.index 2 = some v3.z ∧
      (v3.index i = none ↔ i ≠ 0 ∧ i ≠ 1 ∧ i ≠ 2)) ∧
    (p3.index 0 = some p3.x ∧ p3.index 1 = some p3.y ∧ p3.index 2 = some p3.z ∧
      (p3.index i = none ↔ i ≠ 0 ∧ i ≠ 1 ∧ i ≠ 2)) ∧
    (n3.index 0 = some n3.x ∧ n3.index 1 = some n3.y ∧ n3.index 2 = some n3.z ∧
      (n3.index i = none ↔ i ≠ 0 ∧ i ≠ 1 ∧ i ≠ 2)) ∧
    (v2.index 0 = some v2.x ∧ v2.index 1 = some v2.y ∧
      (v2.index i = none ↔ i ≠ 0 ∧ i ≠ 1)) ∧
    (p2.index 0 = some p2.x ∧ p2.index 1 = some p2.y ∧
      (p2.index i = none ↔ i ≠ 0 ∧ i ≠ 1)) := by
  have h3 : ¬ (i ≥ 0 ∧ i ≤ 2) ↔ i ≠ 0 ∧ i ≠ 1 ∧ i ≠ 2 := by omega
  have h2 : ¬ (i ≥ 0 ∧ i ≤ 1) ↔ i ≠ 0 ∧ i ≠ 1 := by omega
  refine ⟨⟨rfl, rfl, rfl, ?_⟩, ⟨rfl, rfl, rfl, ?_⟩, ⟨rfl, rfl, rfl, ?_⟩, ⟨rfl, rfl, ?_⟩,
    ⟨rfl, rfl, ?_⟩⟩
  · unfold Vector3.index
    split_ifs <;> simp_all
  · unfold Point3.index
    split_ifs <;> simp_all
  · unfold Normal3.index
    split_ifs <;> simp_all
  · unfold Vector2.index
    split_ifs <;> simp_all
  · unfold Point2.index
    split_ifs <;> simp_all

/-! ## C18: the NaN assertions of a debug build -/

/-- C18 (as amended): in a debug build, every constructor of Vector2, Vector3, Point2,
Point3 and Normal3 that takes components asserts that the constructed value has no NaN
component; every assignment, `+=` and `-=` asserts that its operand has no NaN component;
and `*=` of Vector2 and Vector3 asserts that the scalar is not NaN. -/
theorem debug_assertions_reject_NaN {T : Type} [IsNaN T] [Add T] [Sub T] [Mul T]
    (x y z f : T) (v2 w2 : Vector2 T) (v3 w3 : Vector3 T) (p2 q2 : Point2 T)
    (p3 q3 : Point3 T) (n3 m3 : Normal3 T) :
    ((Vector2.newDbg x y = none ↔ (Vector2.mk x y).HasNaNs = true) ∧
      (Vector3.newDbg x y z = none ↔ (Vector3.mk x y z).HasNaNs = true) ∧
      (Point2.newDbg x y = none ↔ (Point2.mk x y).HasNaNs = true) ∧
      (Point3.newDbg x y z = none ↔ (Point3.mk x y z).HasNaNs = true) ∧
      (Normal3.newDbg x y z = none ↔ (Normal3.mk x y z).HasNaNs = true)) ∧
    ((∀ r, Vector2.newDbg x y = some r → r = ⟨x, y⟩ ∧ r.HasNaNs = false) ∧
      (∀ r, Vector3.newDbg x y z = some r → r = ⟨x, y, z⟩ ∧ r.HasNaNs = false) ∧
      (∀ r, Point2.newDbg x y = some r → r = ⟨x, y⟩ ∧ r.HasNaNs = false) ∧
      (∀ r, Point3.newDbg x y z = some r → r = ⟨x, y, z⟩ ∧ r.HasNaNs = false) ∧
      (∀ r, Normal3.newDbg x y z = some r → r = ⟨x, y, z⟩ ∧ r.HasNaNs = false)) ∧
    ((v2.assignDbg w2 = none ↔ w2.HasNaNs = true) ∧
      (v3.assignDbg w3 = none ↔ w3.HasNaNs = true) ∧
      (p2.assignDbg q2 = none ↔ q2.HasNaNs = true) ∧
      (p3.assignDbg q3 = none ↔ q3.HasNaNs = true) ∧
      (n3.assignDbg m3 = none ↔ m3.HasNaNs = true)) ∧
    ((v2.addAssignDbg w2 = none ↔ w2.HasNaNs = true) ∧
      (v3.addAssignDbg w3 = none ↔ w3.HasNaNs = true) ∧
      (p2.addAssignDbg w2 = none ↔ w2.HasNaNs = true) ∧
      (p2.addAssignPointDbg q2 = none ↔ q2.HasNaNs = true) ∧
      (p3.addAssignDbg w3 = none ↔ w3.HasNaNs = true) ∧
      (p3.addAssignPointDbg q3 = none ↔ q3.HasNaNs = true) ∧
      (n3.addAssignDbg m3 = none ↔ m3.HasNaNs = true)) ∧
    ((v2.subAssignDbg w2 = none ↔ w2.HasNaNs = true) ∧
      (v3.subAssignDbg w3 = none ↔ w3.HasNaNs = true) ∧
      (p2.subAssignDbg w2 = none ↔ w2.HasNaNs = true) ∧
      (p3.subAssignDbg w3 = none ↔ w3.HasNaNs = true) ∧
      (n3.subAssignDbg m3 = none ↔ m3.HasNaNs = true)) ∧
    ((v2.mulAssignDbg f = none ↔ IsNaN.isNaN f = true) ∧
      (v3.mulAssignDbg f = none ↔ IsNaN.isNaN f = true)) := by
  refine ⟨⟨?_, ?_, ?_, ?_, ?_⟩, ⟨?_, ?_, ?_, ?_, ?_⟩, ⟨?_, ?_, ?_, ?_, ?_⟩,
    ⟨?_, ?_, ?_, ?_, ?_, ?_, ?_⟩, ⟨?_, ?_, ?_, ?_, ?_⟩, ⟨?_, ?_⟩⟩
  all_goals
    simp only [Vector2.newDbg, Vector3.newDbg, Point2.newDbg, Point3.newDbg, Normal3.newDbg,
      Vector2.assignDbg, Vector3.assignDbg, Point2.assignDbg, Point3.assignDbg,
      Normal3.assignDbg, Vector2.addAssignDbg, Vector3.addAssignDbg, Point2.addAssignDbg,
      Point2.addAssignPointDbg, Point3.addAssignDbg, Point3.addAssignPointDbg,
      Normal3.addAssignDbg, Vector2.subAssignDbg, Vector3.subAssignDbg, Point2.subAssignDbg,
      Point3.subAssignDbg, Normal3.subAssignDbg, Vector2.mulAssignDbg, Vector3.mulAssignDbg]
    split_ifs <;> simp_all

/-- Witness of C18 (as amended): over the scalar model, constructing the vector
`(1, NaN, 3)` trips the assertion, and a successfully constructed `(1, 2, 3)` has no NaN. -/
theorem debug_assertions_reject_NaN_witness :
    Vector3.newDbg (fin 1) nan (fin 3) = none ∧
      ((Vector3.mk (fin 1) (fin 2) (fin 3)) = ⟨fin 1, fin 2, fin 3⟩ ∧
        (Vector3.mk (fin 1) (fin 2) (fin 3)).HasNaNs = false) :=
  ⟨(debug_assertions_reject_NaN (fin 1) nan (fin 3) nan ⟨0, 0⟩ ⟨0, 0⟩ ⟨0, 0, 0⟩ ⟨0, 0, 0⟩
      ⟨0, 0⟩ ⟨0, 0⟩ ⟨0, 0, 0⟩ ⟨0, 0, 0⟩ ⟨0, 0, 0⟩ ⟨0, 0, 0⟩).1.2.1.2 rfl,
    (debug_assertions_reject_NaN (fin 1) (fin 2) (fin 3) nan ⟨0, 0⟩ ⟨0, 0⟩ ⟨0, 0, 0⟩
      ⟨0, 0, 0⟩ ⟨0, 0⟩ ⟨0, 0⟩ ⟨0, 0, 0⟩ ⟨0, 0, 0⟩ ⟨0, 0, 0⟩ ⟨0, 0, 0⟩).2.1.2.1 _ rfl⟩

/-- C18 as stated fails: in a debug build a value holding a NaN component is produced
without tripping an assertion by `Point3::operator*=` with a NaN scalar (no `DCHECK` at
all), by `Vector3::operator+=` on `(+∞, 0, 0)` with operand `(-∞, 0, 0)` (only the operand
is checked), and by `Vector3::operator/=` with a NaN divisor (only `CHECK_NE(f, 0)`). -/
theorem debug_assertions_reject_NaN_counterexample :
    (∃ r, (Point3.mk (fin 1) (fin 2) (fin 3)).mulAssignDbg nan = some r ∧
        r.HasNaNs = true) ∧
      (∃ r, (Vector3.mk pinf (fin 0) (fin 0)).addAssignDbg ⟨ninf, fin 0, fin 0⟩ = some r ∧
        r.HasNaNs = true) ∧
      (∃ r, (Vector3.mk (fin 1) (fin 2) (fin 3)).divAssign nan = some r ∧
        r.HasNaNs = true) := by
  refine ⟨⟨⟨nan, nan, nan⟩, rfl, rfl⟩, ⟨⟨pinf + ninf, fin 0 + fin 0, fin 0 + fin 0⟩, rfl, rfl⟩,
    ⟨⟨nan, nan, nan⟩, rfl, rfl⟩⟩

/-! ## Device memory: what allocation preserves -/

section DeviceLemmas
variable {K : Type}

/-- A heap lookup that succeeds still succeeds, with the same result, after the heap has
grown. -/
theorem getElem?_append_of_some {α : Type} {l : List α} {a : ℕ} {o : α} (l' : List α)
    (h : l[a]? = some o) : (l ++ l')[a]? = some o := by
  have hlt : a < l.length := by
    by_contra hcon
    rw [List.getElem?_eq_none (not_lt.1 hcon)] at h
    exact absurd h (by simp)
  rw [List.getElem?_append_left hlt]
  exact h

theorem getElem?_append_pair_fst {α : Type} (l : List α) (x y : α) :
    (l ++ [x, y])[l.length]? = some x := by
  rw [List.getElem?_append_right (le_refl _)]
  simp

theorem getElem?_append_pair_snd {α : Type} (l : List α) (x y : α) :
    (l ++ [x, y])[l.length + 1]? = some y := by
  rw [List.getElem?_append_right (Nat.le_succ _)]
  simp

theorem Device.Ext.ext_refl (st : Device K) : st.Ext st := fun _ _ h => h

theorem Device.Ext.ext_trans {s1 s2 s3 : Device K} (h12 : s1.Ext s2) (h23 : s2.Ext s3) :
    s1.Ext s3 := fun a o h => h23 a o (h12 a o h)

theorem Device.ext_newSphereAt (st : Device K) (i : ℕ) (c : Point3 K) (r : K)
    (m : Material K) : st.Ext (st.newSphereAt i c r m) := by
  intro a o h
  simp only [Device.newSphereAt, Device.new]
  exact getElem?_append_of_some _ (getElem?_append_of_some _ h)

theorem Device.ext_newCylinderAt (st : Device K) (i : ℕ) (c : Point3 K) (r y h : K)
    (m : Material K) : st.Ext (st.newCylinderAt i c r y h m) := by
  intro a o ha
  simp only [Device.newCylinderAt, Device.new]
  exact getElem?_append_of_some _ (getElem?_append_of_some _ ha)

@[simp] theorem Device.newSphereAt_d_list (st : Device K) (i : ℕ) (c : Point3 K) (r : K)
    (m : Material K) :
    (st.newSphereAt i c r m).d_list = Function.update st.d_list i (st.heap.length + 1) := by
  simp [Device.newSphereAt, Device.new]

@[simp] theorem Device.newSphereAt_heap (st : Device K) (i : ℕ) (c : Point3 K) (r : K)
    (m : Material K) :
    (st.newSphereAt i c r m).heap =
      st.heap ++ [Obj.material m, Obj.shape (Shape.Sphere c r st.heap.length)] := by
  simp [Device.newSphereAt, Device.new]

@[simp] theorem Device.newCylinderAt_d_list (st : Device K) (i : ℕ) (c : Point3 K)
    (r y h : K) (m : Material K) :
    (st.newCylinderAt i c r y h m).d_list =
      Function.update st.d_list i (st.heap.length + 1) := by
  simp [Device.newCylinderAt, Device.new]

@[simp] theorem Device.newCylinderAt_heap (st : Device K) (i : ℕ) (c : Point3 K)
    (r y h : K) (m : Material K) :
    (st.newCylinderAt i c r y h m).heap =
      st.heap ++ [Obj.material m, Obj.shape (Shape.Cylinder c r y h st.heap.length)] := by
  simp [Device.newCylinderAt, Device.new]

/-- The slot just written points to the new sphere. -/
theorem Device.newSphereAt_shapeAt_self (st : Device K) (i : ℕ) (c : Point3 K) (r : K)
    (m : Material K) :
    (st.newSphereAt i c r m).shapeAt i = some (Shape.Sphere c r st.heap.length) := by
  simp only [Device.shapeAt, Device.newSphereAt_d_list, Device.newSphereAt_heap,
    Function.update_same, getElem?_append_pair_snd]

/-- The new sphere owns the new material. -/
theorem Device.newSphereAt_materialAt_self (st : Device K) (i : ℕ) (c : Point3 K) (r : K)
    (m : Material K) : (st.newSphereAt i c r m).materialAt st.heap.length = some m := by
  simp only [Device.materialAt, Device.newSphereAt_heap, getElem?_append_pair_fst]

/-- The slot just written holds the sphere with the given centre, radius and material. -/
theorem Device.newSphereAt_sphereAt_self (st : Device K) (i : ℕ) (c : Point3 K) (r : K)
    (m : Material K) : (st.newSphereAt i c r m).sphereAt i = some (c, r, m) := by
  simp only [Device.sphereAt, Device.newSphereAt_shapeAt_self,
    Device.newSphereAt_materialAt_self]

/-- The slot just written points to the new cylinder. -/
theorem Device.newCylinderAt_shapeAt_self (st : Device K) (i : ℕ) (c : Point3 K)
    (r y h : K) (m : Material K) :
    (st.newCylinderAt i c r y h m).shapeAt i =
      some (Shape.Cylinder c r y h st.heap.length) := by
  simp only [Device.shapeAt, Device.newCylinderAt_d_list, Device.newCylinderAt_heap,
    Function.update_same, getElem?_append_pair_snd]

theorem Device.Ext.materialAt {st st' : Device K} (h : st.Ext st') {a : Addr}
    {m : Material K} (hm : st.materialAt a = some m) : st'.materialAt a = some m := by
  unfold Device.materialAt at hm ⊢
  cases hget : st.heap[a]? with
  | none => simp [hget] at hm
  | some o =>
    rw [h a o hget]
    rw [hget] at hm
    exact hm

theorem Device.Ext.shapeAtAddr {st st' : Device K} (h : st.Ext st') {a : Addr}
    {s : Shape K} (hs : st.shapeAtAddr a = some s) : st'.shapeAtAddr a = some s := by
  unfold Device.shapeAtAddr at hs ⊢
  cases hget : st.heap[a]? with
  | none => simp [hget] at hs
  | some o =>
    rw [h a o hget]
    rw [hget] at hs
    exact hs

theorem Device.shapeAt_eq (st : Device K) (i : ℕ) :
    st.shapeAt i = st.shapeAtAddr (st.d_list i) := rfl

/-- A slot keeps its shape when the heap grows and the slot is not written. -/
theorem Device.Ext.ext_shapeAt {st st' : Device K} (h : st.Ext st') {i : ℕ}
    (hd : st'.d_list i = st.d_list i) {s : Shape K} (hs : st.shapeAt i = some s) :
    st'.shapeAt i = some s := by
  rw [Device.shapeAt_eq] at hs ⊢
  rw [hd]
  exact h.shapeAtAddr hs

/-- A slot keeps its sphere when the heap grows and the slot is not written. -/
theorem Device.Ext.ext_sphereAt {st st' : Device K} (h : st.Ext st') {i : ℕ}
    (hd : st'.d_list i = st.d_list i) {x : Point3 K × K × Material K}
    (hs : st.sphereAt i = some x) : st'.sphereAt i = some x := by
  unfold Device.sphereAt at hs ⊢
  cases hsh : st.shapeAt i with
  | none => simp [hsh] at hs
  | some s =>
    rw [h.ext_shapeAt hd hsh]
    rw [hsh] at hs
    cases s with
    | Sphere c r m =>
      simp only at hs ⊢
      cases hm : st.materialAt m with
      | none => simp [hm] at hs
      | some mat =>
        rw [h.materialAt hm]
        rw [hm] at hs
        exact hs
    | Cylinder c r y hh m => simp at hs
    | ShapeList n => simp at hs

end DeviceLemmas

/-! ## C13: the order of the deletions in `free_world` -/

section FreeWorld
variable {K : Type}

/-- The loop of `free_world` deletes, index by index, the material of the shape and then
the shape, and leaves the rest of the state as it is. -/
theorem free_world.loop_spec (m : ℕ → Addr) :
    ∀ (is : List ℕ) (st : Device K),
      (∀ i ∈ is, st.materialOf (st.d_list i) = some (m i)) →
      free_world.loop is st =
        some { st with freed := st.freed ++ deleteOrder m st.d_list is } := by
  intro is
  induction is with
  | nil =>
    intro st _
    simp [free_world.loop, deleteOrder]
  | cons i is ih =>
    intro st hm
    have hi := hm i (List.mem_cons_self _ _)
    simp only [free_world.loop, hi]
    rw [ih]
    · simp [Device.delete, deleteOrder]
    · intro j hj
      exact hm j (List.mem_cons_of_mem _ hj)

/-- C13 (as amended): `free_world`, with `n` the loop bound it reads through `d_world` and
the slots `0..n-1` pointing to shapes that own a material, deletes for `i = 0, ..., n-1`
in turn the material owned by shape `i` and then shape `i`, then the world aggregate, then
the camera, and deletes nothing else; the heap and the pointers are left as they are. -/
theorem free_world_deletes_in_order (tid : ThreadId) (st : Device K) (n : ℕ) (m : ℕ → Addr)
    (hn : st.numShapes_at_d_world = n)
    (hm : ∀ i, i < n → st.materialOf (st.d_list i) = some (m i)) :
    free_world tid st =
      some { st with
        freed := st.freed ++ deleteOrder m st.d_list (List.range n) ++
          [st.d_world, st.d_camera] } := by
  have hloop := free_world.loop_spec m (List.range n) st
    (fun i hi => hm i (List.mem_range.1 hi))
  simp only [free_world, hn, Int.toNat_ofNat, hloop, Device.delete, List.append_assoc,
    List.singleton_append]

end FreeWorld

/-- The scene that `create_world` builds on a fresh device, with the memory at the cell
`d_world` reading `k` as `numShapes`. -/
theorem materialOf_create_world (nx ny : ℤ) (k : ℤ) (i : ℕ) (hi : i < 5) :
    ({ create_world Real.sqrt ⟨0, 0⟩ nx ny (Device.fresh ℝ) with
        numShapes_at_d_world := k } : Device ℝ).materialOf
      (({ create_world Real.sqrt ⟨0, 0⟩ nx ny (Device.fresh ℝ) with
        numShapes_at_d_world := k } : Device ℝ).d_list i) = some (2 * i) := by
  interval_cases i <;>
    simp [create_world, Device.fresh, Device.newSphereAt, Device.new, ThreadId.designated,
      Device.materialOf]

/-- Witness of C13 (as amended): the five-sphere scene of `create_world`, with the loop
bound read as 5; the material of shape `i` is at address `2 i` and the shape at address
`2 i + 1`, the world at 10 and the camera at 11. -/
theorem free_world_deletes_in_order_witness :
    (free_world ⟨0, 0⟩
        ({ create_world Real.sqrt ⟨0, 0⟩ 800 600 (Device.fresh ℝ) with
          numShapes_at_d_world := 5 } : Device ℝ)).map (fun d => d.freed) =
      some [0, 1, 2, 3, 4, 5, 6, 7, 8, 9, 10, 11] := by
  rw [free_world_deletes_in_order ⟨0, 0⟩ _ 5 (fun i => 2 * i) rfl
    (fun i hi => materialOf_create_world 800 600 5 i hi)]
  simp [deleteOrder, List.range, List.range.loop, create_world, Device.fresh,
    Device.newSphereAt, Device.new, ThreadId.designated]

/-- C13 as stated fails.  On the five-sphere scene with the loop bound read as 5, the
deletions are interleaved (material 0, shape 0, material 1, shape 1, ...): shape 0 at
address 1 is deleted before the material of shape 1 at address 2, so it is not "every
material, then every shape".  And on the same scene with the memory at the cell `d_world`
reading 0, although the `ShapeList` has `numShapes = 5`, no material and no shape is
deleted at all. -/
theorem free_world_deletes_in_order_counterexample :
    ((free_world ⟨0, 0⟩
        ({ create_world Real.sqrt ⟨0, 0⟩ 800 600 (Device.fresh ℝ) with
          numShapes_at_d_world := 5 } : Device ℝ)).map (fun d => d.freed) =
      some [0, 1, 2, 3, 4, 5, 6, 7, 8, 9, 10, 11] ∧
      [0, 1, 2, 3, 4, 5, 6, 7, 8, 9, 10, 11] ≠ [0, 2, 4, 6, 8, 1, 3, 5, 7, 9, 10, 11]) ∧
    ((create_world Real.sqrt ⟨0, 0⟩ 800 600 (Device.fresh ℝ)).shapeAtAddr
        (create_world Real.sqrt ⟨0, 0⟩ 800 600 (Device.fresh ℝ)).d_world =
      some (Shape.ShapeList 5) ∧
      (free_world ⟨0, 0⟩ (create_world Real.sqrt ⟨0, 0⟩ 800 600 (Device.fresh ℝ))).map
        (fun d => d.freed) = some [10, 11]) := by
  refine ⟨⟨?_, by decide⟩, ?_, ?_⟩
  · simp [free_world, free_world.loop, Device.delete, Device.materialOf, List.range,
      List.range.loop, create_world, Device.fresh, Device.newSphereAt, Device.new,
      ThreadId.designated]
  · simp [Device.shapeAtAddr, create_world, Device.fresh, Device.newSphereAt, Device.new,
      ThreadId.designated]
  · simp [free_world, free_world.loop, Device.delete, create_world, Device.fresh,
      Device.newSphereAt, Device.new, ThreadId.designated]

/-! ## C11: the thread guard -/

/-- The four kernels that have the guard do nothing on a thread other than the designated
one. -/
theorem guarded_kernels_noop {K : Type} [LinearOrderedField K] (sqrt : K → K) (rnd : ℕ → K)
    (tid : ThreadId) (htid : ¬ tid.designated) (nx ny : ℤ) (st : Device K) :
    rand_init tid st = st ∧ create_world sqrt tid nx ny st = st ∧
      SampleScene sqrt rnd tid nx ny st = st ∧
      ShapeTestCylinderScene sqrt rnd tid nx ny st = st := by
  simp [rand_init, create_world, SampleScene, ShapeTestCylinderScene, htid]

/-- C11, the code at the failing input: on the thread with `threadIdx.x = 1` and
`blockIdx.x = 0`, applied to the scene that `create_world` has built (nothing freed yet),
`free_world` is not a no-op: it deletes the world aggregate at address 10 and the camera
at address 11, while `rand_init`, `create_world`, `SampleScene` and
`ShapeTestCylinderScene` leave the state as it is on that thread. -/
theorem free_world_has_no_guard :
    (create_world Real.sqrt ⟨0, 0⟩ 800 600 (Device.fresh ℝ)).freed = [] ∧
      (free_world ⟨1, 0⟩ (create_world Real.sqrt ⟨0, 0⟩ 800 600 (Device.fresh ℝ))).map
        (fun d => d.freed) = some [10, 11] ∧
      rand_init ⟨1, 0⟩ (create_world Real.sqrt ⟨0, 0⟩ 800 600 (Device.fresh ℝ)) =
        create_world Real.sqrt ⟨0, 0⟩ 800 600 (Device.fresh ℝ) ∧
      create_world Real.sqrt ⟨1, 0⟩ 800 600
          (create_world Real.sqrt ⟨0, 0⟩ 800 600 (Device.fresh ℝ)) =
        create_world Real.sqrt ⟨0, 0⟩ 800 600 (Device.fresh ℝ) ∧
      SampleScene Real.sqrt (fun _ => 1) ⟨1, 0⟩ 800 600
          (create_world Real.sqrt ⟨0, 0⟩ 800 600 (Device.fresh ℝ)) =
        create_world Real.sqrt ⟨0, 0⟩ 800 600 (Device.fresh ℝ) ∧
      ShapeTestCylinderScene Real.sqrt (fun _ => 1) ⟨1, 0⟩ 800 600
          (create_world Real.sqrt ⟨0, 0⟩ 800 600 (Device.fresh ℝ)) =
        create_world Real.sqrt ⟨0, 0⟩ 800 600 (Device.fresh ℝ) := by
  have hne : ¬ (ThreadId.mk 1 0).designated := by simp [ThreadId.designated]
  refine ⟨?_, ?_, ?_, ?_, ?_, ?_⟩
  · simp [create_world, Device.fresh, Device.newSphereAt, Device.new, ThreadId.designated]
  · simp [free_world, free_world.loop, Device.delete, create_world, Device.fresh,
      Device.newSphereAt, Device.new, ThreadId.designated]
  · simp only [rand_init, if_neg hne]
  · rw [create_world, if_neg hne]
  · rw [SampleScene, if_neg hne]
  · rw [ShapeTestCylinderScene, if_neg hne]

/-! ## C12: building a scene and tearing it down -/

/-- C12, the code at the failing input: `create_world` on a fresh device allocates twelve
objects (five materials and five spheres at addresses 0 to 9, the `ShapeList` at 10, the
camera at 11); `free_world` reads its loop bound through `(ShapeList*)d_world`, the cell
that holds the pointer to the world, finds 0 there and not the `numShapes = 5` of the
`ShapeList`, and deletes only the world and the camera. -/
theorem create_then_free_leaks :
    (create_world Real.sqrt ⟨0, 0⟩ 800 600 (Device.fresh ℝ)).heap.length = 12 ∧
      (create_world Real.sqrt ⟨0, 0⟩ 800 600 (Device.fresh ℝ)).shapeAtAddr
        (create_world Real.sqrt ⟨0, 0⟩ 800 600 (Device.fresh ℝ)).d_world =
        some (Shape.ShapeList 5) ∧
      ∃ d, free_world ⟨0, 0⟩ (create_world Real.sqrt ⟨0, 0⟩ 800 600 (Device.fresh ℝ)) =
          some d ∧ d.freed = [10, 11] ∧ d.heap.length = 12 := by
  refine ⟨?_, ?_, ?_⟩
  · simp [create_world, Device.fresh, Device.newSphereAt, Device.new, ThreadId.designated]
  · simp [Device.shapeAtAddr, create_world, Device.fresh, Device.newSphereAt, Device.new,
      ThreadId.designated]
  · simp [free_world, free_world.loop, Device.delete, create_world, Device.fresh,
      Device.newSphereAt, Device.new, ThreadId.designated]

/-! ## C14: the five-sphere scene -/

theorem getElem?_append_length_add {α : Type} (l l' : List α) (k : ℕ) :
    (l ++ l')[l.length + k]? = l'[k]? := by
  rw [List.getElem?_append_right (Nat.le_add_right _ _)]
  simp

theorem getElem?_append_length {α : Type} (l l' : List α) :
    (l ++ l')[l.length]? = l'[0]? := by
  rw [List.getElem?_append_right (le_refl _)]
  simp

/-- C14: for every width `nx` and height `ny` (and every device state), `create_world` on
the designated thread fills exactly the slots 0 to 4 of the shape array with the five
spheres, wraps them in a `ShapeList` whose `numShapes` is 5, and builds the camera from
`(-2,2,1)` looking at `(0,0,-1)` with up `(0,1,0)`, vertical field of view 20, aspect
`nx/ny`, aperture 0 and focus distance `|lookfrom - lookat|`; it deletes nothing, leaves
the random state as it is, and does the same whatever the random state is. -/
theorem create_world_scene {K : Type} [LinearOrderedField K] (sqrt : K → K) (nx ny : ℤ)
    (st : Device K) (r : ℕ) :
    (create_world sqrt ⟨0, 0⟩ nx ny st).sphereAt 0 =
        some (⟨0, 0, -1⟩, 0.5, Material.Lambertian ⟨0.1, 0.2, 0.5⟩) ∧
      (create_world sqrt ⟨0, 0⟩ nx ny st).sphereAt 1 =
        some (⟨0, -100.5, -1⟩, 100, Material.Lambertian ⟨0.8, 0.8, 0⟩) ∧
      (create_world sqrt ⟨0, 0⟩ nx ny st).sphereAt 2 =
        some (⟨1, 0, -1⟩, 0.5, Material.Metal ⟨0.8, 0.6, 0.2⟩ 0) ∧
      (create_world sqrt ⟨0, 0⟩ nx ny st).sphereAt 3 =
        some (⟨-1, 0, -1⟩, 0.5, Material.Dielectric 1.5) ∧
      (create_world sqrt ⟨0, 0⟩ nx ny st).sphereAt 4 =
        some (⟨-1, 0, -1⟩, -0.45, Material.Dielectric 1.5) ∧
      (∀ i, 5 ≤ i → (create_world sqrt ⟨0, 0⟩ nx ny st).d_list i = st.d_list i) ∧
      (create_world sqrt ⟨0, 0⟩ nx ny st).shapeAtAddr
        (create_world sqrt ⟨0, 0⟩ nx ny st).d_world = some (Shape.ShapeList 5) ∧
      (create_world sqrt ⟨0, 0⟩ nx ny st).cameraAt
        (create_world sqrt ⟨0, 0⟩ nx ny st).d_camera =
        some ⟨⟨-2, 2, 1⟩, ⟨0, 0, -1⟩, ⟨0, 1, 0⟩, 20, Float.fin nx / Float.fin ny, 0,
          Vector3.Length sqrt ((⟨-2, 2, 1⟩ : Point3 K) - (⟨0, 0, -1⟩ : Point3 K))⟩ ∧
      (create_world sqrt ⟨0, 0⟩ nx ny st).heap.length = st.heap.length + 12 ∧
      (create_world sqrt ⟨0, 0⟩ nx ny st).freed = st.freed ∧
      (create_world sqrt ⟨0, 0⟩ nx ny st).rand_state = st.rand_state ∧
      create_world sqrt ⟨0, 0⟩ nx ny { st with rand_state := r } =
        { create_world sqrt ⟨0, 0⟩ nx ny st with rand_state := r } := by
  have hd : (ThreadId.mk 0 0).designated := ⟨rfl, rfl⟩
  refine ⟨?_, ?_, ?_, ?_, ?_, ?_, ?_, ?_, ?_, ?_, ?_, ?_⟩
  all_goals
    simp [create_world, hd, Device.sphereAt, Device.shapeAt, Device.materialAt,
      Device.shapeAtAddr, Device.cameraAt, Device.newSphereAt, Device.new,
      -List.getElem?_eq_getElem, getElem?_append_length_add, getElem?_append_length,
      List.getElem?_cons_zero, List.getElem?_cons_succ]
  · norm_num
  · norm_num
  · intro i hi
    rw [Function.update_noteq (by omega), Function.update_noteq (by omega),
      Function.update_noteq (by omega), Function.update_noteq (by omega),
      Function.update_noteq (by omega)]
  · norm_num

/-! ## Generators: loops and what a step preserves -/

section GenLemmas
variable {K : Type}

/-- A property that every loop body preserves holds after the loop. -/
theorem forLoop_induction {α σ : Type} [LT α] [DecidableRel (fun x y : α => x < y)] [Add α]
    (stop step : α) (body : α → σ → σ) (P : σ → Prop)
    (hbody : ∀ a s, P s → P (body a s)) :
    ∀ (fuel : ℕ) (a : α) (s : σ), P s → P (forLoop stop step body fuel a s) := by
  intro fuel
  induction fuel with
  | zero =>
    intro a s hs
    exact hs
  | succ n ih =>
    intro a s hs
    unfold forLoop
    split_ifs
    · exact ih _ _ (hbody a s hs)
    · exact hs

theorem Gen.Le.refl (g : Gen K) : g.Le g :=
  ⟨le_refl _, Device.Ext.ext_refl _, fun _ _ => rfl⟩

theorem Gen.Le.trans {g1 g2 g3 : Gen K} (h12 : g1.Le g2) (h23 : g2.Le g3) : g1.Le g3 :=
  ⟨le_trans h12.1 h23.1, h12.2.1.ext_trans h23.2.1, fun i hi =>
    (h23.2.2 i (lt_of_lt_of_le hi h12.1)).trans (h12.2.2 i hi)⟩

theorem Gen.le_advance (g : Gen K) (n : ℕ) : g.Le (g.advance n) :=
  ⟨le_refl _, Device.Ext.ext_refl _, fun _ _ => rfl⟩

theorem Gen.le_pushSphere (g : Gen K) (c : Point3 K) (r : K) (m : Material K) :
    g.Le (g.pushSphere c r m) := by
  refine ⟨Nat.le_succ _, Device.ext_newSphereAt _ _ _ _ _, fun i hi => ?_⟩
  simp only [Gen.pushSphere, Device.newSphereAt_d_list]
  exact Function.update_noteq hi.ne _ _

theorem Gen.le_pushCylinder (g : Gen K) (c : Point3 K) (r y h : K) (m : Material K) :
    g.Le (g.pushCylinder c r y h m) := by
  refine ⟨Nat.le_succ _, Device.ext_newCylinderAt _ _ _ _ _ _ _, fun i hi => ?_⟩
  simp only [Gen.pushCylinder, Device.newCylinderAt_d_list]
  exact Function.update_noteq hi.ne _ _

/-- A slot below the count keeps its shape in every extension. -/
theorem Gen.Le.shapeAt {g g' : Gen K} (h : g.Le g') {i : ℕ} (hi : i < g.curNum)
    {s : Shape K} (hs : g.dev.shapeAt i = some s) : g'.dev.shapeAt i = some s :=
  h.2.1.ext_shapeAt (h.2.2 i hi) hs

/-- A slot below the count keeps its sphere in every extension. -/
theorem Gen.Le.sphereAt {g g' : Gen K} (h : g.Le g') {i : ℕ} (hi : i < g.curNum)
    {x : Point3 K × K × Material K} (hs : g.dev.sphereAt i = some x) :
    g'.dev.sphereAt i = some x :=
  h.2.1.ext_sphereAt (h.2.2 i hi) hs

@[simp] theorem Gen.pushSphere_curNum (g : Gen K) (c : Point3 K) (r : K) (m : Material K) :
    (g.pushSphere c r m).curNum = g.curNum + 1 := rfl

@[simp] theorem Gen.pushCylinder_curNum (g : Gen K) (c : Point3 K) (r y h : K)
    (m : Material K) : (g.pushCylinder c r y h m).curNum = g.curNum + 1 := rfl

@[simp] theorem Gen.advance_curNum (g : Gen K) (n : ℕ) : (g.advance n).curNum = g.curNum :=
  rfl

@[simp] theorem Gen.advance_dev (g : Gen K) (n : ℕ) : (g.advance n).dev = g.dev := rfl

/-- The slot that `pushSphere` writes holds the sphere pushed. -/
theorem Gen.pushSphere_sphereAt_self (g : Gen K) (c : Point3 K) (r : K) (m : Material K) :
    (g.pushSphere c r m).dev.sphereAt g.curNum = some (c, r, m) :=
  Device.newSphereAt_sphereAt_self _ _ _ _ _

/-- The slot that `pushSphere` writes points to the new sphere, which owns the new
material. -/
theorem Gen.pushSphere_shapeAt_self (g : Gen K) (c : Point3 K) (r : K) (m : Material K) :
    (g.pushSphere c r m).dev.shapeAt g.curNum =
        some (Shape.Sphere c r g.dev.heap.length) ∧
      (g.pushSphere c r m).dev.materialAt g.dev.heap.length = some m :=
  ⟨Device.newSphereAt_shapeAt_self _ _ _ _ _, Device.newSphereAt_materialAt_self _ _ _ _ _⟩

/-- The slot that `pushCylinder` writes points to a cylinder. -/
theorem Gen.pushCylinder_shapeAt_self (g : Gen K) (c : Point3 K) (r y h : K)
    (m : Material K) :
    (g.pushCylinder c r y h m).dev.shapeAt g.curNum =
      some (Shape.Cylinder c r y h g.dev.heap.length) :=
  Device.newCylinderAt_shapeAt_self _ _ _ _ _ _ _

end GenLemmas

section PlaceLemmas
variable {K : Type} [LinearOrderedField K]

/-- `placeSpheres` pushes one sphere with the outer radius, or the shell of two spheres
that own a `Dielectric(1.5)`. -/
theorem placeSpheres_cases (rnd : ℕ → K) (u : K) (c : Point3 K) (r rin : K) (g : Gen K) :
    (∃ k m, placeSpheres rnd u c r rin g = (g.advance k).pushSphere c r m) ∨
      placeSpheres rnd u c r rin g =
        (g.pushSphere c r (Material.Dielectric 1.5)).pushSphere c rin
          (Material.Dielectric 1.5) := by
  unfold placeSpheres
  simp only
  split_ifs
  · exact Or.inl ⟨_, _, rfl⟩
  · exact Or.inl ⟨_, _, rfl⟩
  · exact Or.inl ⟨_, _, rfl⟩
  · exact Or.inr rfl

theorem le_placeSpheres (rnd : ℕ → K) (u : K) (c : Point3 K) (r rin : K) (g : Gen K) :
    g.Le (placeSpheres rnd u c r rin g) := by
  rcases placeSpheres_cases rnd u c r rin g with ⟨k, m, h⟩ | h
  · rw [h]
    exact (Gen.le_advance g k).trans (Gen.le_pushSphere _ _ _ _)
  · rw [h]
    exact (Gen.le_pushSphere _ _ _ _).trans (Gen.le_pushSphere _ _ _ _)

end PlaceLemmas

/-! ## C16: the kind of sphere is chosen by the first draw -/

/-- The first of two spheres pushed in a row is still in its slot after the second. -/
theorem Gen.pushSphere_pushSphere_sphereAt {K : Type} (g : Gen K) (c c' : Point3 K) (r r' : K)
    (m m' : Material K) :
    ((g.pushSphere c r m).pushSphere c' r' m').dev.sphereAt g.curNum = some (c, r, m) :=
  (Gen.le_pushSphere (g.pushSphere c r m) c' r' m').sphereAt (Nat.lt_succ_self _)
    (Gen.pushSphere_sphereAt_self g c r m)

section Kind
variable {K : Type} [LinearOrderedField K]

/-- C16: in `SampleScene` and in both sphere loops of `ShapeTestCylinderScene` an
iteration either rejects the candidate or places spheres by the four-way choice on its
first draw `u` (`chooseMat`); that choice gives, for `u < 0.7`, one Lambertian sphere, for
`0.7 ≤ u < 0.85` one Metal sphere, for `0.85 ≤ u < 0.95` one solid Dielectric sphere, and
for `u ≥ 0.95` a shell of two `Dielectric(1.5)` spheres; the four ranges have lengths 0.7,
0.15, 0.10 and 0.05. -/
theorem placement_kind_by_first_draw (sqrt : K → K) (rnd : ℕ → K) (a b : ℤ) (fa fb : K)
    (g : Gen K) (u : K) (center : Point3 K) (radius innerRadius : K) :
    ((SampleScene.body sqrt rnd a b g = g.advance 3 ∨
        ∃ c, SampleScene.body sqrt rnd a b g =
          placeSpheres rnd (rnd g.local_rand_state) c 0.2 (-0.15) (g.advance 3)) ∧
      (ShapeTestCylinderScene.upperBody sqrt rnd a b g = g.advance 4 ∨
        ∃ c, ShapeTestCylinderScene.upperBody sqrt rnd a b g =
          placeSpheres rnd (rnd g.local_rand_state) c (c.y - 0.3) (0.4 - c.y)
            (g.advance 4)) ∧
      (ShapeTestCylinderScene.lowerBody sqrt rnd fa fb g = g.advance 4 ∨
        ∃ c, ShapeTestCylinderScene.lowerBody sqrt rnd fa fb g =
          placeSpheres rnd (rnd g.local_rand_state) c (c.y - 0.2) (0.25 - c.y)
            (g.advance 4))) ∧
    ((u < 0.7 →
        (placeSpheres rnd u center radius innerRadius g).curNum = g.curNum + 1 ∧
        ∃ albedo, (placeSpheres rnd u center radius innerRadius g).dev.sphereAt g.curNum =
          some (center, radius, Material.Lambertian albedo)) ∧
      (0.7 ≤ u → u < 0.85 →
        (placeSpheres rnd u center radius innerRadius g).curNum = g.curNum + 1 ∧
        ∃ albedo fuzz,
          (placeSpheres rnd u center radius innerRadius g).dev.sphereAt g.curNum =
            some (center, radius, Material.Metal albedo fuzz)) ∧
      (0.85 ≤ u → u < 0.95 →
        (placeSpheres rnd u center radius innerRadius g).curNum = g.curNum + 1 ∧
        ∃ refIdx, (placeSpheres rnd u center radius innerRadius g).dev.sphereAt g.curNum =
          some (center, radius, Material.Dielectric refIdx)) ∧
      (0.95 ≤ u →
        (placeSpheres rnd u center radius innerRadius g).curNum = g.curNum + 2 ∧
        (placeSpheres rnd u center radius innerRadius g).dev.sphereAt g.curNum =
          some (center, radius, Material.Dielectric 1.5) ∧
        (placeSpheres rnd u center radius innerRadius g).dev.sphereAt (g.curNum + 1) =
          some (center, innerRadius, Material.Dielectric 1.5))) ∧
    ((0.7 : K) - 0 = 0.7 ∧ (0.85 : K) - 0.7 = 0.15 ∧ (0.95 : K) - 0.85 = 0.10 ∧
      (1 : K) - 0.95 = 0.05) := by
  have h7 : (0.7 : K) < 0.85 := by norm_num
  have h85 : (0.85 : K) < 0.95 := by norm_num
  refine ⟨⟨?_, ?_, ?_⟩, ⟨?_, ?_, ?_, ?_⟩, ⟨by norm_num, by norm_num, by norm_num, by norm_num⟩⟩
  · unfold SampleScene.body
    simp only
    split_ifs
    · exact Or.inr ⟨_, rfl⟩
    · exact Or.inl rfl
  · unfold ShapeTestCylinderScene.upperBody
    simp only
    split_ifs
    · exact Or.inr ⟨_, rfl⟩
    · exact Or.inl rfl
  · unfold ShapeTestCylinderScene.lowerBody
    simp only
    split_ifs
    · exact Or.inr ⟨_, rfl⟩
    · exact Or.inl rfl
  · intro hu
    simp only [placeSpheres, if_pos hu]
    exact ⟨rfl, _, Gen.pushSphere_sphereAt_self _ _ _ _⟩
  · intro h1 h2
    simp only [placeSpheres, if_neg (not_lt.2 h1), if_pos h2]
    exact ⟨rfl, _, _, Gen.pushSphere_sphereAt_self _ _ _ _⟩
  · intro h1 h2
    simp only [placeSpheres, if_neg (not_lt.2 (le_trans h7.le h1)), if_neg (not_lt.2 h1),
      if_pos h2]
    exact ⟨rfl, _, Gen.pushSphere_sphereAt_self _ _ _ _⟩
  · intro h1
    simp only [placeSpheres, if_neg (not_lt.2 (le_trans h7.le (le_trans h85.le h1))),
      if_neg (not_lt.2 (le_trans h85.le h1)), if_neg (not_lt.2 h1)]
    exact ⟨rfl, Gen.pushSphere_pushSphere_sphereAt _ _ _ _ _ _ _,
      Gen.pushSphere_sphereAt_self _ _ _ _⟩

end Kind

/-- Witness of C16: over the rationals, with the first draw `u = 0.96`, the choice places
the shell of two `Dielectric(1.5)` spheres in slots 1 and 2. -/
theorem placement_kind_by_first_draw_witness :
    (placeSpheres (fun _ => (1 / 2 : ℚ)) 0.96 ⟨1, 0.2, 1⟩ 0.2 (-0.15)
        ⟨Device.fresh ℚ, 1, 0⟩).curNum = 1 + 2 ∧
      (placeSpheres (fun _ => (1 / 2 : ℚ)) 0.96 ⟨1, 0.2, 1⟩ 0.2 (-0.15)
        ⟨Device.fresh ℚ, 1, 0⟩).dev.sphereAt 1 =
        some (⟨1, 0.2, 1⟩, 0.2, Material.Dielectric 1.5) ∧
      (placeSpheres (fun _ => (1 / 2 : ℚ)) 0.96 ⟨1, 0.2, 1⟩ 0.2 (-0.15)
        ⟨Device.fresh ℚ, 1, 0⟩).dev.sphereAt (1 + 1) =
        some (⟨1, 0.2, 1⟩, -0.15, Material.Dielectric 1.5) :=
  (placement_kind_by_first_draw (fun x => x) (fun _ => (1 / 2 : ℚ)) 0 0 0 0
    ⟨Device.fresh ℚ, 1, 0⟩ 0.96 ⟨1, 0.2, 1⟩ 0.2 (-0.15)).2.1.2.2.2 (by norm_num)

/-! ## C17: hollow shells -/

section Hollow
variable {K : Type} [LinearOrderedField K]

/-- The hollow-shell condition on a slot survives when the heap grows and the slots up to
it are not written. -/
theorem Device.HollowOK.mono {st st' : Device K} (h : st.Ext st') {i : ℕ}
    (hd : ∀ j, j ≤ i → st'.d_list j = st.d_list j) (hok : st.HollowOK i) :
    st'.HollowOK i := by
  obtain ⟨s, hs, hprop⟩ := hok
  refine ⟨s, h.ext_shapeAt (hd i (le_refl _)) hs, fun c r m hsc => ?_⟩
  rcases hprop c r m hsc with hpos | ⟨hneg, hi, r', m', hprev, h1, h2, h3, h4⟩
  · exact Or.inl hpos
  · exact Or.inr ⟨hneg, hi, r', m', h.ext_shapeAt (hd _ (Nat.sub_le _ _)) hprev, h1, h2,
      h.materialAt h3, h.materialAt h4⟩

/-- The condition holds on all slots below the count in an extension if it held before and
holds on the new slots. -/
theorem Gen.Le.hollow {g g' : Gen K} (h : g.Le g')
    (hold : ∀ i, i < g.curNum → g.dev.HollowOK i)
    (hnew : ∀ i, g.curNum ≤ i → i < g'.curNum → g'.dev.HollowOK i) :
    ∀ i, i < g'.curNum → g'.dev.HollowOK i := by
  intro i hi
  rcases lt_or_le i g.curNum with hlt | hge
  · exact (hold i hlt).mono h.2.1 (fun j hj => h.2.2 j (lt_of_le_of_lt hj hlt))
  · exact hnew i hge hi

theorem hollow_advance (g : Gen K) (n : ℕ) (hold : ∀ i, i < g.curNum → g.dev.HollowOK i) :
    ∀ i, i < (g.advance n).curNum → (g.advance n).dev.HollowOK i := hold

theorem hollow_pushSphere (g : Gen K) (c : Point3 K) (r : K) (m : Material K) (hr : 0 < r)
    (hold : ∀ i, i < g.curNum → g.dev.HollowOK i) :
    ∀ i, i < (g.pushSphere c r m).curNum → (g.pushSphere c r m).dev.HollowOK i := by
  refine (Gen.le_pushSphere g c r m).hollow hold (fun i hge hlt => ?_)
  have hi : i = g.curNum := le_antisymm (Nat.lt_succ_iff.1 hlt) hge
  subst hi
  refine ⟨_, (Gen.pushSphere_shapeAt_self g c r m).1, fun c' r' m' heq => ?_⟩
  injection heq with h1 h2 h3
  exact Or.inl (h2 ▸ hr)

theorem hollow_pushCylinder (g : Gen K) (c : Point3 K) (r y h : K) (m : Material K)
    (hold : ∀ i, i < g.curNum → g.dev.HollowOK i) :
    ∀ i, i < (g.pushCylinder c r y h m).curNum →
      (g.pushCylinder c r y h m).dev.HollowOK i := by
  refine (Gen.le_pushCylinder g c r y h m).hollow hold (fun i hge hlt => ?_)
  have hi : i = g.curNum := le_antisymm (Nat.lt_succ_iff.1 hlt) hge
  subst hi
  refine ⟨_, Gen.pushCylinder_shapeAt_self g c r y h m, fun c' r' m' heq => ?_⟩
  exact absurd heq (by simp)

/-- Pushing the inner sphere of a shell right after its outer sphere keeps the
condition. -/
theorem hollow_pushShell (g : Gen K) (c : Point3 K) (r rin : K) (hr : 0 < r) (hrin : rin < 0)
    (hmag : -rin < r) (hold : ∀ i, i < g.curNum → g.dev.HollowOK i) :
    ∀ i, i < ((g.pushSphere c r (Material.Dielectric 1.5)).pushSphere c rin
        (Material.Dielectric 1.5)).curNum →
      ((g.pushSphere c r (Material.Dielectric 1.5)).pushSphere c rin
        (Material.Dielectric 1.5)).dev.HollowOK i := by
  have hmid := hollow_pushSphere g c r (Material.Dielectric 1.5) hr hold
  have hle := Gen.le_pushSphere (g.pushSphere c r (Material.Dielectric 1.5)) c rin
    (Material.Dielectric 1.5)
  refine hle.hollow hmid (fun i hge hlt => ?_)
  have hi : i = g.curNum + 1 := le_antisymm (Nat.lt_succ_iff.1 hlt) hge
  subst hi
  obtain ⟨hs2, hm2⟩ := Gen.pushSphere_shapeAt_self
    (g.pushSphere c r (Material.Dielectric 1.5)) c rin (Material.Dielectric 1.5)
  obtain ⟨hs1, hm1⟩ := Gen.pushSphere_shapeAt_self g c r (Material.Dielectric 1.5)
  refine ⟨_, hs2, fun c' r' m' heq => ?_⟩
  injection heq with h1 h2 h3
  subst h1 h2 h3
  refine Or.inr ⟨hrin, Nat.succ_pos _, r, g.dev.heap.length, ?_, hr, hmag, hm2, ?_⟩
  · exact hle.shapeAt (Nat.lt_succ_self _) hs1
  · exact hle.2.1.materialAt hm1

theorem hollow_placeSpheres (rnd : ℕ → K) (u : K) (c : Point3 K) (r rin : K) (g : Gen K)
    (hr : 0 < r) (hrin : rin < 0) (hmag : -rin < r)
    (hold : ∀ i, i < g.curNum → g.dev.HollowOK i) :
    ∀ i, i < (placeSpheres rnd u c r rin g).curNum →
      (placeSpheres rnd u c r rin g).dev.HollowOK i := by
  rcases placeSpheres_cases rnd u c r rin g with ⟨k, m, h⟩ | h
  · rw [h]
    exact hollow_pushSphere _ c r m hr (hollow_advance g k hold)
  · rw [h]
    exact hollow_pushShell g c r rin hr hrin hmag hold

end Hollow

section HollowScenes
variable {K : Type} [LinearOrderedField K]

theorem hollow_SampleScene_body (sqrt : K → K) (rnd : ℕ → K) (a b : ℤ) (g : Gen K)
    (hold : ∀ i, i < g.curNum → g.dev.HollowOK i) :
    ∀ i, i < (SampleScene.body sqrt rnd a b g).curNum →
      (SampleScene.body sqrt rnd a b g).dev.HollowOK i := by
  unfold SampleScene.body
  simp only
  split_ifs
  · exact hollow_placeSpheres rnd _ _ _ _ _ (by norm_num) (by norm_num) (by norm_num)
      (hollow_advance g 3 hold)
  · exact hollow_advance g 3 hold

theorem hollow_upperBody (sqrt : K → K) (rnd : ℕ → K) (hrnd : ∀ j, 0 < rnd j ∧ rnd j ≤ 1)
    (a b : ℤ) (g : Gen K) (hold : ∀ i, i < g.curNum → g.dev.HollowOK i) :
    ∀ i, i < (ShapeTestCylinderScene.upperBody sqrt rnd a b g).curNum →
      (ShapeTestCylinderScene.upperBody sqrt rnd a b g).dev.HollowOK i := by
  unfold ShapeTestCylinderScene.upperBody
  simp only
  have hr := (hrnd (g.local_rand_state + 2)).1
  split_ifs
  · exact hollow_placeSpheres rnd _ _ _ _ _ (by linarith) (by linarith) (by linarith)
      (hollow_advance g 4 hold)
  · exact hollow_advance g 4 hold

theorem hollow_lowerBody (sqrt : K → K) (rnd : ℕ → K) (hrnd : ∀ j, 0 < rnd j ∧ rnd j ≤ 1)
    (a b : K) (g : Gen K) (hold : ∀ i, i < g.curNum → g.dev.HollowOK i) :
    ∀ i, i < (ShapeTestCylinderScene.lowerBody sqrt rnd a b g).curNum →
      (ShapeTestCylinderScene.lowerBody sqrt rnd a b g).dev.HollowOK i := by
  unfold ShapeTestCylinderScene.lowerBody
  simp only
  have hr := (hrnd (g.local_rand_state + 2)).1
  split_ifs
  · exact hollow_placeSpheres rnd _ _ _ _ _ (by linarith) (by linarith) (by linarith)
      (hollow_advance g 4 hold)
  · exact hollow_advance g 4 hold

theorem hollow_SampleScene_gen (sqrt : K → K) (rnd : ℕ → K) (width height : ℤ)
    (st : Device K) :
    ∀ i, i < (SampleScene.gen sqrt rnd width height st).curNum →
      (SampleScene.gen sqrt rnd width height st).dev.HollowOK i := by
  unfold SampleScene.gen SampleScene.loops
  simp only [Device.new]
  refine hollow_pushSphere _ _ _ _ (by norm_num) ?_
  refine hollow_pushSphere _ _ _ _ (by norm_num) ?_
  refine hollow_pushSphere _ _ _ _ (by norm_num) ?_
  refine forLoop_induction _ _ _ (fun g : Gen K => ∀ i, i < g.curNum → g.dev.HollowOK i)
    (fun a g hg => ?_) _ _ _ ?_
  · exact forLoop_induction _ _ _ (fun g : Gen K => ∀ i, i < g.curNum → g.dev.HollowOK i)
      (fun b g hg => hollow_SampleScene_body sqrt rnd a b g hg) _ _ _ hg
  · refine hollow_pushSphere _ _ _ _ (by norm_num) ?_
    intro i hi
    exact absurd hi (Nat.not_lt_zero _)

theorem hollow_ShapeTestCylinderScene_gen (sqrt : K → K) (rnd : ℕ → K)
    (hrnd : ∀ j, 0 < rnd j ∧ rnd j ≤ 1) (width height : ℤ) (st : Device K) :
    ∀ i, i < (ShapeTestCylinderScene.gen sqrt rnd width height st).curNum →
      (ShapeTestCylinderScene.gen sqrt rnd width height st).dev.HollowOK i := by
  unfold ShapeTestCylinderScene.gen
  simp only [Device.new]
  refine forLoop_induction _ _ _ (fun g : Gen K => ∀ i, i < g.curNum → g.dev.HollowOK i)
    (fun a g hg => ?_) _ _ _ ?_
  · exact forLoop_induction _ _ _ (fun g : Gen K => ∀ i, i < g.curNum → g.dev.HollowOK i)
      (fun b g hg => hollow_lowerBody sqrt rnd hrnd a b g hg) _ _ _ hg
  iterate 5 refine hollow_pushCylinder _ _ _ _ _ _ ?_
  refine hollow_pushSphere _ _ _ _ (by norm_num) ?_
  iterate 5 refine hollow_pushCylinder _ _ _ _ _ _ ?_
  refine forLoop_induction _ _ _ (fun g : Gen K => ∀ i, i < g.curNum → g.dev.HollowOK i)
    (fun a g hg => ?_) _ _ _ ?_
  · exact forLoop_induction _ _ _ (fun g : Gen K => ∀ i, i < g.curNum → g.dev.HollowOK i)
      (fun b g hg => hollow_upperBody sqrt rnd hrnd a b g hg) _ _ _ hg
  iterate 7 refine hollow_pushCylinder _ _ _ _ _ _ ?_
  refine hollow_pushSphere _ _ _ _ (by norm_num) ?_
  intro i hi
  exact absurd hi (Nat.not_lt_zero _)

/-- After the two final assignments the world is a `ShapeList` whose `numShapes` is the
count, and the condition holds on every slot below it. -/
theorem hollow_finish (g : Gen K) (hold : ∀ i, i < g.curNum → g.dev.HollowOK i) :
    ∃ n : ℕ, g.finish.shapeAtAddr g.finish.d_world = some (Shape.ShapeList n) ∧
      ∀ i, i < n → g.finish.HollowOK i := by
  refine ⟨g.curNum, ?_, fun i hi => ?_⟩
  · simp [Gen.finish, Device.new, Device.shapeAtAddr]
  · have hext : g.dev.Ext g.finish := by
      intro a o h
      simp only [Gen.finish, Device.new]
      exact getElem?_append_of_some _ h
    exact (hold i hi).mono hext (fun j _ => rfl)

end HollowScenes

section HollowFinal
variable {K : Type} [LinearOrderedField K]

/-- The condition holds on the five slots that `create_world` fills. -/
theorem hollow_create_world (sqrt : K → K) (nx ny : ℤ) (st : Device K) :
    ∃ n : ℕ, (create_world sqrt ⟨0, 0⟩ nx ny st).shapeAtAddr
        (create_world sqrt ⟨0, 0⟩ nx ny st).d_world = some (Shape.ShapeList n) ∧
      ∀ i, i < n → (create_world sqrt ⟨0, 0⟩ nx ny st).HollowOK i := by
  have hd : (ThreadId.mk 0 0).designated := ⟨rfl, rfl⟩
  have h3 : ∀ i, i < (((((⟨st, 0, 0⟩ : Gen K).pushSphere ⟨0, 0, -1⟩ 0.5
      (Material.Lambertian ⟨0.1, 0.2, 0.5⟩)).pushSphere ⟨0, -100.5, -1⟩ 100
      (Material.Lambertian ⟨0.8, 0.8, 0.0⟩)).pushSphere ⟨1, 0, -1⟩ 0.5
      (Material.Metal ⟨0.8, 0.6, 0.2⟩ 0.0))).curNum →
      (((((⟨st, 0, 0⟩ : Gen K).pushSphere ⟨0, 0, -1⟩ 0.5
      (Material.Lambertian ⟨0.1, 0.2, 0.5⟩)).pushSphere ⟨0, -100.5, -1⟩ 100
      (Material.Lambertian ⟨0.8, 0.8, 0.0⟩)).pushSphere ⟨1, 0, -1⟩ 0.5
      (Material.Metal ⟨0.8, 0.6, 0.2⟩ 0.0))).dev.HollowOK i := by
    refine hollow_pushSphere _ _ _ _ (by norm_num) ?_
    refine hollow_pushSphere _ _ _ _ (by norm_num) ?_
    refine hollow_pushSphere _ _ _ _ (by norm_num) ?_
    intro i hi
    exact absurd hi (Nat.not_lt_zero _)
  have h5 := hollow_pushShell _ ⟨-1, 0, -1⟩ (0.5 : K) (-0.45) (by norm_num) (by norm_num)
    (by norm_num) h3
  refine ⟨5, ?_, fun i hi => ?_⟩
  · simp [create_world, hd, Device.shapeAtAddr, Device.newSphereAt, Device.new,
      -List.getElem?_eq_getElem, getElem?_append_length_add, getElem?_append_length,
      List.getElem?_cons_zero, List.getElem?_cons_succ]
  · have hi5 := h5 i hi
    refine hi5.mono (fun a o h => ?_) (fun j _ => ?_)
    · simp only [create_world, if_pos hd, Device.new]
      exact getElem?_append_of_some _ (getElem?_append_of_some _ h)
    · simp only [create_world, if_pos hd, Device.new]
      rfl

/-- C17: in every generator (`create_world`, `SampleScene`, `ShapeTestCylinderScene`), for
every random stream whose draws lie in `(0, 1]`, the world is a `ShapeList` over the
first `n` slots, every slot of it points to a shape, and every sphere among them either
has a strictly positive radius or has a negative radius and is immediately preceded in
the shape array by a sphere with the same centre, a positive radius strictly larger in
magnitude, both owning a `Dielectric(1.5)`. -/
theorem negative_radius_only_in_shells (sqrt : K → K) (rnd : ℕ → K)
    (hrnd : ∀ j, 0 < rnd j ∧ rnd j ≤ 1) (nx ny : ℤ) (st : Device K) :
    (∃ n : ℕ, (create_world sqrt ⟨0, 0⟩ nx ny st).shapeAtAddr
        (create_world sqrt ⟨0, 0⟩ nx ny st).d_world = some (Shape.ShapeList n) ∧
      ∀ i, i < n → (create_world sqrt ⟨0, 0⟩ nx ny st).HollowOK i) ∧
    (∃ n : ℕ, (SampleScene sqrt rnd ⟨0, 0⟩ nx ny st).shapeAtAddr
        (SampleScene sqrt rnd ⟨0, 0⟩ nx ny st).d_world = some (Shape.ShapeList n) ∧
      ∀ i, i < n → (SampleScene sqrt rnd ⟨0, 0⟩ nx ny st).HollowOK i) ∧
    (∃ n : ℕ, (ShapeTestCylinderScene sqrt rnd ⟨0, 0⟩ nx ny st).shapeAtAddr
        (ShapeTestCylinderScene sqrt rnd ⟨0, 0⟩ nx ny st).d_world =
          some (Shape.ShapeList n) ∧
      ∀ i, i < n → (ShapeTestCylinderScene sqrt rnd ⟨0, 0⟩ nx ny st).HollowOK i) := by
  have hd : (ThreadId.mk 0 0).designated := ⟨rfl, rfl⟩
  refine ⟨hollow_create_world sqrt nx ny st, ?_, ?_⟩
  · rw [SampleScene, if_pos hd]
    exact hollow_finish _ (hollow_SampleScene_gen sqrt rnd nx ny st)
  · rw [ShapeTestCylinderScene, if_pos hd]
    exact hollow_finish _ (hollow_ShapeTestCylinderScene_gen sqrt rnd hrnd nx ny st)

end HollowFinal

/-- Witness of C17: the three generators over the reals on a fresh device, with every draw
equal to 1. -/
theorem negative_radius_only_in_shells_witness :
    ∃ n : ℕ, (ShapeTestCylinderScene Real.sqrt (fun _ => (1 : ℝ)) ⟨0, 0⟩ 800 600
        (Device.fresh ℝ)).shapeAtAddr
        (ShapeTestCylinderScene Real.sqrt (fun _ => (1 : ℝ)) ⟨0, 0⟩ 800 600
          (Device.fresh ℝ)).d_world = some (Shape.ShapeList n) ∧
      ∀ i, i < n → (ShapeTestCylinderScene Real.sqrt (fun _ => (1 : ℝ)) ⟨0, 0⟩ 800 600
        (Device.fresh ℝ)).HollowOK i :=
  (negative_radius_only_in_shells Real.sqrt (fun _ => (1 : ℝ))
    (fun _ => ⟨zero_lt_one, le_refl _⟩) 800 600 (Device.fresh ℝ)).2.2

/-! ## C15: the rejection test of `SampleScene` -/

/-- The world after the final assignments is a `ShapeList` whose `numShapes` is the
count. -/
theorem Gen.finish_world {K : Type} (g : Gen K) :
    g.finish.shapeAtAddr g.finish.d_world = some (Shape.ShapeList g.curNum) := by
  simp [Gen.finish, Device.new, Device.shapeAtAddr]

/-- The final assignments leave every sphere in its slot. -/
theorem Gen.finish_sphereAt {K : Type} (g : Gen K) {i : ℕ} {x : Point3 K × K × Material K}
    (h : g.dev.sphereAt i = some x) : g.finish.sphereAt i = some x := by
  have hext : g.dev.Ext g.finish := by
    intro a o ha
    simp only [Gen.finish, Device.new]
    exact getElem?_append_of_some _ ha
  exact hext.ext_sphereAt rfl h

section Far
variable {K : Type} [LinearOrderedField K]

/-- In an extension, the slots from 1 up hold spheres centred farther than 0.9 from `p` if
the old ones did and the new ones do. -/
theorem Gen.Le.far (sqrt : K → K) (p : Point3 K) {g g' : Gen K} (h : g.Le g')
    (hold : ∀ i, 1 ≤ i → i < g.curNum →
      ∃ c r m, g.dev.sphereAt i = some (c, r, m) ∧ Vector3.Length sqrt (c - p) > 0.9)
    (hnew : ∀ i, g.curNum ≤ i → i < g'.curNum →
      ∃ c r m, g'.dev.sphereAt i = some (c, r, m) ∧ Vector3.Length sqrt (c - p) > 0.9) :
    ∀ i, 1 ≤ i → i < g'.curNum →
      ∃ c r m, g'.dev.sphereAt i = some (c, r, m) ∧ Vector3.Length sqrt (c - p) > 0.9 := by
  intro i h1 hi
  rcases lt_or_le i g.curNum with hlt | hge
  · obtain ⟨c, r, m, hs, hfar⟩ := hold i h1 hlt
    exact ⟨c, r, m, h.sphereAt hlt hs, hfar⟩
  · exact hnew i hge hi

theorem far_pushSphere (sqrt : K → K) (p : Point3 K) (g : Gen K) (c : Point3 K) (r : K)
    (m : Material K) (hc : Vector3.Length sqrt (c - p) > 0.9)
    (hold : ∀ i, 1 ≤ i → i < g.curNum →
      ∃ c r m, g.dev.sphereAt i = some (c, r, m) ∧ Vector3.Length sqrt (c - p) > 0.9) :
    ∀ i, 1 ≤ i → i < (g.pushSphere c r m).curNum →
      ∃ c' r' m', (g.pushSphere c r m).dev.sphereAt i = some (c', r', m') ∧
        Vector3.Length sqrt (c' - p) > 0.9 := by
  refine (Gen.le_pushSphere g c r m).far sqrt p hold (fun i hge hlt => ?_)
  have hi : i = g.curNum := le_antisymm (Nat.lt_succ_iff.1 hlt) hge
  subst hi
  exact ⟨c, r, m, Gen.pushSphere_sphereAt_self g c r m, hc⟩

theorem far_placeSpheres (sqrt : K → K) (p : Point3 K) (rnd : ℕ → K) (u : K) (c : Point3 K)
    (r rin : K) (g : Gen K) (hc : Vector3.Length sqrt (c - p) > 0.9)
    (hold : ∀ i, 1 ≤ i → i < g.curNum →
      ∃ c r m, g.dev.sphereAt i = some (c, r, m) ∧ Vector3.Length sqrt (c - p) > 0.9) :
    ∀ i, 1 ≤ i → i < (placeSpheres rnd u c r rin g).curNum →
      ∃ c' r' m', (placeSpheres rnd u c r rin g).dev.sphereAt i = some (c', r', m') ∧
        Vector3.Length sqrt (c' - p) > 0.9 := by
  rcases placeSpheres_cases rnd u c r rin g with ⟨k, m, h⟩ | h
  · rw [h]
    exact far_pushSphere sqrt p _ c r m hc hold
  · rw [h]
    exact far_pushSphere sqrt p _ c rin _ hc (far_pushSphere sqrt p g c r _ hc hold)

theorem far_SampleScene_body (sqrt : K → K) (rnd : ℕ → K) (a b : ℤ) (g : Gen K)
    (hold : ∀ i, 1 ≤ i → i < g.curNum →
      ∃ c r m, g.dev.sphereAt i = some (c, r, m) ∧
        Vector3.Length sqrt (c - (⟨4, 0.2, 0⟩ : Point3 K)) > 0.9) :
    ∀ i, 1 ≤ i → i < (SampleScene.body sqrt rnd a b g).curNum →
      ∃ c r m, (SampleScene.body sqrt rnd a b g).dev.sphereAt i = some (c, r, m) ∧
        Vector3.Length sqrt (c - (⟨4, 0.2, 0⟩ : Point3 K)) > 0.9 := by
  unfold SampleScene.body
  simp only
  split_ifs with hacc
  · exact far_placeSpheres sqrt _ rnd _ _ _ _ _ hacc hold
  · exact hold

theorem le_SampleScene_body (sqrt : K → K) (rnd : ℕ → K) (a b : ℤ) (g : Gen K) :
    g.Le (SampleScene.body sqrt rnd a b g) := by
  unfold SampleScene.body
  simp only
  split_ifs
  · exact (Gen.le_advance g 3).trans (le_placeSpheres rnd _ _ _ _ _)
  · exact Gen.le_advance g 3

/-- The state of `SampleScene` after its two loops: the count is at least 1 and every slot
from 1 up holds a sphere centred farther than 0.9 from `(4, 0.2, 0)`. -/
theorem far_SampleScene_loops (sqrt : K → K) (rnd : ℕ → K) (g : Gen K) (h1 : 1 ≤ g.curNum)
    (hold : ∀ i, 1 ≤ i → i < g.curNum →
      ∃ c r m, g.dev.sphereAt i = some (c, r, m) ∧
        Vector3.Length sqrt (c - (⟨4, 0.2, 0⟩ : Point3 K)) > 0.9) :
    1 ≤ (SampleScene.loops sqrt rnd g).curNum ∧
      ∀ i, 1 ≤ i → i < (SampleScene.loops sqrt rnd g).curNum →
        ∃ c r m, (SampleScene.loops sqrt rnd g).dev.sphereAt i = some (c, r, m) ∧
          Vector3.Length sqrt (c - (⟨4, 0.2, 0⟩ : Point3 K)) > 0.9 := by
  unfold SampleScene.loops
  refine forLoop_induction _ _ _
    (fun g : Gen K => 1 ≤ g.curNum ∧ ∀ i, 1 ≤ i → i < g.curNum →
      ∃ c r m, g.dev.sphereAt i = some (c, r, m) ∧
        Vector3.Length sqrt (c - (⟨4, 0.2, 0⟩ : Point3 K)) > 0.9)
    (fun a g hg => ?_) _ _ _ ⟨h1, hold⟩
  refine forLoop_induction _ _ _
    (fun g : Gen K => 1 ≤ g.curNum ∧ ∀ i, 1 ≤ i → i < g.curNum →
      ∃ c r m, g.dev.sphereAt i = some (c, r, m) ∧
        Vector3.Length sqrt (c - (⟨4, 0.2, 0⟩ : Point3 K)) > 0.9)
    (fun b g hg => ?_) _ _ _ hg
  exact ⟨le_trans hg.1 (le_SampleScene_body sqrt rnd a b g).1,
    far_SampleScene_body sqrt rnd a b g hg.2⟩

/-- C15 (as amended): in `SampleScene`, the world is a `ShapeList` of `n ≥ 4` shapes, and
every small sphere that is placed (slots 1 to `n - 4`, between the ground sphere and the
three feature spheres) has its centre farther than 0.9 from `(4, 0.2, 0)`; a candidate
centre that is not farther than 0.9 from that point is rejected and adds no shape. -/
theorem small_spheres_clear_of_feature (sqrt : K → K) (rnd : ℕ → K) (width height : ℤ)
    (st : Device K) (a b : ℤ) (g : Gen K) :
    (∃ n : ℕ, (SampleScene sqrt rnd ⟨0, 0⟩ width height st).shapeAtAddr
        (SampleScene sqrt rnd ⟨0, 0⟩ width height st).d_world = some (Shape.ShapeList n) ∧
      4 ≤ n ∧
      ∀ i, 1 ≤ i → i + 3 < n →
        ∃ c r m, (SampleScene sqrt rnd ⟨0, 0⟩ width height st).sphereAt i =
            some (c, r, m) ∧
          Vector3.Length sqrt (c - (⟨4, 0.2, 0⟩ : Point3 K)) > 0.9) ∧
    (¬ Vector3.Length sqrt
        ((⟨a + 0.9 * rnd (g.local_rand_state + 1), 0.2,
            b + 0.9 * rnd (g.local_rand_state + 2)⟩ : Point3 K) -
          (⟨4, 0.2, 0⟩ : Point3 K)) > 0.9 →
      SampleScene.body sqrt rnd a b g = g.advance 3) := by
  have hd : (ThreadId.mk 0 0).designated := ⟨rfl, rfl⟩
  constructor
  · rw [SampleScene, if_pos hd]
    unfold SampleScene.gen
    simp only [Device.new]
    generalize hg0 : (Gen.mk _ 0 st.rand_state : Gen K).pushSphere ⟨0, -1000, 0⟩ 1000
      (Material.Lambertian ⟨0.5, 0.5, 0.5⟩) = g0
    have hg0c : g0.curNum = 1 := by rw [← hg0]; rfl
    obtain ⟨hl1, hlfar⟩ := far_SampleScene_loops sqrt rnd g0 hg0c.ge
      (fun i h1 hi => absurd hi (by omega))
    generalize SampleScene.loops sqrt rnd g0 = gl at hl1 hlfar
    have hle : gl.Le (((gl.pushSphere ⟨0, 1, 0⟩ 1.0 (Material.Dielectric 1.5)).pushSphere
        ⟨-4, 1, 0⟩ 1.0 (Material.Lambertian ⟨0.4, 0.2, 0.1⟩)).pushSphere ⟨4, 1, 0⟩ 1.0
        (Material.Metal ⟨0.7, 0.6, 0.5⟩ 0.0)) :=
      ((Gen.le_pushSphere _ _ _ _).trans (Gen.le_pushSphere _ _ _ _)).trans
        (Gen.le_pushSphere _ _ _ _)
    refine ⟨gl.curNum + 3, Gen.finish_world _, by omega, fun i h1 hi => ?_⟩
    have hlt : i < gl.curNum := by omega
    obtain ⟨c, r, m, hs, hfar⟩ := hlfar i h1 hlt
    exact ⟨c, r, m, Gen.finish_sphereAt _ (hle.sphereAt hlt hs), hfar⟩
  · intro hrej
    unfold SampleScene.body
    simp only
    rw [if_neg hrej]

end Far

section Visits
variable {K : Type} [LinearOrderedField K]

/-- An `int` loop with step 1 reaches every value `a0` between its start and its stop, if
it has the fuel: the state `s'` in which the body is run for `a0` is related to the
initial state, and the state after that run to the final state, for any relation that is
reflexive, transitive and holds across the body. -/
theorem forLoop_int_visits {σ : Type} (body : ℤ → σ → σ) (R : σ → σ → Prop)
    (hrefl : ∀ s, R s s) (htrans : ∀ s1 s2 s3, R s1 s2 → R s2 s3 → R s1 s3)
    (hbody : ∀ a s, R s (body a s)) (stop a0 : ℤ) :
    ∀ (fuel : ℕ) (start : ℤ) (s : σ), start ≤ a0 → a0 < stop → (a0 - start).toNat < fuel →
      ∃ s', R s s' ∧ R (body a0 s') (forLoop stop 1 body fuel start s) := by
  intro fuel
  induction fuel with
  | zero =>
    intro start s _ _ h
    exact absurd h (Nat.not_lt_zero _)
  | succ n ih =>
    intro start s h1 h2 h3
    have hlt : start < stop := lt_of_le_of_lt h1 h2
    unfold forLoop
    rw [if_pos hlt]
    rcases eq_or_lt_of_le h1 with heq | hne
    · subst heq
      exact ⟨s, hrefl s, forLoop_induction stop 1 body (fun t => R (body start s) t)
        (fun a t ht => htrans _ _ _ ht (hbody a t)) n _ _ (hrefl _)⟩
    · obtain ⟨s', hs1, hs2⟩ := ih (start + 1) (body start s) (by omega) h2 (by omega)
      exact ⟨s', htrans _ _ _ (hbody start s) hs1, hs2⟩

/-- Comparison with an exact square root: `c < sqrt x` is `c² < x`. -/
theorem IsSqrt.lt_iff {sqrt : K → K} (hs : IsSqrt sqrt) {c x : K} (hc : 0 ≤ c) (hx : 0 ≤ x) :
    c < sqrt x ↔ c * c < x := by
  obtain ⟨h0, h1⟩ := hs x hx
  constructor
  · intro h
    calc c * c < sqrt x * sqrt x := mul_self_lt_mul_self hc h
      _ = x := h1
  · intro h
    by_contra hcon
    have hle : sqrt x ≤ c := not_lt.1 hcon
    have : sqrt x * sqrt x ≤ c * c := mul_self_le_mul_self h0 hle
    rw [h1] at this
    exact absurd h (not_lt.2 this)

theorem le_SampleScene_inner (sqrt : K → K) (rnd : ℕ → K) (a : ℤ) (fuel : ℕ) (start : ℤ)
    (g : Gen K) :
    g.Le (forLoop (11 : ℤ) 1 (fun b g => SampleScene.body sqrt rnd a b g) fuel start g) :=
  forLoop_induction _ _ _ (fun t : Gen K => g.Le t)
    (fun b t ht => ht.trans (le_SampleScene_body sqrt rnd a b t)) fuel start g (Gen.Le.refl g)

end Visits

/-- A squared length is not negative. -/
theorem Vector3.LengthSquared_nonneg {K : Type} [LinearOrderedField K] (v : Vector3 K) :
    0 ≤ v.LengthSquared := by
  unfold Vector3.LengthSquared
  nlinarith [mul_self_nonneg v.x, mul_self_nonneg v.y, mul_self_nonneg v.z]

/-- Witness of C15 (as amended): over the reals with every draw equal to 1/10, the
candidate of the iteration `a = 4`, `b = 0` is `(4.09, 0.2, 0.09)`, which is within 0.9 of
`(4, 0.2, 0)`; the iteration adds no shape. -/
theorem small_spheres_clear_of_feature_witness :
    SampleScene.body Real.sqrt (fun _ => (1 / 10 : ℝ)) 4 0 ⟨Device.fresh ℝ, 1, 0⟩ =
      (⟨Device.fresh ℝ, 1, 0⟩ : Gen ℝ).advance 3 :=
  (small_spheres_clear_of_feature Real.sqrt (fun _ => (1 / 10 : ℝ)) 800 600 (Device.fresh ℝ)
    4 0 ⟨Device.fresh ℝ, 1, 0⟩).2 (by
      rw [gt_iff_lt, Vector3.Length, isSqrt_real.lt_iff (by norm_num)
        (Vector3.LengthSquared_nonneg _)]
      simp only [Vector3.LengthSquared]
      show ¬ _ < (_ - _) * (_ - _) + (_ - _) * (_ - _) + (_ - _) * (_ - _)
      norm_num)

/-- C15 as stated fails: over the reals with every draw equal to 1/10, `SampleScene` places
in the iteration `a = 0`, `b = 0` a small sphere centred at `(0.09, 0.2, 0.09)`, which is
within 0.9 of `(0, 0.2, 0)`, the ground position of the first feature sphere; only the
distance to `(4, 0.2, 0)` is tested. -/
theorem small_spheres_clear_of_feature_counterexample :
    ∃ (n i : ℕ) (r : ℝ) (m : Material ℝ),
      (SampleScene Real.sqrt (fun _ => (1 / 10 : ℝ)) ⟨0, 0⟩ 800 600
          (Device.fresh ℝ)).shapeAtAddr
        (SampleScene Real.sqrt (fun _ => (1 / 10 : ℝ)) ⟨0, 0⟩ 800 600
          (Device.fresh ℝ)).d_world = some (Shape.ShapeList n) ∧
      1 ≤ i ∧ i + 3 < n ∧
      (SampleScene Real.sqrt (fun _ => (1 / 10 : ℝ)) ⟨0, 0⟩ 800 600
          (Device.fresh ℝ)).sphereAt i = some (⟨0.09, 0.2, 0.09⟩, r, m) ∧
      Vector3.Length Real.sqrt
        ((⟨0.09, 0.2, 0.09⟩ : Point3 ℝ) - (⟨0, 0.2, 0⟩ : Point3 ℝ)) ≤ 0.9 := by
  have hd : (ThreadId.mk 0 0).designated := ⟨rfl, rfl⟩
  rw [SampleScene, if_pos hd]
  unfold SampleScene.gen
  simp only [Device.new]
  generalize hg0 : (Gen.mk _ 0 (Device.fresh ℝ).rand_state : Gen ℝ).pushSphere ⟨0, -1000, 0⟩
    1000 (Material.Lambertian ⟨0.5, 0.5, 0.5⟩) = g0
  have hg0c : g0.curNum = 1 := by rw [← hg0]; rfl
  -- the outer loop reaches `a = 0`, the inner loop reaches `b = 0`
  obtain ⟨g1, h01, h1l⟩ := forLoop_int_visits
    (fun a g => forLoop (11 : ℤ) 1
      (fun b g => SampleScene.body Real.sqrt (fun _ => (1 / 10 : ℝ)) a b g) 23 (-11) g)
    Gen.Le Gen.Le.refl (fun _ _ _ h h' => h.trans h')
    (fun a g => le_SampleScene_inner Real.sqrt _ a 23 (-11) g) 11 0 23 (-11) g0
    (by norm_num) (by norm_num) (by decide)
  obtain ⟨g2, h12, h2l⟩ := forLoop_int_visits
    (fun b g => SampleScene.body Real.sqrt (fun _ => (1 / 10 : ℝ)) 0 b g)
    Gen.Le Gen.Le.refl (fun _ _ _ h h' => h.trans h')
    (fun b g => le_SampleScene_body Real.sqrt _ 0 b g) 11 0 23 (-11) g1
    (by norm_num) (by norm_num) (by decide)
  have hbl : (SampleScene.body Real.sqrt (fun _ => (1 / 10 : ℝ)) 0 0 g2).Le
      (SampleScene.loops Real.sqrt (fun _ => (1 / 10 : ℝ)) g0) := h2l.trans h1l
  have hg2c : 1 ≤ g2.curNum := hg0c ▸ le_trans h01.1 h12.1
  -- the iteration `a = 0`, `b = 0` places a Lambertian sphere at `(0.09, 0.2, 0.09)`
  have hbody : SampleScene.body Real.sqrt (fun _ => (1 / 10 : ℝ)) 0 0 g2 =
      ((g2.advance 3).advance 6).pushSphere ⟨0.09, 0.2, 0.09⟩ 0.2
        (Material.Lambertian ⟨1 / 10 * (1 / 10), 1 / 10 * (1 / 10), 1 / 10 * (1 / 10)⟩) := by
    unfold SampleScene.body
    simp only
    rw [if_pos]
    · unfold placeSpheres
      simp only
      rw [if_pos (by norm_num)]
      norm_num
    · rw [gt_iff_lt, Vector3.Length, isSqrt_real.lt_iff (by norm_num)
        (Vector3.LengthSquared_nonneg _)]
      simp only [Vector3.LengthSquared]
      show _ < (_ - _) * (_ - _) + (_ - _) * (_ - _) + (_ - _) * (_ - _)
      norm_num
  rw [hbody] at hbl
  generalize SampleScene.loops Real.sqrt (fun _ => (1 / 10 : ℝ)) g0 = gl at hbl
  have hle : gl.Le (((gl.pushSphere ⟨0, 1, 0⟩ 1.0 (Material.Dielectric 1.5)).pushSphere
      ⟨-4, 1, 0⟩ 1.0 (Material.Lambertian ⟨0.4, 0.2, 0.1⟩)).pushSphere ⟨4, 1, 0⟩ 1.0
      (Material.Metal ⟨0.7, 0.6, 0.5⟩ 0.0)) :=
    ((Gen.le_pushSphere _ _ _ _).trans (Gen.le_pushSphere _ _ _ _)).trans
      (Gen.le_pushSphere _ _ _ _)
  have hcur : g2.curNum + 1 ≤ gl.curNum := hbl.1
  refine ⟨gl.curNum + 3, g2.curNum, 0.2,
    Material.Lambertian ⟨1 / 10 * (1 / 10), 1 / 10 * (1 / 10), 1 / 10 * (1 / 10)⟩,
    Gen.finish_world _, hg2c, by omega, ?_, ?_⟩
  · refine Gen.finish_sphereAt _ ((hbl.trans hle).sphereAt (Nat.lt_succ_self _) ?_)
    exact Gen.pushSphere_sphereAt_self _ _ _ _
  · rw [← not_lt, Vector3.Length, isSqrt_real.lt_iff (by norm_num)
      (Vector3.LengthSquared_nonneg _)]
    simp only [Vector3.LengthSquared]
    show ¬ _ < (_ - _) * (_ - _) + (_ - _) * (_ - _) + (_ - _) * (_ - _)
    norm_num

/-! ## C21: the reductions of a vector -/

section Reductions
variable {T : Type} [LinearOrder T]

/-- On a total order `std::max` is the maximum. -/
theorem stdMax_eq_max (a b : T) : stdMax a b = max a b := by
  unfold stdMax
  split_ifs with h
  · exact (max_eq_right h.le).symm
  · exact (max_eq_left (not_lt.1 h)).symm

/-- On a total order `std::min` is the minimum. -/
theorem stdMin_eq_min (a b : T) : stdMin a b = min a b := by
  unfold stdMin
  split_ifs with h
  · exact (min_eq_right h.le).symm
  · exact (min_eq_left (not_lt.1 h)).symm

/-- On a total order `v[MaxDimension(v)]` is the maximum of the three components. -/
theorem Vector3.index_MaxDimension (v : Vector3 T) :
    v.index v.MaxDimension = some (max v.x (max v.y v.z)) := by
  obtain ⟨x, y, z⟩ := v
  simp only [Vector3.MaxDimension, gt_iff_lt]
  by_cases h1 : y < x
  · by_cases h2 : z < x
    · rw [if_pos h1, if_pos h2, max_eq_left (max_le h1.le h2.le)]
      rfl
    · rw [if_pos h1, if_neg h2, max_eq_right (h1.le.trans (not_lt.1 h2)),
        max_eq_right (not_lt.1 h2)]
      rfl
  · by_cases h2 : z < y
    · rw [if_neg h1, if_pos h2, max_eq_left h2.le, max_eq_right (not_lt.1 h1)]
      rfl
    · rw [if_neg h1, if_neg h2, max_eq_right (not_lt.1 h2),
        max_eq_right ((not_lt.1 h1).trans (not_lt.1 h2))]
      rfl

end Reductions

section FloatOrder

theorem Float.lt_iff_blt (a b : Float) : a < b ↔ Float.blt a b = true := Iff.rfl

theorem Float.le_iff_ble (a b : Float) : a ≤ b ↔ Float.ble a b = true := Iff.rfl

/-- The order `<` of the scalar model is asymmetric. -/
theorem Float.lt_asymm_model {a b : Float} (h : a < b) : ¬ b < a := by
  rw [Float.lt_iff_blt] at h ⊢
  cases a <;> cases b <;> simp_all [Float.blt]
  exact h.le

/-- Away from `NaN`, two values neither of which is below the other are equal. -/
theorem Float.eq_of_not_lt {a b : Float} (ha : a ≠ nan) (hb : b ≠ nan) (h1 : ¬ a < b)
    (h2 : ¬ b < a) : a = b := by
  rw [Float.lt_iff_blt] at h1 h2
  cases a <;> cases b <;> simp_all [Float.blt]
  exact le_antisymm h2 h1

/-- Away from `NaN`, "not below" is transitive. -/
theorem Float.not_lt_trans {a b c : Float} (hb : b ≠ nan) (h1 : ¬ a < b) (h2 : ¬ b < c) :
    ¬ a < c := by
  rw [Float.lt_iff_blt] at h1 h2 ⊢
  cases a <;> cases b <;> cases c <;> simp_all [Float.blt]
  exact h2.trans h1

/-- Away from `NaN`, "not below" is "at least". -/
theorem Float.le_of_not_lt {a b : Float} (ha : a ≠ nan) (hb : b ≠ nan) (h : ¬ a < b) :
    b ≤ a := by
  rw [Float.lt_iff_blt] at h
  rw [Float.le_iff_ble]
  cases a <;> cases b <;> simp_all [Float.blt, Float.ble]

/-- In the scalar model `<` implies `≤`. -/
theorem Float.le_of_lt_model {a b : Float} (h : a < b) : a ≤ b := by
  rw [Float.lt_iff_blt] at h
  rw [Float.le_iff_ble]
  cases a <;> cases b <;> simp_all [Float.blt, Float.ble]
  exact h.le

/-- Away from `NaN` the order `≤` of the scalar model is reflexive. -/
theorem Float.le_refl_of_ne_nan {a : Float} (ha : a ≠ nan) : a ≤ a := by
  rw [Float.le_iff_ble]
  cases a <;> simp_all [Float.ble]

/-- The order `≤` of the scalar model is transitive. -/
theorem Float.le_trans_model {a b c : Float} (h1 : a ≤ b) (h2 : b ≤ c) : a ≤ c := by
  rw [Float.le_iff_ble] at h1 h2 ⊢
  cases a <;> cases b <;> cases c <;> simp_all [Float.ble]
  exact h1.trans h2

/-- Away from `NaN`, `std::max` is one of its arguments and at least both. -/
theorem Float.stdMax_spec {a b : Float} (ha : a ≠ nan) (hb : b ≠ nan) :
    stdMax a b ≠ nan ∧ a ≤ stdMax a b ∧ b ≤ stdMax a b := by
  unfold stdMax
  by_cases h : a < b
  · rw [if_pos h]
    exact ⟨hb, Float.le_of_lt_model h, Float.le_refl_of_ne_nan hb⟩
  · rw [if_neg h]
    exact ⟨ha, Float.le_refl_of_ne_nan ha, Float.le_of_not_lt ha hb h⟩

/-- Away from `NaN`, `std::min` is one of its arguments and at most both. -/
theorem Float.stdMin_spec {a b : Float} (ha : a ≠ nan) (hb : b ≠ nan) :
    stdMin a b ≠ nan ∧ stdMin a b ≤ a ∧ stdMin a b ≤ b := by
  unfold stdMin
  by_cases h : b < a
  · rw [if_pos h]
    exact ⟨hb, Float.le_of_lt_model h, Float.le_refl_of_ne_nan hb⟩
  · rw [if_neg h]
    exact ⟨ha, Float.le_refl_of_ne_nan ha, Float.le_of_not_lt hb ha h⟩

/-- Away from `NaN`, `std::max` returns its second argument when the first is not above
it. -/
theorem Float.stdMax_eq_right {a b : Float} (ha : a ≠ nan) (hb : b ≠ nan) (h : ¬ b < a) :
    stdMax a b = b := by
  unfold stdMax
  by_cases h' : a < b
  · rw [if_pos h']
  · rw [if_neg h']
    exact Float.eq_of_not_lt ha hb h' h

/-- The function `std::max` returns its first argument when the second is below it. -/
theorem Float.stdMax_eq_left {a b : Float} (h : b < a) : stdMax a b = a := by
  unfold stdMax
  rw [if_neg (Float.lt_asymm_model h)]

/-- Away from `NaN`, `v[MaxDimension(v)]` is `MaxComponent(v)` in the scalar model. -/
theorem Float.index_MaxDimension_model {x y z : Float} (hx : x ≠ nan) (hy : y ≠ nan)
    (hz : z ≠ nan) :
    (Vector3.mk x y z).index (Vector3.mk x y z).MaxDimension =
      some (Vector3.mk x y z).MaxComponent := by
  simp only [Vector3.MaxDimension, Vector3.MaxComponent, gt_iff_lt]
  by_cases h1 : y < x
  · by_cases h2 : z < x
    · have hm : stdMax y z < x := by
        unfold stdMax
        split_ifs
        · exact h2
        · exact h1
      rw [if_pos h1, if_pos h2, Float.stdMax_eq_left hm]
      rfl
    · have h3 : ¬ z < y := fun h => h2 (by
        by_contra h4
        exact Float.not_lt_trans hx h4 (Float.lt_asymm_model h1) h)
      rw [if_pos h1, if_neg h2, Float.stdMax_eq_right hy hz h3,
        Float.stdMax_eq_right hx hz h2]
      rfl
  · by_cases h2 : z < y
    · rw [if_neg h1, if_pos h2, Float.stdMax_eq_left h2, Float.stdMax_eq_right hx hy h1]
      rfl
    · rw [if_neg h1, if_neg h2, Float.stdMax_eq_right hy hz h2,
        Float.stdMax_eq_right hx hz (Float.not_lt_trans hy h2 h1)]
      rfl

end FloatOrder

/-- C21: for every `Vector3` `v` over a totally ordered scalar type, and for every
`Vector3f` `w` without a NaN component, `MaxDimension` is an index in `{0, 1, 2}` of a
largest component, `v[MaxDimension(v)] = MaxComponent(v)`, and
`MinComponent(v) ≤` every component `≤ MaxComponent(v)`. -/
theorem MaxDimension_indexes_MaxComponent {T : Type} [LinearOrder T] (v : Vector3 T)
    (w : Vector3 Float) :
    ((v.MaxDimension = 0 ∨ v.MaxDimension = 1 ∨ v.MaxDimension = 2) ∧
      v.index v.MaxDimension = some v.MaxComponent ∧
      (v.MinComponent ≤ v.x ∧ v.MinComponent ≤ v.y ∧ v.MinComponent ≤ v.z) ∧
      (v.x ≤ v.MaxComponent ∧ v.y ≤ v.MaxComponent ∧ v.z ≤ v.MaxComponent)) ∧
    (w.HasNaNs = false →
      (w.MaxDimension = 0 ∨ w.MaxDimension = 1 ∨ w.MaxDimension = 2) ∧
      w.index w.MaxDimension = some w.MaxComponent ∧
      (w.MinComponent ≤ w.x ∧ w.MinComponent ≤ w.y ∧ w.MinComponent ≤ w.z) ∧
      (w.x ≤ w.MaxComponent ∧ w.y ≤ w.MaxComponent ∧ w.z ≤ w.MaxComponent)) := by
  constructor
  · refine ⟨?_, ?_, ?_, ?_⟩
    · unfold Vector3.MaxDimension
      split_ifs <;> simp
    · rw [Vector3.index_MaxDimension, Vector3.MaxComponent, stdMax_eq_max, stdMax_eq_max]
    · simp only [Vector3.MinComponent, stdMin_eq_min]
      exact ⟨min_le_left _ _, (min_le_right _ _).trans (min_le_left _ _),
        (min_le_right _ _).trans (min_le_right _ _)⟩
    · simp only [Vector3.MaxComponent, stdMax_eq_max]
      exact ⟨le_max_left _ _, (le_max_left _ _).trans (le_max_right _ _),
        (le_max_right _ _).trans (le_max_right _ _)⟩
  · obtain ⟨a, b, c⟩ := w
    intro hw
    have ha : a ≠ nan := by rintro rfl; simp [Vector3.HasNaNs, IsNaN.isNaN, Float.isNaN] at hw
    have hb : b ≠ nan := by rintro rfl; simp [Vector3.HasNaNs, IsNaN.isNaN, Float.isNaN] at hw
    have hc : c ≠ nan := by rintro rfl; simp [Vector3.HasNaNs, IsNaN.isNaN, Float.isNaN] at hw
    obtain ⟨hm, hm1, hm2⟩ := Float.stdMax_spec hb hc
    obtain ⟨hn, hn1, hn2⟩ := Float.stdMin_spec hb hc
    refine ⟨?_, Float.index_MaxDimension_model ha hb hc, ⟨?_, ?_, ?_⟩, ?_, ?_, ?_⟩
    · unfold Vector3.MaxDimension
      split_ifs <;> simp
    · exact (Float.stdMin_spec ha hn).2.1
    · exact Float.le_trans_model (Float.stdMin_spec ha hn).2.2 hn1
    · exact Float.le_trans_model (Float.stdMin_spec ha hn).2.2 hn2
    · exact (Float.stdMax_spec ha hm).2.1
    · exact Float.le_trans_model hm1 (Float.stdMax_spec ha hm).2.2
    · exact Float.le_trans_model hm2 (Float.stdMax_spec ha hm).2.2

/-- Witness of C21: the integer vector `(3, 1, 2)` and the `Vector3f` `(1, +∞, 2)`, whose
largest component `+∞` has index 1. -/
theorem MaxDimension_indexes_MaxComponent_witness :
    (Vector3.mk (fin 1) pinf (fin 2)).HasNaNs = false ∧
      (Vector3.mk (fin 1) pinf (fin 2)).MaxDimension = 1 ∧
      (Vector3.mk (fin 1) pinf (fin 2)).index (Vector3.mk (fin 1) pinf (fin 2)).MaxDimension =
        some (Vector3.mk (fin 1) pinf (fin 2)).MaxComponent :=
  ⟨rfl, by simp [Vector3.MaxDimension],
    ((MaxDimension_indexes_MaxComponent (Vector3.mk (3 : ℤ) 1 2)
      ⟨fin 1, pinf, fin 2⟩).2 rfl).2.1⟩

/-! ## C22: random points in the unit sphere and the unit disk -/

theorem Vector3.sub_mk {T : Type} [Sub T] (a b c d e f : T) :
    Vector3.mk a b c - Vector3.mk d e f = Vector3.mk (a - d) (b - e) (c - f) := rfl

theorem Vector3.scalarMul_mk {T : Type} [Mul T] (s a b c : T) :
    Vector3.scalarMul s (Vector3.mk a b c) = Vector3.mk (s * a) (s * b) (s * c) := rfl

section RandomPoints
variable {K : Type} [LinearOrderedField K]

/-- Whatever the loop of `RandomInUnitSphere` returns has failed the loop test. -/
theorem RandomInUnitSphere.loop_inside (rnd : ℕ → K) (fuel : ℕ) :
    ∀ (n : ℕ) (p : Vector3 K) (m : ℕ), RandomInUnitSphere.loop rnd fuel n = some (p, m) →
      Vector3.Dot p p < 1 := by
  induction fuel with
  | zero => intro n p m h; simp [RandomInUnitSphere.loop] at h
  | succ f ih =>
    intro n p m h
    simp only [RandomInUnitSphere.loop] at h
    split_ifs at h with hc
    · exact ih _ _ _ h
    · simp only [Option.some.injEq, Prod.mk.injEq] at h
      rw [← h.1]
      have h1 : (1.0 : K) = 1 := by norm_num
      rw [ge_iff_le, not_le, h1] at hc
      exact hc

/-- Whatever the loop of `RandomInUnitDisk` returns has failed the loop test and has
`z = 0`. -/
theorem RandomInUnitDisk.loop_inside_disk (rnd : ℕ → K) (fuel : ℕ) :
    ∀ (n : ℕ) (p : Vector3 K) (m : ℕ), RandomInUnitDisk.loop rnd fuel n = some (p, m) →
      Vector3.Dot p p < 1 ∧ p.z = 0 := by
  induction fuel with
  | zero => intro n p m h; simp [RandomInUnitDisk.loop] at h
  | succ f ih =>
    intro n p m h
    simp only [RandomInUnitDisk.loop] at h
    split_ifs at h with hc
    · exact ih _ _ _ h
    · simp only [Option.some.injEq, Prod.mk.injEq] at h
      rw [← h.1]
      have h1 : (1.0 : K) = 1 := by norm_num
      rw [ge_iff_le, not_le, h1] at hc
      refine ⟨hc, ?_⟩
      show (2.0 : K) * 0 - 0 = 0
      simp

/-- The candidates of a loop started three draws later are the later candidates. -/
theorem RandomInUnitSphere.candidate_shift (rnd : ℕ → K) (n j : ℕ) :
    RandomInUnitSphere.candidate rnd (n + 3) j = RandomInUnitSphere.candidate rnd n (j + 1) := by
  have h : n + 3 + 3 * j = n + 3 * (j + 1) := by ring
  simp only [RandomInUnitSphere.candidate, h]

/-- The candidates of a loop started two draws later are the later candidates. -/
theorem RandomInUnitDisk.candidate_shift_disk (rnd : ℕ → K) (n j : ℕ) :
    RandomInUnitDisk.candidate rnd (n + 2) j = RandomInUnitDisk.candidate rnd n (j + 1) := by
  have h : n + 2 + 2 * j = n + 2 * (j + 1) := by ring
  simp only [RandomInUnitDisk.candidate, h]

/-- One pass of the loop of `RandomInUnitSphere`, in terms of its first candidate. -/
theorem RandomInUnitSphere.loop_succ (rnd : ℕ → K) (f n : ℕ) :
    RandomInUnitSphere.loop rnd (f + 1) n =
      if Vector3.Dot (RandomInUnitSphere.candidate rnd n 0) (RandomInUnitSphere.candidate rnd n 0) ≥ 1 then
        RandomInUnitSphere.loop rnd f (n + 3)
      else some (RandomInUnitSphere.candidate rnd n 0, n + 3) := by
  have h1 : (1 : K) = 1.0 := by norm_num
  rw [h1]
  rfl

/-- The loop of `RandomInUnitSphere` returns the first candidate that fails the loop
test. -/
theorem RandomInUnitSphere.loop_first (rnd : ℕ → K) (j : ℕ) :
    ∀ (fuel n : ℕ), j < fuel →
      (∀ i, i < j → Vector3.Dot (RandomInUnitSphere.candidate rnd n i)
        (RandomInUnitSphere.candidate rnd n i) ≥ 1) →
      Vector3.Dot (RandomInUnitSphere.candidate rnd n j)
        (RandomInUnitSphere.candidate rnd n j) < 1 →
      RandomInUnitSphere.loop rnd fuel n =
        some (RandomInUnitSphere.candidate rnd n j, n + 3 * (j + 1)) := by
  induction j with
  | zero =>
    intro fuel n hf _ hj
    obtain ⟨f, rfl⟩ := Nat.exists_eq_succ_of_ne_zero hf.ne.symm
    rw [RandomInUnitSphere.loop_succ, if_neg (not_le.2 hj)]
  | succ j ih =>
    intro fuel n hf hlt hj
    obtain ⟨f, rfl⟩ := Nat.exists_eq_succ_of_ne_zero (Nat.not_eq_zero_of_lt hf)
    have h0 := hlt 0 (Nat.succ_pos j)
    rw [RandomInUnitSphere.loop_succ, if_pos h0, ih f (n + 3) (Nat.lt_of_succ_lt_succ hf)
      (fun i hi => by
        rw [RandomInUnitSphere.candidate_shift]; exact hlt (i + 1) (Nat.succ_lt_succ hi))
      (by rw [RandomInUnitSphere.candidate_shift]; exact hj),
      RandomInUnitSphere.candidate_shift]
    congr 2
    ring

/-- One pass of the loop of `RandomInUnitDisk`, in terms of its first candidate. -/
theorem RandomInUnitDisk.loop_succ_disk (rnd : ℕ → K) (f n : ℕ) :
    RandomInUnitDisk.loop rnd (f + 1) n =
      if Vector3.Dot (RandomInUnitDisk.candidate rnd n 0) (RandomInUnitDisk.candidate rnd n 0) ≥ 1 then
        RandomInUnitDisk.loop rnd f (n + 2)
      else some (RandomInUnitDisk.candidate rnd n 0, n + 2) := by
  have h1 : (1 : K) = 1.0 := by norm_num
  rw [h1]
  rfl

/-- The loop of `RandomInUnitDisk` returns the first candidate that fails the loop test. -/
theorem RandomInUnitDisk.loop_first_disk (rnd : ℕ → K) (j : ℕ) :
    ∀ (fuel n : ℕ), j < fuel →
      (∀ i, i < j → Vector3.Dot (RandomInUnitDisk.candidate rnd n i)
        (RandomInUnitDisk.candidate rnd n i) ≥ 1) →
      Vector3.Dot (RandomInUnitDisk.candidate rnd n j)
        (RandomInUnitDisk.candidate rnd n j) < 1 →
      RandomInUnitDisk.loop rnd fuel n =
        some (RandomInUnitDisk.candidate rnd n j, n + 2 * (j + 1)) := by
  induction j with
  | zero =>
    intro fuel n hf _ hj
    obtain ⟨f, rfl⟩ := Nat.exists_eq_succ_of_ne_zero hf.ne.symm
    rw [RandomInUnitDisk.loop_succ_disk, if_neg (not_le.2 hj)]
  | succ j ih =>
    intro fuel n hf hlt hj
    obtain ⟨f, rfl⟩ := Nat.exists_eq_succ_of_ne_zero (Nat.not_eq_zero_of_lt hf)
    have h0 := hlt 0 (Nat.succ_pos j)
    rw [RandomInUnitDisk.loop_succ_disk, if_pos h0, ih f (n + 2) (Nat.lt_of_succ_lt_succ hf)
      (fun i hi => by
        rw [RandomInUnitDisk.candidate_shift_disk]; exact hlt (i + 1) (Nat.succ_lt_succ hi))
      (by rw [RandomInUnitDisk.candidate_shift_disk]; exact hj),
      RandomInUnitDisk.candidate_shift_disk]
    congr 2
    ring


/-- C22: for every stream of draws, whenever `RandomInUnitSphere` returns a point it lies
strictly inside the unit sphere, and whenever `RandomInUnitDisk` returns a point it lies
strictly inside the unit disk of the plane `z = 0`; and each returns, given `fuel` passes,
the first candidate that satisfies its test, if that is among the first `fuel`. -/
theorem random_point_strictly_inside (rnd : ℕ → K) (fuel n : ℕ) :
    (∀ p m, RandomInUnitSphere rnd fuel n = some (p, m) →
      p.x * p.x + p.y * p.y + p.z * p.z < 1) ∧
    (∀ p m, RandomInUnitDisk rnd fuel n = some (p, m) →
      p.x * p.x + p.y * p.y < 1 ∧ p.z = 0) ∧
    (∀ j, j < fuel →
      (∀ i, i < j → Vector3.Dot (RandomInUnitSphere.candidate rnd n i)
        (RandomInUnitSphere.candidate rnd n i) ≥ 1) →
      Vector3.Dot (RandomInUnitSphere.candidate rnd n j)
        (RandomInUnitSphere.candidate rnd n j) < 1 →
      RandomInUnitSphere rnd fuel n =
        some (Point3.ofVector (RandomInUnitSphere.candidate rnd n j), n + 3 * (j + 1))) ∧
    (∀ j, j < fuel →
      (∀ i, i < j → Vector3.Dot (RandomInUnitDisk.candidate rnd n i)
        (RandomInUnitDisk.candidate rnd n i) ≥ 1) →
      Vector3.Dot (RandomInUnitDisk.candidate rnd n j)
        (RandomInUnitDisk.candidate rnd n j) < 1 →
      RandomInUnitDisk rnd fuel n =
        some (Point3.ofVector (RandomInUnitDisk.candidate rnd n j), n + 2 * (j + 1))) := by
  refine ⟨?_, ?_, ?_, ?_⟩
  · intro p m h
    simp only [RandomInUnitSphere, Option.map_eq_some', Prod.mk.injEq] at h
    obtain ⟨⟨v, k⟩, hv, rfl, -⟩ := h
    exact RandomInUnitSphere.loop_inside rnd fuel n v k hv
  · intro p m h
    simp only [RandomInUnitDisk, Option.map_eq_some', Prod.mk.injEq] at h
    obtain ⟨⟨v, k⟩, hv, rfl, -⟩ := h
    obtain ⟨h1, h2⟩ := RandomInUnitDisk.loop_inside_disk rnd fuel n v k hv
    refine ⟨?_, h2⟩
    have h3 : v.x * v.x + v.y * v.y + v.z * v.z < 1 := h1
    rw [h2, mul_zero, add_zero] at h3
    exact h3
  · intro j hj hlt hin
    rw [RandomInUnitSphere, RandomInUnitSphere.loop_first rnd j fuel n hj hlt hin]
    rfl
  · intro j hj hlt hin
    rw [RandomInUnitDisk, RandomInUnitDisk.loop_first_disk rnd j fuel n hj hlt hin]
    rfl

end RandomPoints

/-- Witness of C22: over the rationals, with the first three draws equal to 1 and all later
draws equal to 1/2, the first candidate of `RandomInUnitSphere` is `(1, 1, 1)`, outside the
sphere, and the second is `(0, 0, 0)`, which is returned after six draws. -/
theorem random_point_strictly_inside_witness :
    RandomInUnitSphere (fun i => if i < 3 then (1 : ℚ) else 1 / 2) 2 0 =
      some (⟨0, 0, 0⟩, 6) := by
  have h := (random_point_strictly_inside (fun i => if i < 3 then (1 : ℚ) else 1 / 2) 2 0).2.2.1
    1 (by decide)
    (fun i hi => by
      obtain rfl : i = 0 := by omega
      norm_num [RandomInUnitSphere.candidate, Vector3.Dot, Vector3.scalarMul_mk,
        Vector3.sub_mk])
    (by
      norm_num [RandomInUnitSphere.candidate, Vector3.Dot, Vector3.scalarMul_mk,
        Vector3.sub_mk])
  rw [h]
  norm_num [RandomInUnitSphere.candidate, Point3.ofVector, Vector3.scalarMul_mk,
    Vector3.sub_mk]

/-! ## C24: when `Normalize` fails -/

section NormalizeZero
variable {K : Type} [LinearOrderedField K]

/-- The square root of a non-negative number is zero exactly when the number is. -/
theorem IsSqrt.eq_zero_iff {sqrt : K → K} (hs : IsSqrt sqrt) {x : K} (hx : 0 ≤ x) :
    sqrt x = 0 ↔ x = 0 := by
  obtain ⟨-, h1⟩ := hs x hx
  constructor
  · intro h
    rw [h, mul_zero] at h1
    exact h1.symm
  · intro h
    rw [h] at h1 ⊢
    exact mul_self_eq_zero.1 h1

/-- A sum of three squares is zero exactly when the three numbers are. -/
theorem sq_sum3_eq_zero_iff (x y z : K) :
    x * x + y * y + z * z = 0 ↔ x = 0 ∧ y = 0 ∧ z = 0 := by
  constructor
  · intro h
    by_contra hcon
    have hne : x ≠ 0 ∨ y ≠ 0 ∨ z ≠ 0 := by
      by_contra hall
      push_neg at hall
      exact hcon hall
    exact absurd h (sq_sum3_pos hne).ne.symm
  · rintro ⟨rfl, rfl, rfl⟩
    simp

/-- In exact arithmetic (over every linearly ordered field of scalars with an exact square
root), `Length(v) = 0` exactly when every component of `v` is 0; `Normalize(v)` fails (the
`CHECK_NE` of the scalar division fires) exactly then, and for every other `v` it
succeeds. -/
theorem Vector3.Normalize_fails_iff_zero_exact (sqrt : K → K) (hs : IsSqrt sqrt)
    (v : Vector3 K) :
    (v.Length sqrt = 0 ↔ v.x = 0 ∧ v.y = 0 ∧ v.z = 0) ∧
    (v.Normalize sqrt = none ↔ v = ⟨0, 0, 0⟩) ∧
    (v ≠ ⟨0, 0, 0⟩ → ∃ r, v.Normalize sqrt = some r) := by
  obtain ⟨x, y, z⟩ := v
  have hlen : (Vector3.mk x y z).Length sqrt = 0 ↔ x = 0 ∧ y = 0 ∧ z = 0 := by
    simp only [Vector3.Length]
    rw [hs.eq_zero_iff (Vector3.LengthSquared_nonneg _)]
    exact sq_sum3_eq_zero_iff x y z
  have hnone : (Vector3.mk x y z).Normalize sqrt = none ↔
      (Vector3.mk x y z) = ⟨0, 0, 0⟩ := by
    rw [Vector3.mk.injEq, ← hlen]
    simp only [Vector3.Normalize, Vector3.div]
    split_ifs with h
    · simp [h]
    · simp [h]
  refine ⟨hlen, hnone, fun hv => ?_⟩
  rcases hopt : (Vector3.mk x y z).Normalize sqrt with _ | r
  · exact absurd (hnone.1 hopt) hv
  · exact ⟨r, rfl⟩

end NormalizeZero

/-- C24 (as amended): over every scalar type, `Normalize(v)` fails (the `CHECK_NE` of the
scalar division fires) if and only if the computed `Length(v)` is exactly 0, and otherwise
it returns `v` scaled by `1 / Length(v)`; the zero vector has computed length 0, hence
fails, as soon as `0 * 0 + 0 * 0 + 0 * 0 = 0` and `sqrt 0 = 0` in the scalar arithmetic. -/
theorem Normalize_fails_iff_length_zero {T : Type} [Zero T] [One T] [Add T] [Mul T] [Div T]
    [DecidableEq T] (sqrt : T → T) (v : Vector3 T) :
    (v.Normalize sqrt = none ↔ v.Length sqrt = 0) ∧
    (v.Length sqrt ≠ 0 →
      v.Normalize sqrt = some ⟨v.x * (1 / v.Length sqrt), v.y * (1 / v.Length sqrt),
        v.z * (1 / v.Length sqrt)⟩) ∧
    ((0 : T) * 0 + 0 * 0 + 0 * 0 = 0 → sqrt 0 = 0 →
      (⟨0, 0, 0⟩ : Vector3 T).Length sqrt = 0 ∧
        (⟨0, 0, 0⟩ : Vector3 T).Normalize sqrt = none) := by
  refine ⟨?_, ?_, ?_⟩
  · simp only [Vector3.Normalize, Vector3.div]
    split_ifs with h <;> simp [h]
  · intro h
    simp only [Vector3.Normalize, Vector3.div, if_neg h]
  · intro h0 hs
    have hl : (⟨0, 0, 0⟩ : Vector3 T).Length sqrt = 0 := by
      simp only [Vector3.Length, Vector3.LengthSquared, h0, hs]
    refine ⟨hl, ?_⟩
    simp only [Vector3.Normalize, Vector3.div, if_pos hl]

/-- Witness of C24 (as amended), in binary32: `(3, 0, 4)` has computed length 5 and is
normalized to `(3, 0, 4)` scaled by the value nearest to `1/5`, and the zero vector
fails. -/
theorem Normalize_fails_iff_length_zero_witness :
    Vector3.Length FP.sqrt (⟨3, 0, 4⟩ : Vector3 (FP binary32)) = 5 ∧
    Vector3.Length FP.sqrt (⟨3, 0, 4⟩ : Vector3 (FP binary32)) ≠ 0 ∧
    Vector3.Normalize FP.sqrt (⟨3, 0, 4⟩ : Vector3 (FP binary32)) =
      some ⟨3 * (1 / Vector3.Length FP.sqrt (⟨3, 0, 4⟩ : Vector3 (FP binary32))),
        0 * (1 / Vector3.Length FP.sqrt (⟨3, 0, 4⟩ : Vector3 (FP binary32))),
        4 * (1 / Vector3.Length FP.sqrt (⟨3, 0, 4⟩ : Vector3 (FP binary32)))⟩ ∧
    Vector3.Normalize FP.sqrt (⟨0, 0, 0⟩ : Vector3 (FP binary32)) = none :=
  ⟨by decide, by decide,
    (Normalize_fails_iff_length_zero FP.sqrt (⟨3, 0, 4⟩ : Vector3 (FP binary32))).2.1
      (by decide),
    ((Normalize_fails_iff_length_zero FP.sqrt (⟨0, 0, 0⟩ : Vector3 (FP binary32))).2.2
      (by decide) (by decide)).2⟩

/-- C24 as stated fails in binary32: the vector `(1e-30, 0, 0)` is not the zero vector,
yet its squared length, about `1e-60`, underflows to 0, its computed length is 0 and
`Normalize` fails. -/
theorem Normalize_fails_iff_length_zero_counterexample :
    (⟨1e-30, 0, 0⟩ : Vector3 (FP binary32)) ≠ ⟨0, 0, 0⟩ ∧
    (1e-30 : FP binary32) = .fin 332307 (-118) ∧
    Vector3.Length FP.sqrt (⟨1e-30, 0, 0⟩ : Vector3 (FP binary32)) = 0 ∧
    Vector3.Normalize FP.sqrt (⟨1e-30, 0, 0⟩ : Vector3 (FP binary32)) = none := by
  decide

/-! ## C26, C27: the cross product -/

theorem Vector3.neg_mk_vector {T : Type} [Neg T] (a b c : T) :
    -(Vector3.mk a b c) = Vector3.mk (-a) (-b) (-c) := rfl

/-- C26: in exact arithmetic (any commutative ring of scalars) `Cross` is the right-handed
cross product: `x × y = z`, `y × z = x`, `z × x = y`, and for all vectors `a`, `b`,
`Cross(a, b) = -Cross(b, a)` and `Cross(a, a) = 0`. -/
theorem Cross_right_handed {T : Type} [CommRing T] (a b : Vector3 T) :
    Vector3.Cross (⟨1, 0, 0⟩ : Vector3 T) ⟨0, 1, 0⟩ = ⟨0, 0, 1⟩ ∧
      Vector3.Cross (⟨0, 1, 0⟩ : Vector3 T) ⟨0, 0, 1⟩ = ⟨1, 0, 0⟩ ∧
      Vector3.Cross (⟨0, 0, 1⟩ : Vector3 T) ⟨1, 0, 0⟩ = ⟨0, 1, 0⟩ ∧
      Vector3.Cross a b = -(Vector3.Cross b a) ∧
      Vector3.Cross a a = Vector3.zero := by
  obtain ⟨ax, ay, az⟩ := a
  obtain ⟨bx, by1, bz⟩ := b
  simp only [Vector3.Cross, Vector3.neg_mk_vector, Vector3.zero, Vector3.mk.injEq]
  refine ⟨⟨?_, ?_, ?_⟩, ⟨?_, ?_, ?_⟩, ⟨?_, ?_, ?_⟩, ⟨?_, ?_, ?_⟩, ?_, ?_, ?_⟩ <;> ring

/-- C27: in exact arithmetic (any commutative ring of scalars), for all vectors `a`, `b`
and every normal `n`, `Cross(a, b)` is orthogonal to `a` and to `b`, and the same holds for
the overloads `Cross(a, n)` and `Cross(n, a)` with the matching overloads of `Dot`. -/
theorem Cross_orthogonal_to_arguments {T : Type} [CommRing T] (a b : Vector3 T)
    (n : Normal3 T) :
    (Vector3.Dot (Vector3.Cross a b) a = 0 ∧ Vector3.Dot (Vector3.Cross a b) b = 0) ∧
      (Vector3.Dot (Vector3.CrossNormal a n) a = 0 ∧
        Vector3.DotNormal (Vector3.CrossNormal a n) n = 0 ∧
        Normal3.Dot n (Vector3.CrossNormal a n) = 0) ∧
      (Vector3.Dot (Normal3.Cross n a) a = 0 ∧
        Vector3.DotNormal (Normal3.Cross n a) n = 0 ∧
        Normal3.Dot n (Normal3.Cross n a) = 0) := by
  obtain ⟨ax, ay, az⟩ := a
  obtain ⟨bx, by1, bz⟩ := b
  obtain ⟨nx, ny, nz⟩ := n
  simp only [Vector3.Cross, Vector3.CrossNormal, Normal3.Cross, Vector3.Dot,
    Vector3.DotNormal, Normal3.Dot]
  refine ⟨⟨?_, ?_⟩, ⟨?_, ?_, ?_⟩, ?_, ?_, ?_⟩ <;> ring

/-! ## C28: the divisor of `CoordinateSystem` -/

/-- C28: with an exact square root, for every unit-length vector `v1` the scalar that
`CoordinateSystem` divides by is strictly positive in whichever branch is taken, and the
`CHECK_NE` of the vector division does not fire. -/
theorem CoordinateSystem_divisor_pos {K : Type} [LinearOrderedField K] (sqrt : K → K)
    (hs : IsSqrt sqrt) (v1 : Vector3 K) (h1 : v1.Length sqrt = 1) :
    (|v1.x| > |v1.y| →
      0 < v1.x * v1.x + v1.z * v1.z ∧ 0 < sqrt (v1.x * v1.x + v1.z * v1.z)) ∧
    (¬ |v1.x| > |v1.y| →
      0 < v1.y * v1.y + v1.z * v1.z ∧ 0 < sqrt (v1.y * v1.y + v1.z * v1.z)) ∧
    CoordinateSystem sqrt v1 ≠ none := by
  obtain ⟨x, y, z⟩ := v1
  have hunit : x * x + y * y + z * z = 1 := by
    have h := (hs _ (Vector3.LengthSquared_nonneg ⟨x, y, z⟩)).2
    simp only [Vector3.Length] at h1
    rw [h1] at h
    simp only [Vector3.LengthSquared] at h
    linarith
  have hA : |x| > |y| → 0 < x * x + z * z := by
    intro hxy
    have hx : x ≠ 0 := by
      rintro rfl
      simp only [abs_zero, gt_iff_lt] at hxy
      exact absurd hxy (not_lt.2 (abs_nonneg y))
    have := mul_self_pos.2 hx
    nlinarith [mul_self_nonneg z]
  have hB : ¬ |x| > |y| → 0 < y * y + z * z := by
    intro hxy
    by_contra hcon
    have hy : y = 0 := by
      by_contra hy
      have := mul_self_pos.2 hy
      exact hcon (by nlinarith [mul_self_nonneg z])
    have hz : z = 0 := by
      by_contra hz
      have := mul_self_pos.2 hz
      exact hcon (by nlinarith [mul_self_nonneg y])
    have hx : x = 0 := by
      rw [hy, abs_zero, gt_iff_lt, not_lt] at hxy
      exact abs_eq_zero.1 (le_antisymm hxy (abs_nonneg x))
    rw [hx, hy, hz] at hunit
    norm_num at hunit
  refine ⟨fun h => ⟨hA h, hs.pos (hA h)⟩, fun h => ⟨hB h, hs.pos (hB h)⟩, ?_⟩
  by_cases hxy : |x| > |y|
  · simp only [CoordinateSystem, if_pos hxy, Vector3.div, if_neg (hs.pos (hA hxy)).ne.symm]
    simp
  · simp only [CoordinateSystem, if_neg hxy, Vector3.div, if_neg (hs.pos (hB hxy)).ne.symm]
    simp

/-- Witness of C28: over the reals, the unit vector `(0, 0, 1)` takes the second branch,
whose divisor is `sqrt (0 + 1)`. -/
theorem CoordinateSystem_divisor_pos_witness :
    CoordinateSystem Real.sqrt (⟨0, 0, 1⟩ : Vector3 ℝ) ≠ none :=
  (CoordinateSystem_divisor_pos Real.sqrt isSqrt_real ⟨0, 0, 1⟩ (by
    simp [Vector3.Length, Vector3.LengthSquared])).2.2

/-! ## C23: the placement regions of `ShapeTestCylinderScene` -/

/-- In an extension, a range of slots holds spheres of the region `P` if the old part did
and the new part does. -/
theorem Gen.Le.spheresIn {K : Type} (P : Point3 K → Prop) {g g' : Gen K} (h : g.Le g') (lo : ℕ)
    (hold : g.dev.SpheresIn P lo g.curNum)
    (hnew : g'.dev.SpheresIn P (max lo g.curNum) g'.curNum) :
    g'.dev.SpheresIn P lo g'.curNum := by
  intro i h1 hi
  rcases lt_or_le i g.curNum with hlt | hge
  · obtain ⟨c, r, m, hs, hP⟩ := hold i h1 hlt
    exact ⟨c, r, m, h.sphereAt hlt hs, hP⟩
  · exact hnew i (max_le h1 hge) hi

/-- In an extension, a range of old slots holds the spheres it held. -/
theorem Gen.Le.spheresIn_below {K : Type} (P : Point3 K → Prop) {g g' : Gen K} (h : g.Le g')
    (lo : ℕ) {hi : ℕ} (hhi : hi ≤ g.curNum) (hold : g.dev.SpheresIn P lo hi) :
    g'.dev.SpheresIn P lo hi := by
  intro i h1 h2
  obtain ⟨c, r, m, hs, hP⟩ := hold i h1 h2
  exact ⟨c, r, m, h.sphereAt (lt_of_lt_of_le h2 hhi) hs, hP⟩

/-- The final assignments leave every shape in its slot. -/
theorem Gen.finish_shapeAt {K : Type} (g : Gen K) {i : ℕ} {s : Shape K}
    (h : g.dev.shapeAt i = some s) : g.finish.shapeAt i = some s := by
  have hext : g.dev.Ext g.finish := by
    intro a o ha
    simp only [Gen.finish, Device.new]
    exact getElem?_append_of_some _ ha
  exact hext.ext_shapeAt rfl h

theorem spheresIn_pushSphere {K : Type} (P : Point3 K → Prop) (lo : ℕ) (g : Gen K) (c : Point3 K)
    (r : K) (m : Material K) (hc : P c) (hold : g.dev.SpheresIn P lo g.curNum) :
    (g.pushSphere c r m).dev.SpheresIn P lo (g.pushSphere c r m).curNum := by
  refine (Gen.le_pushSphere g c r m).spheresIn P lo hold (fun i hge hlt => ?_)
  have hi : i = g.curNum :=
    le_antisymm (Nat.lt_succ_iff.1 hlt) ((le_max_right _ _).trans hge)
  subst hi
  exact ⟨c, r, m, Gen.pushSphere_sphereAt_self g c r m, hc⟩

/-- The final assignments leave the spheres of a range of slots in place. -/
theorem Gen.finish_spheresIn {K : Type} (P : Point3 K → Prop) (g : Gen K) (lo hi : ℕ)
    (h : g.dev.SpheresIn P lo hi) : g.finish.SpheresIn P lo hi := by
  intro i h1 h2
  obtain ⟨c, r, m, hs, hP⟩ := h i h1 h2
  exact ⟨c, r, m, Gen.finish_sphereAt _ hs, hP⟩

section Regions
variable {K : Type} [LinearOrderedField K]

/-- The length of `center - Point3f(ax, center.y, az)` is the horizontal distance of the
centre from the axis through `(ax, ·, az)`. -/
theorem Length_sub_eq_horizontalDistance (sqrt : K → K) (x y z ax az : K) :
    Vector3.Length sqrt ((⟨x, y, z⟩ : Point3 K) - (⟨ax, y, az⟩ : Point3 K)) =
      horizontalDistance sqrt ⟨x, y, z⟩ ax az := by
  have h : ((⟨x, y, z⟩ : Point3 K) - (⟨ax, y, az⟩ : Point3 K)) =
      (⟨x - ax, y - y, z - az⟩ : Vector3 K) := rfl
  rw [h]
  simp only [Vector3.Length, Vector3.LengthSquared, horizontalDistance, sub_self, mul_zero,
    add_zero]

theorem spheresIn_placeSpheres (P : Point3 K → Prop) (lo : ℕ) (rnd : ℕ → K) (u : K)
    (c : Point3 K) (r rin : K) (g : Gen K) (hc : P c)
    (hold : g.dev.SpheresIn P lo g.curNum) :
    (placeSpheres rnd u c r rin g).dev.SpheresIn P lo
      (placeSpheres rnd u c r rin g).curNum := by
  rcases placeSpheres_cases rnd u c r rin g with ⟨k, m, h⟩ | h
  · rw [h]
    exact spheresIn_pushSphere P lo _ c r m hc hold
  · rw [h]
    exact spheresIn_pushSphere P lo _ c rin _ hc (spheresIn_pushSphere P lo g c r _ hc hold)

theorem le_upperBody (sqrt : K → K) (rnd : ℕ → K) (a b : ℤ) (g : Gen K) :
    g.Le (ShapeTestCylinderScene.upperBody sqrt rnd a b g) := by
  unfold ShapeTestCylinderScene.upperBody
  simp only
  split_ifs
  · exact (Gen.le_advance g 4).trans (le_placeSpheres rnd _ _ _ _ _)
  · exact Gen.le_advance g 4

theorem le_lowerBody (sqrt : K → K) (rnd : ℕ → K) (a b : K) (g : Gen K) :
    g.Le (ShapeTestCylinderScene.lowerBody sqrt rnd a b g) := by
  unfold ShapeTestCylinderScene.lowerBody
  simp only
  split_ifs
  · exact (Gen.le_advance g 4).trans (le_placeSpheres rnd _ _ _ _ _)
  · exact Gen.le_advance g 4

/-- An iteration of the upper loop keeps the slots from `lo` on in the upper region. -/
theorem spheresIn_upperBody (sqrt : K → K) (rnd : ℕ → K) (a b : ℤ) (lo : ℕ) (g : Gen K)
    (hold : g.dev.SpheresIn (UpperAnnulus sqrt) lo g.curNum) :
    (ShapeTestCylinderScene.upperBody sqrt rnd a b g).dev.SpheresIn (UpperAnnulus sqrt) lo
      (ShapeTestCylinderScene.upperBody sqrt rnd a b g).curNum := by
  unfold ShapeTestCylinderScene.upperBody
  simp only
  split_ifs with hacc
  · refine spheresIn_placeSpheres (UpperAnnulus sqrt) lo rnd _ _ _ _ _ ?_ hold
    rw [Length_sub_eq_horizontalDistance] at hacc
    exact hacc
  · exact hold

/-- An iteration of the lower loop keeps the slots from `lo` on in the lower region. -/
theorem spheresIn_lowerBody (sqrt : K → K) (rnd : ℕ → K) (a b : K) (lo : ℕ) (g : Gen K)
    (hold : g.dev.SpheresIn (LowerAnnulus sqrt) lo g.curNum) :
    (ShapeTestCylinderScene.lowerBody sqrt rnd a b g).dev.SpheresIn (LowerAnnulus sqrt) lo
      (ShapeTestCylinderScene.lowerBody sqrt rnd a b g).curNum := by
  unfold ShapeTestCylinderScene.lowerBody
  simp only
  split_ifs with hacc
  · refine spheresIn_placeSpheres (LowerAnnulus sqrt) lo rnd _ _ _ _ _ ?_ hold
    simp only [Length_sub_eq_horizontalDistance, ge_iff_le] at hacc
    exact ⟨hacc.2.1, hacc.1, hacc.2.2⟩
  · exact hold


/-- The two parts make up the generator. -/
theorem ShapeTestCylinderScene.gen_eq_parts (sqrt : K → K) (rnd : ℕ → K) (width height : ℤ)
    (st : Device K) :
    ShapeTestCylinderScene.gen sqrt rnd width height st =
      ShapeTestCylinderScene.lowerPart sqrt rnd
        (ShapeTestCylinderScene.upperPart sqrt rnd width height st) := rfl

/-- When the upper loop has ended, the count is at least 8 and the slots from 8 on hold
spheres of the upper region. -/
theorem spheresIn_upperPart (sqrt : K → K) (rnd : ℕ → K) (width height : ℤ) (st : Device K) :
    8 ≤ (ShapeTestCylinderScene.upperPart sqrt rnd width height st).curNum ∧
      (ShapeTestCylinderScene.upperPart sqrt rnd width height st).dev.SpheresIn
        (UpperAnnulus sqrt) 8
        (ShapeTestCylinderScene.upperPart sqrt rnd width height st).curNum := by
  unfold ShapeTestCylinderScene.upperPart
  simp only [Device.new]
  refine forLoop_induction _ _ _
    (fun g : Gen K => 8 ≤ g.curNum ∧ g.dev.SpheresIn (UpperAnnulus sqrt) 8 g.curNum)
    (fun a g hg => ?_) _ _ _ ⟨le_refl _, fun i h1 h2 => absurd h2 (not_lt.2 h1)⟩
  refine forLoop_induction _ _ _
    (fun g : Gen K => 8 ≤ g.curNum ∧ g.dev.SpheresIn (UpperAnnulus sqrt) 8 g.curNum)
    (fun b g hg => ?_) _ _ _ hg
  exact ⟨le_trans hg.1 (le_upperBody sqrt rnd a b g).1,
    spheresIn_upperBody sqrt rnd a b 8 g hg.2⟩

/-- The second part keeps the spheres of the upper loop in their slots, puts the first
cylinder of the column in the next slot, and fills the slots from the eleventh after that
on with spheres of the lower region. -/
theorem spheresIn_lowerPart (sqrt : K → K) (rnd : ℕ → K) (g : Gen K) (lo : ℕ)
    (hold : g.dev.SpheresIn (UpperAnnulus sqrt) lo g.curNum) :
    g.curNum + 11 ≤ (ShapeTestCylinderScene.lowerPart sqrt rnd g).curNum ∧
      (ShapeTestCylinderScene.lowerPart sqrt rnd g).dev.SpheresIn (UpperAnnulus sqrt) lo
        g.curNum ∧
      (ShapeTestCylinderScene.lowerPart sqrt rnd g).dev.SpheresIn (LowerAnnulus sqrt)
        (g.curNum + 11) (ShapeTestCylinderScene.lowerPart sqrt rnd g).curNum ∧
      ∃ ma, (ShapeTestCylinderScene.lowerPart sqrt rnd g).dev.shapeAt g.curNum =
        some (Shape.Cylinder ⟨0, 0.375, 0⟩ 0.6 0.0 0.15 ma) := by
  unfold ShapeTestCylinderScene.lowerPart
  simp only
  refine forLoop_induction _ _ _
    (fun t : Gen K => g.curNum + 11 ≤ t.curNum ∧
      t.dev.SpheresIn (UpperAnnulus sqrt) lo g.curNum ∧
      t.dev.SpheresIn (LowerAnnulus sqrt) (g.curNum + 11) t.curNum ∧
      ∃ ma, t.dev.shapeAt g.curNum = some (Shape.Cylinder ⟨0, 0.375, 0⟩ 0.6 0.0 0.15 ma))
    (fun a t ht => ?_) _ _ _ ?_
  · refine forLoop_induction _ _ _
      (fun t : Gen K => g.curNum + 11 ≤ t.curNum ∧
        t.dev.SpheresIn (UpperAnnulus sqrt) lo g.curNum ∧
        t.dev.SpheresIn (LowerAnnulus sqrt) (g.curNum + 11) t.curNum ∧
        ∃ ma, t.dev.shapeAt g.curNum = some (Shape.Cylinder ⟨0, 0.375, 0⟩ 0.6 0.0 0.15 ma))
      (fun b t ht => ?_) _ _ _ ht
    have hle := le_lowerBody sqrt rnd a b t
    obtain ⟨h1, h2, h3, ma, h4⟩ := ht
    exact ⟨le_trans h1 hle.1, hle.spheresIn_below _ lo (by omega) h2,
      spheresIn_lowerBody sqrt rnd a b _ t h3, ma, hle.shapeAt (by omega) h4⟩
  · refine ⟨le_refl _, ?_, fun i h1 h2 => absurd h2 (not_lt.2 h1), g.dev.heap.length, ?_⟩
    · refine Gen.Le.spheresIn_below _ ?_ lo (le_refl _) hold
      iterate 5 refine Gen.Le.trans ?_ (Gen.le_pushCylinder _ _ _ _ _ _)
      refine Gen.Le.trans ?_ (Gen.le_pushSphere _ _ _ _)
      iterate 5 refine Gen.Le.trans ?_ (Gen.le_pushCylinder _ _ _ _ _ _)
      exact Gen.Le.refl _
    · refine Gen.Le.shapeAt ?_ (Nat.lt_succ_self _)
        (Gen.pushCylinder_shapeAt_self g ⟨0, 0.375, 0⟩ 0.6 0.0 0.15
          (Material.Lambertian ⟨1.0, 1.0, 1.0⟩))
      iterate 5 refine Gen.Le.trans ?_ (Gen.le_pushCylinder _ _ _ _ _ _)
      refine Gen.Le.trans ?_ (Gen.le_pushSphere _ _ _ _)
      iterate 4 refine Gen.Le.trans ?_ (Gen.le_pushCylinder _ _ _ _ _ _)
      exact Gen.Le.refl _


/-- C23: in `ShapeTestCylinderScene`, with `n1` the count of shapes when the upper loop has
ended and `n` the final count, the slots 8 to `n1 - 1` (the spheres of the upper loop) hold
spheres whose centre has a horizontal distance `r` from the vertical axis with
`0.6 + (y - 0.35) < r ≤ 3.0 - (y - 0.35)`, slot `n1` holds the first cylinder of the
column, and the slots `n1 + 11` to `n - 1` (the spheres of the lower loop) hold spheres
with `3.0 + (y - 0.2) ≤ r ≤ 4.0 - (y - 0.2)` and a horizontal distance of at least `y` from
each of the four pillar axes `(±2.5, ±2.5)`, `y` being the height of the centre; and every
slot that an iteration of the upper or of the lower loop fills holds such a sphere. -/
theorem decoration_spheres_in_annuli (sqrt : K → K) (rnd : ℕ → K) (width height : ℤ)
    (st : Device K) (a b : ℤ) (fa fb : K) (g : Gen K) :
    (ShapeTestCylinderScene.gen sqrt rnd width height st =
        ShapeTestCylinderScene.lowerPart sqrt rnd
          (ShapeTestCylinderScene.upperPart sqrt rnd width height st) ∧
      ∃ n : ℕ, (ShapeTestCylinderScene sqrt rnd ⟨0, 0⟩ width height st).shapeAtAddr
          (ShapeTestCylinderScene sqrt rnd ⟨0, 0⟩ width height st).d_world =
            some (Shape.ShapeList n) ∧
        8 ≤ (ShapeTestCylinderScene.upperPart sqrt rnd width height st).curNum ∧
        (ShapeTestCylinderScene.upperPart sqrt rnd width height st).curNum + 11 ≤ n ∧
        (ShapeTestCylinderScene sqrt rnd ⟨0, 0⟩ width height st).SpheresIn (UpperAnnulus sqrt)
          8 (ShapeTestCylinderScene.upperPart sqrt rnd width height st).curNum ∧
        (ShapeTestCylinderScene sqrt rnd ⟨0, 0⟩ width height st).SpheresIn (LowerAnnulus sqrt)
          ((ShapeTestCylinderScene.upperPart sqrt rnd width height st).curNum + 11) n ∧
        ∃ ma, (ShapeTestCylinderScene sqrt rnd ⟨0, 0⟩ width height st).shapeAt
            (ShapeTestCylinderScene.upperPart sqrt rnd width height st).curNum =
          some (Shape.Cylinder ⟨0, 0.375, 0⟩ 0.6 0.0 0.15 ma)) ∧
    (ShapeTestCylinderScene.upperBody sqrt rnd a b g).dev.SpheresIn (UpperAnnulus sqrt)
      g.curNum (ShapeTestCylinderScene.upperBody sqrt rnd a b g).curNum ∧
    (ShapeTestCylinderScene.lowerBody sqrt rnd fa fb g).dev.SpheresIn (LowerAnnulus sqrt)
      g.curNum (ShapeTestCylinderScene.lowerBody sqrt rnd fa fb g).curNum := by
  have hd : (ThreadId.mk 0 0).designated := ⟨rfl, rfl⟩
  refine ⟨⟨ShapeTestCylinderScene.gen_eq_parts sqrt rnd width height st, ?_⟩,
    spheresIn_upperBody sqrt rnd a b _ g (fun i h1 h2 => absurd h2 (not_lt.2 h1)),
    spheresIn_lowerBody sqrt rnd fa fb _ g (fun i h1 h2 => absurd h2 (not_lt.2 h1))⟩
  obtain ⟨h8, hU⟩ := spheresIn_upperPart sqrt rnd width height st
  obtain ⟨hn, hU2, hL, ma, hc⟩ := spheresIn_lowerPart sqrt rnd _ 8 hU
  rw [ShapeTestCylinderScene, if_pos hd, ShapeTestCylinderScene.gen_eq_parts]
  exact ⟨_, Gen.finish_world _, h8, hn, Gen.finish_spheresIn _ _ _ _ hU2,
    Gen.finish_spheresIn _ _ _ _ hL, ma, Gen.finish_shapeAt _ hc⟩

end Regions

/-! ## C30: `Hit` leaves the ray as it is -/

/-- C30: `YZRect::Hit` never changes the ray: on success and on failure alike, `ray.o`,
`ray.d`, `ray.time` and the mutable `ray.tMax` are after the call what they were before. -/
theorem YZRect_Hit_leaves_ray (self : YZRect) (ShadowEpsilon : Float) (ray : Ray)
    (record : HitRecord) :
    (self.Hit ShadowEpsilon ray record).ray = ray ∧
      (self.Hit ShadowEpsilon ray record).ray.o = ray.o ∧
      (self.Hit ShadowEpsilon ray record).ray.d = ray.d ∧
      (self.Hit ShadowEpsilon ray record).ray.time = ray.time ∧
      (self.Hit ShadowEpsilon ray record).ray.tMax = ray.tMax := by
  have key : (self.Hit ShadowEpsilon ray record).ray = ray := by
    unfold YZRect.Hit
    simp only
    split_ifs <;> rfl
  rw [key]
  exact ⟨rfl, rfl, rfl, rfl, rfl⟩

/-! ## C25: what a successful `Hit` records -/

/-- C25 (as amended): whenever `YZRect::Hit` returns true (for any rectangle, ray and
incoming record, special values included) the record holds `rec.t = (k - ray.o.x) / ray.d.x`,
`rec.p = ray.o + rec.t * ray.d`, `rec.u = (rec.p.y - y0) / (y1 - y0)`,
`rec.v = (rec.p.z - z0) / (z1 - z0)` and `rec.mat` is the rectangle's own material; and
when the rectangle and the ray are finite, `tMax` is not NaN and `d.x ≠ 0`, then
`ShadowEpsilon < rec.t ≤ ray.tMax`. -/
theorem YZRect_Hit_record_populated (self : YZRect) (ShadowEpsilon : Float) (ray : Ray)
    (record : HitRecord) (y0 y1 z0 z1 k eps ox oy oz dx dy dz : ℚ) (mat : MaterialPtr)
    (tMax time : Float) :
    ((self.Hit ShadowEpsilon ray record).ret = true →
      (self.Hit ShadowEpsilon ray record).record.t = (self.k - ray.o.x) / ray.d.x ∧
      (self.Hit ShadowEpsilon ray record).record.p =
        ray.o + ray.d * (self.Hit ShadowEpsilon ray record).record.t ∧
      (self.Hit ShadowEpsilon ray record).record.u =
        ((self.Hit ShadowEpsilon ray record).record.p.y - self.y0) / (self.y1 - self.y0) ∧
      (self.Hit ShadowEpsilon ray record).record.v =
        ((self.Hit ShadowEpsilon ray record).record.p.z - self.z0) / (self.z1 - self.z0) ∧
      (self.Hit ShadowEpsilon ray record).record.mat = self.material) ∧
    (dx ≠ 0 → tMax ≠ nan →
      (YZRect.Hit ⟨fin y0, fin y1, fin z0, fin z1, fin k, mat⟩ (fin eps)
        ⟨⟨fin ox, fin oy, fin oz⟩, ⟨fin dx, fin dy, fin dz⟩, tMax, time⟩ record).ret = true →
      fin eps < (YZRect.Hit ⟨fin y0, fin y1, fin z0, fin z1, fin k, mat⟩ (fin eps)
        ⟨⟨fin ox, fin oy, fin oz⟩, ⟨fin dx, fin dy, fin dz⟩, tMax, time⟩ record).record.t ∧
      (YZRect.Hit ⟨fin y0, fin y1, fin z0, fin z1, fin k, mat⟩ (fin eps)
        ⟨⟨fin ox, fin oy, fin oz⟩, ⟨fin dx, fin dy, fin dz⟩, tMax, time⟩ record).record.t ≤
        tMax) := by
  constructor
  · intro h
    unfold YZRect.Hit at h ⊢
    simp only at h ⊢
    split_ifs at h ⊢ <;> exact ⟨rfl, rfl, rfl, rfl, rfl⟩
  · intro hdx htMax h
    obtain ⟨h1, h2, -, -, -, -, hrec⟩ :=
      YZRect.Hit_fin_of_ret y0 y1 z0 z1 k eps ox oy oz dx dy dz mat tMax time record hdx h
    rw [hrec]
    exact ⟨(fin_lt_fin _ _).2 h1, (not_lt_iff_le (by simp) htMax).1 h2⟩

/-- Witness of C25 (as amended): a slanted ray that meets the square `[0,2] × [0,2]` in the
plane `x = 3` at `t = 1`. -/
theorem YZRect_Hit_record_populated_witness :
    fin (1 / 1000) < (YZRect.Hit ⟨fin 0, fin 2, fin 0, fin 2, fin 3, 7⟩ (fin (1 / 1000))
        ⟨⟨fin 1, fin 0, fin 0⟩, ⟨fin 2, fin 1, fin 1⟩, pinf, fin 0⟩
        ⟨fin 0, ⟨fin 0, fin 0, fin 0⟩, ⟨fin 0, fin 0, fin 0⟩, fin 0, fin 0, 0⟩).record.t ∧
      (YZRect.Hit ⟨fin 0, fin 2, fin 0, fin 2, fin 3, 7⟩ (fin (1 / 1000))
        ⟨⟨fin 1, fin 0, fin 0⟩, ⟨fin 2, fin 1, fin 1⟩, pinf, fin 0⟩
        ⟨fin 0, ⟨fin 0, fin 0, fin 0⟩, ⟨fin 0, fin 0, fin 0⟩, fin 0, fin 0, 0⟩).record.t ≤
        pinf :=
  (YZRect_Hit_record_populated ⟨fin 0, fin 2, fin 0, fin 2, fin 3, 7⟩ (fin (1 / 1000))
    ⟨⟨fin 1, fin 0, fin 0⟩, ⟨fin 2, fin 1, fin 1⟩, pinf, fin 0⟩
    ⟨fin 0, ⟨fin 0, fin 0, fin 0⟩, ⟨fin 0, fin 0, fin 0⟩, fin 0, fin 0, 0⟩
    0 2 0 2 3 (1 / 1000) 1 0 0 2 1 1 7 pinf (fin 0)).2 (by norm_num) (by simp)
    (by norm_num [YZRect.Hit, Ray.at, fin_div_fin])

/-- C25 as stated fails: the ray from `(2, 9, 9)` in direction `(0, 0, 1)` lies in the plane
`x = 2` of the rectangle `[0,1] × [0,1]`; `YZRect::Hit` returns true with `rec.t = 0/0`, a
NaN, for which neither `ShadowEpsilon < rec.t` nor `rec.t ≤ ray.tMax` holds. -/
theorem YZRect_Hit_record_populated_counterexample :
    (YZRect.Hit ⟨fin 0, fin 1, fin 0, fin 1, fin 2, 7⟩ (fin (1 / 1000))
        ⟨⟨fin 2, fin 9, fin 9⟩, ⟨fin 0, fin 0, fin 1⟩, fin 50, fin 0⟩
        ⟨fin 0, ⟨fin 0, fin 0, fin 0⟩, ⟨fin 0, fin 0, fin 0⟩, fin 0, fin 0, 0⟩).ret = true ∧
      ¬ (fin (1 / 1000) < (YZRect.Hit ⟨fin 0, fin 1, fin 0, fin 1, fin 2, 7⟩ (fin (1 / 1000))
        ⟨⟨fin 2, fin 9, fin 9⟩, ⟨fin 0, fin 0, fin 1⟩, fin 50, fin 0⟩
        ⟨fin 0, ⟨fin 0, fin 0, fin 0⟩, ⟨fin 0, fin 0, fin 0⟩, fin 0, fin 0, 0⟩).record.t) ∧
      ¬ ((YZRect.Hit ⟨fin 0, fin 1, fin 0, fin 1, fin 2, 7⟩ (fin (1 / 1000))
        ⟨⟨fin 2, fin 9, fin 9⟩, ⟨fin 0, fin 0, fin 1⟩, fin 50, fin 0⟩
        ⟨fin 0, ⟨fin 0, fin 0, fin 0⟩, ⟨fin 0, fin 0, fin 0⟩, fin 0, fin 0, 0⟩).record.t ≤
        fin 50) := by
  refine ⟨?_, ?_, ?_⟩ <;> simp [YZRect.Hit, Ray.at, fin_div_fin]

/-! ## C29: rays parallel to the plane -/

section Parallel

theorem Float.pinf_mul_fin (b : ℚ) :
    pinf * fin b = if b = 0 then nan else if 0 < b then pinf else ninf := rfl

theorem Float.fin_add_pinf (a : ℚ) : fin a + pinf = pinf := rfl

theorem Float.fin_add_ninf (a : ℚ) : fin a + ninf = ninf := rfl

theorem Float.ninf_le_fin (a : ℚ) : ninf ≤ fin a := by
  show Float.ble ninf (fin a) = true
  rfl

theorem Float.not_pinf_le_fin (a : ℚ) : ¬ pinf ≤ fin a := by
  show ¬ Float.ble pinf (fin a) = true
  simp [Float.ble]

/-- A coordinate `o + d * (+∞)` with `d ≠ 0` is outside every finite range. -/
theorem Float.ray_coordinate_at_pinf (o d lo hi : ℚ) (hd : d ≠ 0) :
    fin o + pinf * fin d < fin lo ∨ fin o + pinf * fin d > fin hi := by
  rw [Float.pinf_mul_fin, if_neg hd]
  by_cases h : 0 < d
  · rw [if_pos h, Float.fin_add_pinf]
    exact Or.inr (fin_lt_pinf _)
  · rw [if_neg h, Float.fin_add_ninf]
    exact Or.inl (ninf_lt_fin _)

end Parallel

/-- C29 (as amended): for every YZRect with finite bounds and every ray with finite origin
whose direction has zero x component and is not the zero vector, and whose origin is off
the plane of the rectangle (`o.x ≠ k`), `YZRect::Hit` reports no hit, for every `tMax`. -/
theorem YZRect_Hit_parallel_off_plane (y0 y1 z0 z1 k eps ox oy oz dy dz : ℚ)
    (mat : MaterialPtr) (tMax time : Float) (record : HitRecord) (hoff : ox ≠ k)
    (hdir : dy ≠ 0 ∨ dz ≠ 0) :
    (YZRect.Hit ⟨fin y0, fin y1, fin z0, fin z1, fin k, mat⟩ (fin eps)
      ⟨⟨fin ox, fin oy, fin oz⟩, ⟨fin 0, fin dy, fin dz⟩, tMax, time⟩ record).ret = false := by
  have hne : k - ox ≠ 0 := sub_ne_zero.2 (Ne.symm hoff)
  have ht : (fin k - fin ox) / fin 0 = if 0 < k - ox then pinf else ninf := by
    rw [fin_sub_fin, fin_div_fin, if_pos rfl, if_neg hne]
  unfold YZRect.Hit
  simp only [ht]
  by_cases hpos : 0 < k - ox
  · simp only [if_pos hpos]
    have h2 : (fin oy + pinf * fin dy < fin y0 ∨ fin oy + pinf * fin dy > fin y1 ∨
        fin oz + pinf * fin dz < fin z0 ∨ fin oz + pinf * fin dz > fin z1) := by
      rcases hdir with hd | hd
      · rcases Float.ray_coordinate_at_pinf oy dy y0 y1 hd with h | h
        · exact Or.inl h
        · exact Or.inr (Or.inl h)
      · rcases Float.ray_coordinate_at_pinf oz dz z0 z1 hd with h | h
        · exact Or.inr (Or.inr (Or.inl h))
        · exact Or.inr (Or.inr (Or.inr h))
    simp only [Ray.at, Point3.add_y, Point3.add_z, Vector3.mul_y, Vector3.mul_z, if_pos h2]
    split_ifs <;> rfl
  · simp only [if_neg hpos]
    rw [if_pos (Or.inr (Float.ninf_le_fin eps))]

/-- Witness of C29 (as amended): the ray from `(0, 1/2, 1/2)` in direction `(0, 1, 0)` runs
parallel to the plane `x = 2` of the unit square, with `tMax = +∞`; no hit is reported. -/
theorem YZRect_Hit_parallel_off_plane_witness :
    (YZRect.Hit ⟨fin 0, fin 1, fin 0, fin 1, fin 2, 7⟩ (fin (1 / 1000))
      ⟨⟨fin 0, fin (1 / 2), fin (1 / 2)⟩, ⟨fin 0, fin 1, fin 0⟩, pinf, fin 0⟩
      ⟨fin 0, ⟨fin 0, fin 0, fin 0⟩, ⟨fin 0, fin 0, fin 0⟩, fin 0, fin 0, 0⟩).ret = false :=
  YZRect_Hit_parallel_off_plane 0 1 0 1 2 (1 / 1000) 0 (1 / 2) (1 / 2) 1 0 7 pinf (fin 0)
    ⟨fin 0, ⟨fin 0, fin 0, fin 0⟩, ⟨fin 0, fin 0, fin 0⟩, fin 0, fin 0, 0⟩ (by norm_num)
    (Or.inl (by norm_num))

/-- C29 as stated fails.  The ray from `(2, 9, 9)` in direction `(0, 0, 1)` has `d.x = 0`
and lies in the plane `x = 2` of the rectangle `[0,1] × [0,1]`, which it never meets;
`t = 0/0` is NaN, every comparison with it is false, and `YZRect::Hit` returns true.  So
does the ray from `(0, 9, 9)` with the zero direction and `tMax = +∞`, off the plane. -/
theorem YZRect_Hit_parallel_off_plane_counterexample :
    (YZRect.Hit ⟨fin 0, fin 1, fin 0, fin 1, fin 2, 7⟩ (fin (1 / 1000))
        ⟨⟨fin 2, fin 9, fin 9⟩, ⟨fin 0, fin 0, fin 1⟩, fin 50, fin 0⟩
        ⟨fin 0, ⟨fin 0, fin 0, fin 0⟩, ⟨fin 0, fin 0, fin 0⟩, fin 0, fin 0, 0⟩).ret = true ∧
      (YZRect.Hit ⟨fin 0, fin 1, fin 0, fin 1, fin 2, 7⟩ (fin (1 / 1000))
        ⟨⟨fin 0, fin 9, fin 9⟩, ⟨fin 0, fin 0, fin 0⟩, pinf, fin 0⟩
        ⟨fin 0, ⟨fin 0, fin 0, fin 0⟩, ⟨fin 0, fin 0, fin 0⟩, fin 0, fin 0, 0⟩).ret = true := by
  constructor
  · simp [YZRect.Hit, Ray.at, fin_div_fin]
  · simp [YZRect.Hit, Ray.at, fin_div_fin, Float.pinf_mul_fin, Float.not_pinf_le_fin]

/-! ## C31: `SampleScene` fills the shape array contiguously -/

/-- A loop over `int` with step 1 runs its body at most `stop - start` times: a measure
that a run of the body raises by at most `c` is raised by at most `c * (stop - start)`. -/
theorem forLoop_int_bound {σ : Type} (body : ℤ → σ → σ) (μ : σ → ℕ) (c : ℕ)
    (hbody : ∀ a s, μ (body a s) ≤ μ s + c) (stop : ℤ) :
    ∀ (fuel : ℕ) (start : ℤ) (s : σ),
      μ (forLoop stop 1 body fuel start s) ≤ μ s + c * (stop - start).toNat := by
  intro fuel
  induction fuel with
  | zero =>
    intro start s
    exact Nat.le_add_right _ _
  | succ n ih =>
    intro start s
    unfold forLoop
    split_ifs with hlt
    · have h1 := ih (start + 1) (body start s)
      have h2 := hbody start s
      have h3 : (stop - start).toNat = (stop - (start + 1)).toNat + 1 := by omega
      rw [h3, Nat.mul_succ]
      omega
    · exact Nat.le_add_right _ _

/-- An assignment `shapes[curNum++] = new Sphere(..., new M(...))` keeps the array
contiguously filled. -/
theorem Gen.contiguous_pushSphere {K : Type} (base : ℕ) (d0 : ℕ → Addr) (g : Gen K)
    (c : Point3 K) (r : K) (m : Material K) (h : g.Contiguous base d0) :
    (g.pushSphere c r m).Contiguous base d0 := by
  obtain ⟨hlen, hslots, hrest⟩ := h
  refine ⟨?_, fun i hi => ?_, fun i hi => ?_⟩
  · simp only [Gen.pushSphere, Device.newSphereAt_heap, List.length_append, hlen,
      List.length_cons, List.length_nil]
    ring
  · simp only [Gen.pushSphere, Device.newSphereAt_heap, Device.newSphereAt_d_list] at hi ⊢
    rcases Nat.lt_succ_iff_lt_or_eq.1 hi with hlt | heq
    · obtain ⟨h1, ⟨c', r', h2⟩, ⟨mat, h3⟩⟩ := hslots i hlt
      refine ⟨?_, ⟨c', r', getElem?_append_of_some _ h2⟩, ⟨mat, getElem?_append_of_some _ h3⟩⟩
      rw [Function.update_noteq hlt.ne]
      exact h1
    · subst heq
      have hb : base + 2 * g.curNum = g.dev.heap.length := hlen.symm
      refine ⟨?_, ⟨c, r, ?_⟩, ⟨m, ?_⟩⟩
      · rw [Function.update_same, hlen]
      · rw [hb]
        exact getElem?_append_pair_snd _ _ _
      · rw [hb]
        exact getElem?_append_pair_fst _ _ _
  · simp only [Gen.pushSphere, Device.newSphereAt_d_list] at hi ⊢
    rw [Function.update_noteq (by omega)]
    exact hrest i (by omega)

/-- Drawing random numbers keeps the array contiguously filled. -/
theorem Gen.contiguous_advance {K : Type} (base : ℕ) (d0 : ℕ → Addr) (g : Gen K) (n : ℕ)
    (h : g.Contiguous base d0) : (g.advance n).Contiguous base d0 := h

section Contiguous
variable {K : Type} [LinearOrderedField K]

/-- The choice of material adds one or two shapes. -/
theorem placeSpheres_curNum_le (rnd : ℕ → K) (u : K) (c : Point3 K) (r rin : K) (g : Gen K) :
    (placeSpheres rnd u c r rin g).curNum ≤ g.curNum + 2 := by
  rcases placeSpheres_cases rnd u c r rin g with ⟨k, m, hp⟩ | hp
  · rw [hp]
    exact Nat.le_succ _
  · rw [hp]
    exact le_refl _

theorem contiguous_placeSpheres (base : ℕ) (d0 : ℕ → Addr) (rnd : ℕ → K) (u : K)
    (c : Point3 K) (r rin : K) (g : Gen K) (h : g.Contiguous base d0) :
    (placeSpheres rnd u c r rin g).Contiguous base d0 := by
  rcases placeSpheres_cases rnd u c r rin g with ⟨k, m, hp⟩ | hp
  · rw [hp]
    exact Gen.contiguous_pushSphere base d0 _ c r m (Gen.contiguous_advance base d0 g k h)
  · rw [hp]
    exact Gen.contiguous_pushSphere base d0 _ c rin _
      (Gen.contiguous_pushSphere base d0 g c r _ h)

/-- An iteration of the inner loop of `SampleScene` adds at most two shapes. -/
theorem SampleScene_body_curNum_le (sqrt : K → K) (rnd : ℕ → K) (a b : ℤ) (g : Gen K) :
    (SampleScene.body sqrt rnd a b g).curNum ≤ g.curNum + 2 := by
  unfold SampleScene.body
  simp only
  split_ifs
  · exact placeSpheres_curNum_le rnd _ _ _ _ _
  · exact Nat.le_add_right _ _

/-- An iteration of the inner loop of `SampleScene` keeps the array contiguously filled. -/
theorem contiguous_SampleScene_body (base : ℕ) (d0 : ℕ → Addr) (sqrt : K → K) (rnd : ℕ → K)
    (a b : ℤ) (g : Gen K) (h : g.Contiguous base d0) :
    (SampleScene.body sqrt rnd a b g).Contiguous base d0 := by
  unfold SampleScene.body
  simp only
  split_ifs
  · exact contiguous_placeSpheres base d0 rnd _ _ _ _ _ (Gen.contiguous_advance base d0 g 3 h)
  · exact Gen.contiguous_advance base d0 g 3 h

/-- The two loops of `SampleScene` keep the array contiguously filled. -/
theorem contiguous_SampleScene_loops (base : ℕ) (d0 : ℕ → Addr) (sqrt : K → K) (rnd : ℕ → K)
    (g : Gen K) (h : g.Contiguous base d0) :
    (SampleScene.loops sqrt rnd g).Contiguous base d0 := by
  unfold SampleScene.loops
  refine forLoop_induction _ _ _ (fun t : Gen K => t.Contiguous base d0)
    (fun a t ht => ?_) _ _ _ h
  exact forLoop_induction _ _ _ (fun t : Gen K => t.Contiguous base d0)
    (fun b t ht => contiguous_SampleScene_body base d0 sqrt rnd a b t ht) _ _ _ ht

/-- The two loops of `SampleScene` only extend the state. -/
theorem le_SampleScene_loops (sqrt : K → K) (rnd : ℕ → K) (g : Gen K) :
    g.Le (SampleScene.loops sqrt rnd g) := by
  unfold SampleScene.loops
  refine forLoop_induction _ _ _ (fun t : Gen K => g.Le t) (fun a t ht => ?_) _ _ _
    (Gen.Le.refl g)
  exact ht.trans (le_SampleScene_inner sqrt rnd a _ _ t)

/-- The two loops of `SampleScene` add at most `2 * 22 * 22 = 968` shapes: each of the
`22 * 22` iterations adds at most two. -/
theorem SampleScene_loops_curNum_le (sqrt : K → K) (rnd : ℕ → K) (g : Gen K) :
    (SampleScene.loops sqrt rnd g).curNum ≤ g.curNum + 968 := by
  unfold SampleScene.loops
  have hinner : ∀ (a : ℤ) (t : Gen K),
      (forLoop (11 : ℤ) 1 (fun b g => SampleScene.body sqrt rnd a b g) 23 (-11) t).curNum ≤
        t.curNum + 44 := by
    intro a t
    have h := forLoop_int_bound (fun b g => SampleScene.body sqrt rnd a b g) Gen.curNum 2
      (fun b s => SampleScene_body_curNum_le sqrt rnd a b s) 11 23 (-11) t
    have h22 : ((11 : ℤ) - (-11)).toNat = 22 := by decide
    rw [h22] at h
    exact h
  have h := forLoop_int_bound
    (fun a g => forLoop (11 : ℤ) 1 (fun b g => SampleScene.body sqrt rnd a b g) 23 (-11) g)
    Gen.curNum 44 hinner 11 23 (-11) g
  have h22 : ((11 : ℤ) - (-11)).toNat = 22 := by decide
  rw [h22] at h
  exact h

/-- The generator of `SampleScene` fills the array contiguously, from a heap that holds the
camera on top of the initial objects, with between 4 and 972 shapes. -/
theorem contiguous_SampleScene_gen (sqrt : K → K) (rnd : ℕ → K) (width height : ℤ)
    (st : Device K) :
    (SampleScene.gen sqrt rnd width height st).Contiguous (st.heap.length + 1) st.d_list ∧
      4 ≤ (SampleScene.gen sqrt rnd width height st).curNum ∧
      (SampleScene.gen sqrt rnd width height st).curNum ≤ 972 ∧
      st.Ext (SampleScene.gen sqrt rnd width height st).dev := by
  unfold SampleScene.gen
  simp only [Device.new]
  refine ⟨?_, ?_, ?_, ?_⟩
  · iterate 3 refine Gen.contiguous_pushSphere _ _ _ _ _ _ ?_
    refine contiguous_SampleScene_loops _ _ _ _ _ ?_
    refine Gen.contiguous_pushSphere _ _ _ _ _ _ ?_
    refine ⟨?_, fun i hi => absurd hi (Nat.not_lt_zero _), fun i _ => rfl⟩
    simp
  · simp only [Gen.pushSphere_curNum]
    refine le_trans ?_ (Nat.add_le_add_right (Nat.add_le_add_right (Nat.add_le_add_right
      (le_SampleScene_loops sqrt rnd _).1 1) 1) 1)
    exact le_refl _
  · simp only [Gen.pushSphere_curNum]
    refine le_trans (Nat.add_le_add_right (Nat.add_le_add_right (Nat.add_le_add_right
      (SampleScene_loops_curNum_le sqrt rnd _) 1) 1) 1) ?_
    exact le_refl _
  · iterate 3 refine Device.Ext.ext_trans ?_ (Gen.le_pushSphere _ _ _ _).2.1
    refine Device.Ext.ext_trans ?_ (le_SampleScene_loops sqrt rnd _).2.1
    refine Device.Ext.ext_trans ?_ (Gen.le_pushSphere _ _ _ _).2.1
    intro a o h
    exact getElem?_append_of_some _ h

end Contiguous

/-- The final assignments only extend the heap. -/
theorem Gen.ext_finish {K : Type} (g : Gen K) : g.dev.Ext g.finish := by
  intro a o ha
  simp only [Gen.finish, Device.new]
  exact getElem?_append_of_some _ ha

/-- C31: for every random stream, `SampleScene` writes the shape array contiguously.  With
`n` the final count and `h` the number of objects allocated before the call: `4 ≤ n ≤ 972`;
the `ShapeList` is created with `numShapes = n`; the heap has grown by the camera, by a
material and a sphere for each of `n` assignments, and by the `ShapeList`; slot `i < n`
points to the sphere of the `i`-th assignment (address `h + 2 i + 2`), which owns the
material allocated just before it (address `h + 2 i + 1`), so each of the slots `0..n-1`
is assigned exactly once; every slot `i ≥ n` holds what it held before the call; and no
object allocated before the call is touched. -/
theorem SampleScene_fills_contiguously {K : Type} [LinearOrderedField K] (sqrt : K → K)
    (rnd : ℕ → K) (width height : ℤ) (st : Device K) :
    ∃ n : ℕ, 4 ≤ n ∧ n ≤ 972 ∧
      (SampleScene sqrt rnd ⟨0, 0⟩ width height st).shapeAtAddr
        (SampleScene sqrt rnd ⟨0, 0⟩ width height st).d_world = some (Shape.ShapeList n) ∧
      (SampleScene sqrt rnd ⟨0, 0⟩ width height st).heap.length =
        st.heap.length + 2 * n + 2 ∧
      (∀ i, i < n →
        (SampleScene sqrt rnd ⟨0, 0⟩ width height st).d_list i = st.heap.length + 2 * i + 2 ∧
        (∃ c r, (SampleScene sqrt rnd ⟨0, 0⟩ width height st).shapeAt i =
          some (Shape.Sphere c r (st.heap.length + 2 * i + 1))) ∧
        (∃ mat, (SampleScene sqrt rnd ⟨0, 0⟩ width height st).materialAt
          (st.heap.length + 2 * i + 1) = some mat)) ∧
      (∀ i, n ≤ i → (SampleScene sqrt rnd ⟨0, 0⟩ width height st).d_list i = st.d_list i) ∧
      st.Ext (SampleScene sqrt rnd ⟨0, 0⟩ width height st) := by
  have hd : (ThreadId.mk 0 0).designated := ⟨rfl, rfl⟩
  obtain ⟨⟨hlen, hslots, hrest⟩, h4, h972, hext⟩ :=
    contiguous_SampleScene_gen sqrt rnd width height st
  rw [SampleScene, if_pos hd]
  generalize SampleScene.gen sqrt rnd width height st = g at hlen hslots hrest h4 h972 hext ⊢
  have hfl : g.finish.heap.length = g.dev.heap.length + 1 := by
    simp [Gen.finish, Device.new]
  have hfd : g.finish.d_list = g.dev.d_list := rfl
  refine ⟨g.curNum, h4, h972, Gen.finish_world g, ?_, fun i hi => ?_, fun i hi => ?_,
    hext.ext_trans (Gen.ext_finish g)⟩
  · rw [hfl, hlen]
    ring
  · obtain ⟨h1, ⟨c, r, h2⟩, ⟨mat, h3⟩⟩ := hslots i hi
    have e1 : st.heap.length + 2 * i + 2 = st.heap.length + 1 + 2 * i + 1 := by ring
    have e2 : st.heap.length + 2 * i + 1 = st.heap.length + 1 + 2 * i := by ring
    rw [e1, e2, hfd]
    refine ⟨h1, ⟨c, r, Gen.finish_shapeAt g ?_⟩, ⟨mat, ?_⟩⟩
    · rw [Device.shapeAt_eq, h1]
      simp only [Device.shapeAtAddr, h2]
    · have h4 := Gen.ext_finish g _ _ h3
      simp only [Device.materialAt, h4]
  · rw [hfd]
    exact hrest i hi

end raytracer
